import Mathlib

/-! # Liveliness QoS of Fast-RTPS: policy compatibility, lease monitor, assertion engine

The repository sources at hand are the black-box liveliness tests, their
`PublishingParticipant` / `SubscribingParticipant` helpers, the liveliness example and
`PDPClient.cpp`.  The writer liveliness protocol and the liveliness manager themselves are not
among them; they are modelled from the specification (sections 3, 4.1 to 4.6) and checked
against the expectations of the black-box tests.  The test participants, `main` of the example
with `LivelinessSubscriber::init`, and the functions of `PDPClient` are embedded from the
sources; what they call in the library is taken as an argument.
-/

namespace Liveliness

/-! ## Data model (specification, section 3) -/

/-- Modelled from the spec: `LivelinessKind` (section 3), the enumeration
`AUTOMATIC_LIVELINESS_QOS`, `MANUAL_BY_PARTICIPANT_LIVELINESS_QOS`,
`MANUAL_BY_TOPIC_LIVELINESS_QOS` used by the tests; its declaration is not in the sources. -/
inductive LivelinessKind where
  | Automatic
  | ManualByParticipant
  | ManualByTopic
deriving DecidableEq, Repr

/-- Modelled from the spec: position of a kind in the strict order
Automatic < ManualByParticipant < ManualByTopic (section 3). -/
def LivelinessKind.rank : LivelinessKind → Nat
  | .Automatic => 0
  | .ManualByParticipant => 1
  | .ManualByTopic => 2

instance : LE LivelinessKind := ⟨fun a b => a.rank ≤ b.rank⟩
instance : LT LivelinessKind := ⟨fun a b => a.rank < b.rank⟩

instance (a b : LivelinessKind) : Decidable (a ≤ b) := inferInstanceAs (Decidable (a.rank ≤ b.rank))
instance (a b : LivelinessKind) : Decidable (a < b) := inferInstanceAs (Decidable (a.rank < b.rank))

/-- Modelled from the spec: `Duration` (section 3): nanoseconds, finite or +∞, non-negative;
+∞ means "never expires".  The declaration of `Duration_t` is not in the sources.  Instants of
the monotonic clock are natural numbers of nanoseconds. -/
inductive Duration where
  | finite (ns : Nat)
  | infinite
deriving DecidableEq, Repr

/-- Modelled from the spec: the order of durations (section 3), with +∞ on top. -/
def Duration.le : Duration → Duration → Bool
  | .finite a, .finite b => decide (a ≤ b)
  | _, .infinite => true
  | .infinite, .finite _ => false

instance : LE Duration := ⟨fun a b => Duration.le a b = true⟩

instance (a b : Duration) : Decidable (a ≤ b) := inferInstanceAs (Decidable (Duration.le a b = true))

/-- A duration given in milliseconds. -/
def Duration.ms (n : Nat) : Duration := .finite (n * 1000000)

/-- Modelled from the spec: `OfferedLiveliness` (section 3), the liveliness QoS of a writer. -/
structure OfferedLiveliness where
  kind : LivelinessKind
  lease_duration : Duration
  announcement_period : Duration
deriving DecidableEq, Repr

/-- Modelled from the spec: `RequestedLiveliness` (section 3), the liveliness QoS of a reader. -/
structure RequestedLiveliness where
  kind : LivelinessKind
  lease_duration : Duration
deriving DecidableEq, Repr

/-! ## Policy compatibility (specification, section 4.1) -/

/-- Modelled from the spec: the Policy Compatibility decision applied at match time
(section 4.1); the matching code of the discovery layer is not in the sources.  The offer is
turned down when the offered kind is weaker than the requested one, then when the offered lease
is longer than the requested one; equality in both dimensions is compatible. -/
def compatible (offered : OfferedLiveliness) (requested : RequestedLiveliness) : Bool :=
  if offered.kind.rank < requested.kind.rank then false
  else if Duration.le offered.lease_duration requested.lease_duration then true
  else false

/-! ## Reader Lease Monitor (specification, section 4.4) -/

/-- Modelled from the spec: `WriterId` (section 3), the globally unique pair
(participant, entity) of a writer. -/
structure WriterId where
  participant : Nat
  entity : Nat
deriving DecidableEq, Repr

/-- Modelled from the spec: the instant `now + lease_duration` of the lifecycle rule
(section 3); an infinite lease never expires. -/
def deadline_after (now : Nat) : Duration → Option Nat
  | .finite ns => some (now + ns)
  | .infinite => none

/-- Modelled from the spec: the test `deadline ≤ now` of the scheduling rule (section 4.4). -/
def deadline_reached (deadline : Option Nat) (now : Nat) : Bool :=
  match deadline with
  | some t => decide (t ≤ now)
  | none => false

/-- Modelled from the spec: `LeaseEntry` (section 3), one per `MatchRecord` of the owning
reader, with the offered kind and the effective lease recorded in that `MatchRecord`. -/
structure LeaseEntry where
  writer : WriterId
  kind : LivelinessKind
  lease_duration : Duration
  deadline : Option Nat
  alive : Bool
deriving DecidableEq, Repr

/-- Modelled from the spec: `LivelinessChangedStatus` (section 3), the status handed to
`on_liveliness_changed`; its declaration is not in the sources. -/
structure LivelinessChangedStatus where
  alive_count : Int
  not_alive_count : Int
  alive_count_change : Int
  not_alive_count_change : Int
  last_publication_handle : Option WriterId
deriving DecidableEq, Repr

/-- Modelled from the spec: state of the Reader Lease Monitor of one reader (section 4.4):
its lease table, the current status, and the snapshots handed to the Status Bus so far, in
order of delivery. -/
structure ReaderMonitor where
  entries : List LeaseEntry
  status : LivelinessChangedStatus
  delivered : List LivelinessChangedStatus
deriving DecidableEq, Repr

/-- Modelled from the spec: the lease monitor of a reader with no matched writer. -/
def ReaderMonitor.empty : ReaderMonitor :=
  { entries := [], status := ⟨0, 0, 0, 0, none⟩, delivered := [] }

/-- Modelled from the spec: Status Bus delivery (section 4.6): the delivery carries the status
snapshot and the change fields are reset to zero after the callback returns. -/
def ReaderMonitor.publish (m : ReaderMonitor) : ReaderMonitor :=
  { m with
    delivered := m.delivered ++ [m.status]
    status := { m.status with alive_count_change := 0, not_alive_count_change := 0 } }

/-- Modelled from the spec: what a match does to the lease table (the code of the lease
monitor is not in the sources), together with the alternative that the black-box tests
require.  `alive_on_match` is the spec (section 3, Lifecycle, and section 4.4, Match): the
entry is created alive and the match is notified.  `alive_on_assertion` is not the spec's and
contradicts both passages: the entry is created not alive and the first assertion makes it
alive, which is what `TwoWriters_TwoReaders_ManualByTopic` expects (two pairs are matched, one
writer asserts, and the test expects one recovery and, after the silence, one loss). -/
inductive MatchPolicy where
  | alive_on_match
  | alive_on_assertion
deriving DecidableEq, Repr

/-- Modelled from the spec: whether the reader holds a lease entry for the writer (one per
`MatchRecord`, section 3). -/
def ReaderMonitor.is_matched (m : ReaderMonitor) (w : WriterId) : Bool :=
  m.entries.any (fun e => e.writer == w)

/-- Modelled from the spec: the *Match* input of the Reader Lease Monitor (section 4.4), whose
code is not in the sources.  This is the branch `alive_on_match`: create
`LeaseEntry{deadline = now + lease_duration, alive = true}`, increment `alive_count`, add one
to `alive_count_change`, enqueue a notification.  The branch `alive_on_assertion` departs from
the spec (it contradicts section 3, Lifecycle, and section 4.4, Match) and follows the
black-box tests instead: the entry is created not alive, counted in `not_alive_count`, and
nothing is delivered.  A writer that already has an entry keeps it (one entry per
`MatchRecord`). -/
def ReaderMonitor.on_match (policy : MatchPolicy) (w : WriterId) (kind : LivelinessKind)
    (lease : Duration) (now : Nat) (m : ReaderMonitor) : ReaderMonitor :=
  if m.is_matched w then m
  else
    match policy with
    | .alive_on_match =>
      ReaderMonitor.publish
        { m with
          entries := m.entries ++ [⟨w, kind, lease, deadline_after now lease, true⟩]
          status := { m.status with
            alive_count := m.status.alive_count + 1
            alive_count_change := m.status.alive_count_change + 1
            last_publication_handle := some w } }
    | .alive_on_assertion =>
      { m with
        entries := m.entries ++ [⟨w, kind, lease, deadline_after now lease, false⟩]
        status := { m.status with
          not_alive_count := m.status.not_alive_count + 1
          not_alive_count_change := m.status.not_alive_count_change + 1 } }

/-- Modelled from the spec: the *Unmatch* input (section 4.4): destroy the `LeaseEntry` and
adjust the count the entry was part of, symmetrically to the match. -/
def ReaderMonitor.on_unmatch (w : WriterId) (m : ReaderMonitor) : ReaderMonitor :=
  match m.entries.find? (fun e => e.writer == w) with
  | none => m
  | some e =>
    { m with
      entries := m.entries.filter (fun e' => !(e'.writer == w))
      status :=
        if e.alive then
          { m.status with
            alive_count := m.status.alive_count - 1
            alive_count_change := m.status.alive_count_change - 1 }
        else
          { m.status with
            not_alive_count := m.status.not_alive_count - 1
            not_alive_count_change := m.status.not_alive_count_change - 1 } }

/-- Modelled from the spec: the entry after an assertion at `now` (section 4.4):
`deadline = now + lease_duration`, alive. -/
def LeaseEntry.refresh (now : Nat) (e : LeaseEntry) : LeaseEntry :=
  { e with deadline := deadline_after now e.lease_duration, alive := true }

/-- Modelled from the spec: the *Assertion received* input (section 4.4): set
`deadline = now + lease_duration`; if previously not alive, transition to alive and publish
`alive_count_change = +1`, `not_alive_count_change = -1`.  An assertion for a writer that is
not matched is ignored. -/
def ReaderMonitor.on_assertion (w : WriterId) (now : Nat) (m : ReaderMonitor) : ReaderMonitor :=
  match m.entries.find? (fun e => e.writer == w) with
  | none => m
  | some e =>
    if e.alive then
      { m with
        entries := m.entries.map (fun e' => if e'.writer == w then e'.refresh now else e') }
    else
      ReaderMonitor.publish
        { m with
          entries := m.entries.map (fun e' => if e'.writer == w then e'.refresh now else e')
          status := { m.status with
            alive_count := m.status.alive_count + 1
            not_alive_count := m.status.not_alive_count - 1
            alive_count_change := m.status.alive_count_change + 1
            not_alive_count_change := m.status.not_alive_count_change - 1
            last_publication_handle := some w } }

/-- Modelled from the spec: an alive entry with `deadline ≤ now` (section 4.4). -/
def LeaseEntry.expired (now : Nat) (e : LeaseEntry) : Bool :=
  e.alive && deadline_reached e.deadline now

/-- Modelled from the spec: the *Deadline expired* input and the scheduling rule
(section 4.4): when the timer fires at `now`, every alive entry with `deadline ≤ now` goes
alive→not-alive and one aggregated notification is emitted for the reader. -/
def ReaderMonitor.on_deadline_expired (now : Nat) (m : ReaderMonitor) : ReaderMonitor :=
  match (m.entries.filter (LeaseEntry.expired now)).getLast? with
  | none => m
  | some last =>
    ReaderMonitor.publish
      { m with
        entries := m.entries.map (fun e => if e.expired now then { e with alive := false } else e)
        status := { m.status with
          alive_count := m.status.alive_count - (m.entries.filter (LeaseEntry.expired now)).length
          not_alive_count :=
            m.status.not_alive_count + (m.entries.filter (LeaseEntry.expired now)).length
          alive_count_change :=
            m.status.alive_count_change - (m.entries.filter (LeaseEntry.expired now)).length
          not_alive_count_change :=
            m.status.not_alive_count_change + (m.entries.filter (LeaseEntry.expired now)).length
          last_publication_handle := some last.writer } }

/-- Modelled from the spec: the inputs of the Reader Lease Monitor (section 4.4). -/
inductive MonitorEvent where
  | matched (w : WriterId) (kind : LivelinessKind) (lease : Duration) (now : Nat)
  | unmatched (w : WriterId)
  | assertion (w : WriterId) (now : Nat)
  | deadline_expired (now : Nat)
deriving DecidableEq, Repr

/-- Modelled from the spec: one input handled by the Reader Lease Monitor (section 4.4). -/
def ReaderMonitor.handle (policy : MatchPolicy) (m : ReaderMonitor) : MonitorEvent → ReaderMonitor
  | .matched w kind lease now => m.on_match policy w kind lease now
  | .unmatched w => m.on_unmatch w
  | .assertion w now => m.on_assertion w now
  | .deadline_expired now => m.on_deadline_expired now

/-- Modelled from the spec: the monitor of a fresh reader after a sequence of inputs. -/
def ReaderMonitor.run (policy : MatchPolicy) (evs : List MonitorEvent) : ReaderMonitor :=
  evs.foldl (ReaderMonitor.handle policy) ReaderMonitor.empty

/-- Modelled from the spec: the Endpoint Registry (section 2, component 2; section 3,
`MatchRecord`): how one event changes the set of writers matched to the reader.  Only match and
unmatch events change it. -/
def registry_step (matched : List WriterId) : MonitorEvent → List WriterId
  | .matched w _ _ _ => if matched.contains w then matched else matched ++ [w]
  | .unmatched w => matched.filter (fun w' => !(w' == w))
  | .assertion _ _ => matched
  | .deadline_expired _ => matched

/-- The writers currently matched to a reader after a sequence of events, as the Endpoint
Registry sees them (each writer once). -/
def currently_matched (evs : List MonitorEvent) : List WriterId :=
  evs.foldl registry_step []

/-! ## Writer Assertion Engine (specification, section 4.2) -/

/-- Modelled from the spec: reliability of an endpoint (`BEST_EFFORT_RELIABILITY_QOS`,
`RELIABLE_RELIABILITY_QOS` in the tests); the declaration is not in the sources. -/
inductive ReliabilityKind where
  | BestEffort
  | Reliable
deriving DecidableEq, Repr

/-- Modelled from the spec: `LivelinessLostStatus` (section 3), the status handed to
`on_liveliness_lost`; its declaration is not in the sources. -/
structure LivelinessLostStatus where
  total_count : Int
  total_count_change : Int
deriving DecidableEq, Repr

/-- Modelled from the spec: `WriterState` (section 3) of one local writer, together with the
writer's identity and QoS and the snapshots handed to its listener so far.  Announcements are
emitted at once, so no pending announcement timer is kept. -/
structure WriterState where
  guid : WriterId
  reliability : ReliabilityKind
  qos : OfferedLiveliness
  last_assertion_time : Option Nat
  alive : Bool
  status : LivelinessLostStatus
  delivered : List LivelinessLostStatus
deriving DecidableEq, Repr

/-- Modelled from the spec: the `WriterState` of a writer as created (section 3).  It has not
asserted yet, so there is no last assertion whose lease could run out; the tests expect no
loss before the first assertion. -/
def WriterState.create (guid : WriterId) (reliability : ReliabilityKind)
    (qos : OfferedLiveliness) : WriterState :=
  { guid := guid, reliability := reliability, qos := qos, last_assertion_time := none,
    alive := false, status := ⟨0, 0⟩, delivered := [] }

/-- Modelled from the spec: Status Bus delivery of a `LivelinessLostStatus` (section 4.6). -/
def WriterState.publish (w : WriterState) : WriterState :=
  { w with
    delivered := w.delivered ++ [w.status]
    status := { w.status with total_count_change := 0 } }

/-- Modelled from the spec: an assertion of the writer (section 4.2): it resets the timer; a
recovery fires no event. -/
def WriterState.assert (now : Nat) (w : WriterState) : WriterState :=
  { w with last_assertion_time := some now, alive := true }

/-- Modelled from the spec: the instant at which the lease of the last assertion runs out
(section 4.2). -/
def WriterState.lease_deadline (w : WriterState) : Option Nat :=
  match w.last_assertion_time with
  | none => none
  | some t => deadline_after t w.qos.lease_duration

/-- Modelled from the spec: whether the writer is alive and failed to assert within
`lease_duration` of its last assertion (section 4.2). -/
def WriterState.lease_expired (now : Nat) (w : WriterState) : Bool :=
  w.alive && deadline_reached w.lease_deadline now

/-- Modelled from the spec: writer-side loss detection (section 4.2): if the engine failed to
assert within `lease_duration` of the last assertion, the writer transitions to lost,
`total_count` increments and `LivelinessLostStatus` is fired. -/
def WriterState.on_timer (now : Nat) (w : WriterState) : WriterState :=
  if w.lease_expired now then
    WriterState.publish
      { w with
        alive := false
        status := { total_count := w.status.total_count + 1
                    total_count_change := w.status.total_count_change + 1 } }
  else w

/-- Modelled from the spec: the inputs of the writer-side engine of one writer
(section 4.2). -/
inductive WriterEvent where
  | asserted (now : Nat)
  | timer (now : Nat)
deriving DecidableEq, Repr

/-- Modelled from the spec: one input handled by the writer-side engine (section 4.2). -/
def WriterState.handle (w : WriterState) : WriterEvent → WriterState
  | .asserted now => w.assert now
  | .timer now => w.on_timer now

/-- The number of alive-to-lost transitions along a sequence of inputs. -/
def lost_transitions (w : WriterState) : List WriterEvent → Nat
  | [] => 0
  | ev :: rest =>
    (if w.alive && !(w.handle ev).alive then 1 else 0) + lost_transitions (w.handle ev) rest

/-! ## Assertions on the wire (specification, sections 4.3 and 4.5) -/

/-- Modelled from the spec: what carries an assertion to the readers (section 4.5): a
participant-scoped message on the Liveliness Channel (automatic or manual-by-participant), a
data sample on the user topic, or a heartbeat on the writer's own data channel. -/
inductive AssertionMessage where
  | participant_scoped (participant : Nat) (kind : LivelinessKind)
  | sample (w : WriterId)
  | heartbeat (w : WriterId)
deriving DecidableEq, Repr

/-- Modelled from the spec: which lease entries of a reader a message asserts (sections 4.3
and 4.5).  A Liveliness Channel message asserts the entries whose writer shares the
(participant, kind); a sample asserts the entry of its writer; a heartbeat does so only on a
reader that processes heartbeats, which a best-effort reader does not. -/
def AssertionMessage.asserts (reader_reliability : ReliabilityKind) (msg : AssertionMessage)
    (writer : WriterId) (kind : LivelinessKind) : Bool :=
  match msg with
  | .participant_scoped p k => writer.participant == p && kind == k
  | .sample w => writer == w
  | .heartbeat w => writer == w && reader_reliability == ReliabilityKind.Reliable

/-- Modelled from the spec: a reader, with its reliability and its lease monitor (section 2,
component 5). -/
structure Reader where
  reliability : ReliabilityKind
  monitor : ReaderMonitor
deriving DecidableEq, Repr

/-- Modelled from the spec: the monitor after an assertion for each of the listed writers
(section 4.3). -/
def ReaderMonitor.assert_all (ws : List WriterId) (now : Nat) (m : ReaderMonitor) :
    ReaderMonitor :=
  ws.foldl (fun m' w => m'.on_assertion w now) m

/-- Modelled from the spec: multiplexing of an incoming assertion over the lease entries of a
reader (section 4.3): every entry the message asserts receives the assertion. -/
def Reader.receive (msg : Option AssertionMessage) (now : Nat) (r : Reader) : Reader :=
  match msg with
  | none => r
  | some msg' =>
    { r with
      monitor := r.monitor.assert_all
        ((r.monitor.entries.filter
          (fun e => msg'.asserts r.reliability e.writer e.kind)).map (fun e => e.writer)) now }

/-- Modelled from the spec: what happens at a reader at time `now`: the deadlines that were
crossed are processed first, then the incoming assertion, if any (wall-clock order,
section 4.4). -/
def Reader.step (now : Nat) (msg : Option AssertionMessage) (r : Reader) : Reader :=
  Reader.receive msg now { r with monitor := r.monitor.on_deadline_expired now }

/-- Modelled from the spec: the writers of a participant an assertion covers (section 4.2):
one writer, or all writers of one kind at one participant. -/
inductive LocalScope where
  | writer (g : WriterId)
  | participant (p : Nat) (kind : LivelinessKind)
deriving DecidableEq, Repr

/-- Modelled from the spec: whether the scope covers the writer with the given identity and
kind (section 4.2). -/
def LocalScope.covers (sc : Option LocalScope) (guid : WriterId) (kind : LivelinessKind) :
    Bool :=
  match sc with
  | none => false
  | some (.writer g) => guid == g
  | some (.participant p k) => guid.participant == p && kind == k

/-- Modelled from the spec: what happens at a writer at time `now`: a lease that ran out is
processed first, then the assertion, if it covers the writer (section 4.2). -/
def WriterState.step (now : Nat) (sc : Option LocalScope) (w : WriterState) : WriterState :=
  if LocalScope.covers sc w.guid w.qos.kind then (w.on_timer now).assert now else w.on_timer now

/-- Modelled from the spec: the effect of an action on the liveliness plane: the local
writers it asserts (section 4.2) and the message it puts on the wire (section 4.5). -/
structure Stimulus where
  scope : Option LocalScope
  message : Option AssertionMessage
deriving DecidableEq, Repr

/-- Modelled from the spec: what the application or the participant does at some instant:
a sample write, `assert_liveliness()`, the automatic announcement of a participant
(section 4.2), or nothing. -/
inductive Action where
  | sample_write (w : WriterId)
  | assert_liveliness (w : WriterId)
  | automatic_tick (participant : Nat)
  | idle
deriving DecidableEq, Repr

/-- Modelled from the spec: the three assertion sources of the Writer Assertion Engine
(section 4.2) and what reaches the readers (section 4.5).
Automatic: only the participant's recurring timer asserts, with one participant-scoped message.
ManualByParticipant: a sample write or `assert_liveliness()` on any such writer asserts all
such writers of the participant, with one participant-scoped message.
ManualByTopic: a sample write or `assert_liveliness()` asserts that writer only; the sample
itself, or a heartbeat, carries the assertion, and a best-effort writer sends no heartbeat
(comment in `ShortLiveliness_ManualByTopic_BestEffort`). -/
def Stimulus.of (src : WriterState) (is_sample : Bool) : Stimulus :=
  match src.qos.kind with
  | .Automatic => ⟨none, none⟩
  | .ManualByParticipant =>
    ⟨some (.participant src.guid.participant .ManualByParticipant),
     some (.participant_scoped src.guid.participant .ManualByParticipant)⟩
  | .ManualByTopic =>
    ⟨some (.writer src.guid),
     if is_sample then some (.sample src.guid)
     else if src.reliability == ReliabilityKind.Reliable then some (.heartbeat src.guid)
     else none⟩

/-- Modelled from the spec: the liveliness state of a set of writers and of the readers
matched to them (sections 2 and 3). -/
structure System where
  writers : List WriterState
  readers : List Reader
deriving DecidableEq, Repr

/-- Modelled from the spec: the stimulus of an action, once the acting writer is looked up
in the Endpoint Registry (section 4.2). -/
def System.resolve (s : System) : Action → Stimulus
  | .sample_write g =>
    match s.writers.find? (fun w => w.guid == g) with
    | none => ⟨none, none⟩
    | some src => Stimulus.of src true
  | .assert_liveliness g =>
    match s.writers.find? (fun w => w.guid == g) with
    | none => ⟨none, none⟩
    | some src => Stimulus.of src false
  | .automatic_tick p =>
    ⟨some (.participant p .Automatic), some (.participant_scoped p .Automatic)⟩
  | .idle => ⟨none, none⟩

/-- Modelled from the spec: one timed action: every writer and every reader processes what
expired by `now`, then the assertion of the action; transport and timers have no latency. -/
def System.step (s : System) (x : Nat × Action) : System :=
  { writers := s.writers.map (WriterState.step x.1 (s.resolve x.2).scope)
    readers := s.readers.map (Reader.step x.1 (s.resolve x.2).message) }

/-- Modelled from the spec: a run of timed actions. -/
def System.run (s : System) (trace : List (Nat × Action)) : System :=
  trace.foldl System.step s

/-! ## Notifications counted over a run -/

/-- Modelled from the spec: the numbers of losses and of recoveries notified to readers in a
run (sections 4.4 and 8).  They are numbers of events, natural numbers; the `unsigned int`
counters of the listener of the black-box tests are `SubscribingParticipant.Listener`. -/
structure ReaderCounts where
  lost : Nat
  recovered : Nat
deriving DecidableEq, Repr

/-- Modelled from the spec: one more notification counted.  A notification is a recovery when
its `alive_count_change` is 1 and a loss otherwise, the rule by which the listener of
`SubscribingParticipant` sorts its callbacks. -/
def ReaderCounts.count (l : ReaderCounts) (status : LivelinessChangedStatus) : ReaderCounts :=
  if status.alive_count_change == 1 then
    { l with recovered := l.recovered + 1 }
  else
    { l with lost := l.lost + 1 }

/-- The counts of a list of notifications. -/
def ReaderCounts.after (callbacks : List LivelinessChangedStatus) : ReaderCounts :=
  callbacks.foldl ReaderCounts.count ⟨0, 0⟩

/-- The notifications delivered to all the readers of the system, counted.  The subscribers
of a `SubscribingParticipant` share one listener; the counts do not depend on how the
callbacks of different subscribers interleave, so they are taken reader by reader.  The
single-pair tests count with the listener of `PubSubReader`, which is not in the sources and
is taken to follow the same rule. -/
def System.subscriber_listener (s : System) : ReaderCounts :=
  ReaderCounts.after (s.readers.map (fun r => r.monitor.delivered)).flatten

/-- The recoveries notified to the readers of the system: what
`SubscribingParticipant::times_liveliness_recovered` reads as long as it has counted fewer
than 2^32 of them. -/
def System.times_liveliness_recovered (s : System) : Nat :=
  s.subscriber_listener.recovered

/-- The losses notified to the readers of the system: what
`SubscribingParticipant::times_liveliness_lost` reads as long as it has counted fewer than
2^32 of them. -/
def System.reader_times_liveliness_lost (s : System) : Nat :=
  s.subscriber_listener.lost

/-- Modelled from the spec: the number of `LivelinessLostStatus` notifications delivered to
writers in a run (section 4.2), a natural number; the `unsigned int` counter of the listener
of the black-box tests is `PublishingParticipant.Listener`. -/
structure WriterCounts where
  lost : Nat
deriving DecidableEq, Repr

/-- Modelled from the spec: one more lost notification counted, whatever the status. -/
def WriterCounts.count (l : WriterCounts) (_status : LivelinessLostStatus) : WriterCounts :=
  { lost := l.lost + 1 }

/-- The lost notifications delivered to all the writers of the system, counted. -/
def System.publisher_listener (s : System) : WriterCounts :=
  (s.writers.map (fun w => w.delivered)).flatten.foldl WriterCounts.count ⟨0⟩

/-- The losses notified to the writers of the system: what
`PublishingParticipant::times_liveliness_lost` reads as long as it has counted fewer than
2^32 of them. -/
def System.writer_times_liveliness_lost (s : System) : Nat :=
  s.publisher_listener.lost

/-! ## Local runs -/

/-- The stimuli of a trace of actions, looked up in the system. -/
def System.stimuli (s : System) (trace : List (Nat × Action)) : List (Nat × Stimulus) :=
  trace.map (fun x => (x.1, s.resolve x.2))

/-- One writer along a sequence of timed stimuli. -/
def WriterState.run (w : WriterState) (stimuli : List (Nat × Stimulus)) : WriterState :=
  stimuli.foldl (fun w' x => w'.step x.1 x.2.scope) w

/-- One reader along a sequence of timed stimuli. -/
def Reader.run (r : Reader) (stimuli : List (Nat × Stimulus)) : Reader :=
  stimuli.foldl (fun r' x => r'.step x.1 x.2.message) r

/-- The callbacks of one reader that the test listener counts as recoveries. -/
def Reader.times_recovered (r : Reader) : Nat :=
  (ReaderCounts.after r.monitor.delivered).recovered

/-- The callbacks of one reader that the test listener counts as losses. -/
def Reader.times_lost (r : Reader) : Nat :=
  (ReaderCounts.after r.monitor.delivered).lost

/-! ## Timing of a sequence of assertions -/

/-- Each instant of the list is followed by a silence longer than `lease` before the next
instant, the last one before `finish`. -/
def separated (lease : Nat) : List Nat → Nat → Prop
  | [], _ => True
  | t :: rest, finish =>
    t + lease < (match rest with | [] => finish | t' :: _ => t') ∧ separated lease rest finish

/-- Each instant of the list comes, in order, less than `lease` after the previous one, the
first one after `prev`. -/
def within_lease (lease : Nat) : Nat → List Nat → Prop
  | _, [] => True
  | prev, t :: rest => prev ≤ t ∧ t < prev + lease ∧ within_lease lease t rest

/-- The action of a call: a sample write or `assert_liveliness()` of the writer. -/
def Action.call (g : WriterId) (is_sample : Bool) : Action :=
  if is_sample then Action.sample_write g else Action.assert_liveliness g

/-- The trace of the timed calls of one writer. -/
def calls_trace (g : WriterId) (calls : List (Nat × Bool)) : List (Nat × Action) :=
  calls.map (fun c => (c.1, Action.call g c.2))

/-- A reader matched to one writer, with lease entry `e`, no change pending delivery, and the
given numbers of recoveries and losses counted by the test listener so far. -/
def Reader.summary (r : Reader) (e : LeaseEntry) (recovered lost : Nat) : Prop :=
  r.monitor.entries = [e] ∧ r.monitor.status.alive_count_change = 0 ∧
  r.times_recovered = recovered ∧ r.times_lost = lost

/-- Whether a call of the writer reaches the lease entries a reader of the given reliability
holds for it (section 4.5): always for ManualByParticipant; for ManualByTopic a sample always
does, and `assert_liveliness()` only when the writer sends heartbeats and the reader processes
them. -/
def WriterState.visible (w : WriterState) (reader_reliability : ReliabilityKind)
    (is_sample : Bool) : Bool :=
  match w.qos.kind with
  | .Automatic => false
  | .ManualByParticipant => true
  | .ManualByTopic =>
    is_sample ||
      (w.reliability == ReliabilityKind.Reliable && reader_reliability == ReliabilityKind.Reliable)

/-- The lease entry belongs to the writer `g`, with kind `k` and the finite lease `L`. -/
def LeaseEntry.is_for (e : LeaseEntry) (g : WriterId) (k : LivelinessKind) (L : Nat) : Prop :=
  e.writer = g ∧ e.kind = k ∧ e.lease_duration = Duration.finite L

/-! ## Fixtures of the black-box tests -/

/-- The writer of a single-pair test as `init()` leaves it: lease of `lease_ms` milliseconds,
announcement period 0.9 times the lease. -/
def test_writer (kind : LivelinessKind) (reliability : ReliabilityKind) (lease_ms : Nat) :
    WriterState :=
  WriterState.create ⟨1, 1⟩ reliability
    ⟨kind, Duration.ms lease_ms, Duration.finite (lease_ms * 900000)⟩

/-- The reader of a single-pair test once discovery has matched it with the writer (at
instant 0), with the lease of the writer. -/
def test_reader (reliability : ReliabilityKind) (w : WriterState) : Reader :=
  ⟨reliability,
    ReaderMonitor.empty.on_match MatchPolicy.alive_on_assertion w.guid w.qos.kind
      w.qos.lease_duration 0⟩

/-- The lease entry the reader of a single-pair test holds after discovery. -/
def test_entry (kind : LivelinessKind) (lease_ms : Nat) : LeaseEntry :=
  ⟨⟨1, 1⟩, kind, Duration.ms lease_ms, some (lease_ms * 1000000), false⟩

/-- Three calls at 100 ms spacing. -/
def three_calls (is_sample : Bool) : List (Nat × Bool) :=
  [(0, is_sample), (100000000, is_sample), (200000000, is_sample)]

/-- The system of a single-pair test after discovery. -/
def test_pair (kind : LivelinessKind) (reliability : ReliabilityKind) (lease_ms : Nat) : System :=
  ⟨[test_writer kind reliability lease_ms],
   [test_reader reliability (test_writer kind reliability lease_ms)]⟩

/-- The instants of `n` firings of a recurring timer of period `period` started at `start`:
`start + period`, `start + 2 * period`, and so on. -/
def periodic (start period : Nat) : Nat → List Nat
  | 0 => []
  | n + 1 => (start + period) :: periodic (start + period) period n

/-- The trace of the automatic announcements of a participant at the given instants. -/
def ticks_trace (participant : Nat) (times : List Nat) : List (Nat × Action) :=
  times.map (fun t => (t, Action.automatic_tick participant))

/-- The stimulus of an automatic announcement of a participant. -/
def automatic_stimulus (participant : Nat) : Stimulus :=
  ⟨some (.participant participant .Automatic),
   some (.participant_scoped participant .Automatic)⟩

/-- The process keeps running: the instants of the trace do not go back, and once the
participant has made an automatic announcement every later instant of the trace is less than
`gap` after the latest one. -/
def announcements_keep_coming (participant gap : Nat) :
    Option Nat → Nat → List (Nat × Action) → Prop
  | _, _, [] => True
  | last, prev, x :: rest =>
    prev ≤ x.1 ∧ (∀ t, last = some t → x.1 < t + gap) ∧
    announcements_keep_coming participant gap
      (if x.2 = Action.automatic_tick participant then some x.1 else last) x.1 rest

/-- A run in which the process keeps announcing every 9 ms while a ManualByParticipant writer
with a 10 ms lease writes one sample at instant 0 and then stays silent. -/
def silent_manual_writer_trace : List (Nat × Action) :=
  [(0, Action.sample_write ⟨1, 1⟩), (9000000, Action.automatic_tick 1),
   (18000000, Action.automatic_tick 1)]

/-- Writer `index` of the two-writer tests (`TwoWriters_TwoReaders_*`), as created. -/
def test_writer_of (index : Nat) (kind : LivelinessKind) (lease_ms : Nat) : WriterState :=
  WriterState.create ⟨1, index⟩ ReliabilityKind.Reliable
    ⟨kind, Duration.ms lease_ms, Duration.finite (lease_ms * 500000)⟩

/-- The lease entry a reader of the two-writer tests holds for writer `index` after
discovery. -/
def test_entry_of (index : Nat) (kind : LivelinessKind) (lease_ms : Nat) : LeaseEntry :=
  ⟨⟨1, index⟩, kind, Duration.ms lease_ms, some (lease_ms * 1000000), false⟩

/-- The reader of the two-writer tests on the topic of writer `index`, after discovery at
instant 0. -/
def test_reader_of (index : Nat) (kind : LivelinessKind) (lease_ms : Nat) : Reader :=
  ⟨ReliabilityKind.Reliable,
    ReaderMonitor.empty.on_match MatchPolicy.alive_on_assertion ⟨1, index⟩ kind
      (Duration.ms lease_ms) 0⟩

/-- An automatic writer with a 20 ms lease under announcements every 18 ms, observed at
40 ms. -/
def two_ticks_trace : List (Nat × Action) :=
  [(18000000, Action.automatic_tick 1), (36000000, Action.automatic_tick 1),
   (40000000, Action.idle)]

/-- The counters of the status agree with the lease table, and no writer has two entries. -/
def ReaderMonitor.consistent (m : ReaderMonitor) : Prop :=
  m.status.alive_count = (m.entries.countP (fun e => e.alive) : Nat) ∧
  m.status.not_alive_count = (m.entries.countP (fun e => !e.alive) : Nat) ∧
  (m.entries.map (fun e => e.writer)).Nodup

/-! ## Endpoint attributes -/

/-- Fields `seconds` and `nanosec` of `Duration_t`, as the constructor of
`PublishingParticipant` writes them; the declaration is not in the sources. -/
structure Duration_t where
  seconds : Int
  nanosec : Nat
deriving DecidableEq, Repr

/-- `TopicKind_t`. -/
inductive TopicKind_t where
  | NO_KEY
  | WITH_KEY
deriving DecidableEq, Repr

/-- `HistoryQosPolicyKind`. -/
inductive HistoryQosPolicyKind where
  | KEEP_LAST_HISTORY_QOS
  | KEEP_ALL_HISTORY_QOS
deriving DecidableEq, Repr

/-- `DurabilityQosPolicyKind`. -/
inductive DurabilityQosPolicyKind where
  | VOLATILE_DURABILITY_QOS
  | TRANSIENT_LOCAL_DURABILITY_QOS
  | TRANSIENT_DURABILITY_QOS
  | PERSISTENT_DURABILITY_QOS
deriving DecidableEq, Repr

/-- The field `topic.historyQos`. -/
structure HistoryQosPolicy where
  kind : HistoryQosPolicyKind
  depth : Int
deriving DecidableEq, Repr

/-- The topic fields the test participants and the example set. -/
structure TopicAttributes where
  topicKind : TopicKind_t
  topicDataType : String
  topicName : String
  historyQos : HistoryQosPolicy
deriving DecidableEq, Repr

/-- The field `qos.m_reliability` of the endpoint attributes. -/
structure ReliabilityQosPolicy where
  kind : ReliabilityKind
deriving DecidableEq, Repr

/-- The field `qos.m_durability` of the endpoint attributes. -/
structure DurabilityQosPolicy where
  kind : DurabilityQosPolicyKind
deriving DecidableEq, Repr

/-- The field `qos.m_liveliness` of the endpoint attributes, the same class for publishers
and subscribers. -/
structure LivelinessQosPolicy where
  kind : LivelinessKind
  lease_duration : Duration_t
  announcement_period : Duration_t
deriving DecidableEq, Repr

/-- The field `qos` of the endpoint attributes, as far as the test participants and the
example touch it. -/
structure EndpointQos where
  m_durability : DurabilityQosPolicy
  m_reliability : ReliabilityQosPolicy
  m_liveliness : LivelinessQosPolicy
deriving DecidableEq, Repr

/-- The memory policies the constructors of the test participants choose from. -/
inductive MemoryManagementPolicy where
  | PREALLOCATED_MEMORY_MODE
  | PREALLOCATED_WITH_REALLOC_MEMORY_MODE
  | DYNAMIC_RESERVE_MEMORY_MODE
deriving DecidableEq, Repr

/-- The field `times` of `SubscriberAttributes`, as far as `SubscribingParticipant` sets
it. -/
structure ReaderTimes where
  heartbeatResponseDelay : Duration_t
deriving DecidableEq, Repr

/-- The fields of `SubscriberAttributes` that `SubscribingParticipant` and
`LivelinessSubscriber` read or write; the declaration of the class is not in the sources. -/
structure SubscriberAttributes where
  topic : TopicAttributes
  qos : EndpointQos
  times : ReaderTimes
  historyMemoryPolicy : MemoryManagementPolicy
deriving DecidableEq, Repr

/-! ## Participants of the black-box tests -/

/-- Counters of `SubscribingParticipant::Listener` (`SubscribingParticipant.hpp`), both
`unsigned int`: 32-bit values, incremented modulo 2^32. -/
structure SubscribingParticipant.Listener where
  times_liveliness_lost_ : Nat
  times_liveliness_recovered_ : Nat
deriving DecidableEq, Repr

/-- `SubscribingParticipant::Listener::on_liveliness_changed`:
`(status.alive_count_change == 1) ? times_liveliness_recovered_++ : times_liveliness_lost_++`,
with `++` on an `unsigned int`. -/
def SubscribingParticipant.Listener.on_liveliness_changed (l : SubscribingParticipant.Listener)
    (status : LivelinessChangedStatus) : SubscribingParticipant.Listener :=
  if status.alive_count_change == 1 then
    { l with times_liveliness_recovered_ := (l.times_liveliness_recovered_ + 1) % 2 ^ 32 }
  else
    { l with times_liveliness_lost_ := (l.times_liveliness_lost_ + 1) % 2 ^ 32 }

/-- Counter of `PublishingParticipant::Listener` (`PublisingParticipant.hpp`), an
`unsigned int`: a 32-bit value, incremented modulo 2^32. -/
structure PublishingParticipant.Listener where
  times_liveliness_lost : Nat
deriving DecidableEq, Repr

/-- `PublishingParticipant::Listener::on_liveliness_lost`: `times_liveliness_lost++` on an
`unsigned int`, whatever the publisher and the status. -/
def PublishingParticipant.Listener.on_liveliness_lost (l : PublishingParticipant.Listener)
    (_status : LivelinessLostStatus) : PublishingParticipant.Listener :=
  { times_liveliness_lost := (l.times_liveliness_lost + 1) % 2 ^ 32 }

/-- The field `times` of `PublisherAttributes`, as far as `PublishingParticipant` sets it. -/
structure WriterTimes where
  heartbeatPeriod : Duration_t
  nackResponseDelay : Duration_t
deriving DecidableEq, Repr

/-- The fields of `PublisherAttributes` that `PublishingParticipant` reads or writes; the
declaration of the class is not in the sources. -/
structure PublisherAttributes where
  topic : TopicAttributes
  qos : EndpointQos
  times : WriterTimes
  historyMemoryPolicy : MemoryManagementPolicy
deriving DecidableEq, Repr

/-- The members of `PublishingParticipant` (`PublisingParticipant.hpp`).  Pointers to the
participant and to the publishers are handles, `none` for `nullptr`; `type_name` is
`type_.getName()`; `domainId` is `participant_attr_.rtps.builtin.domainId`. -/
structure PublishingParticipant where
  participant_ : Option Nat
  domainId : Nat
  num_publishers_ : Nat
  num_expected_subscribers_ : Nat
  publishers_ : List (Option Nat)
  publisher_attr_ : PublisherAttributes
  listener_ : PublishingParticipant.Listener
  matched_ : Nat
  type_name : String
deriving DecidableEq, Repr

/-- The constructor `PublishingParticipant(num_publishers, num_expected_subscribers)`:
`publishers_` gets `num_publishers` null entries, the listener counter and `matched_` start
at 0, and the body sets the memory policy (the one selected at compile time) and the two
100 ms delays.  The default-constructed attributes and the default domain are arguments,
since the attribute classes are not in the sources. -/
def PublishingParticipant.new (num_publishers num_expected_subscribers : Nat)
    (default_attr : PublisherAttributes) (default_domain : Nat)
    (policy : MemoryManagementPolicy) (type_name : String) : PublishingParticipant :=
  { participant_ := none
    domainId := default_domain
    num_publishers_ := num_publishers
    num_expected_subscribers_ := num_expected_subscribers
    publishers_ := List.replicate num_publishers none
    publisher_attr_ :=
      { default_attr with
        historyMemoryPolicy := policy
        times := { heartbeatPeriod := ⟨0, 100000000⟩, nackResponseDelay := ⟨0, 100000000⟩ } }
    listener_ := ⟨0⟩
    matched_ := 0
    type_name := type_name }

/-- `PublishingParticipant::init_participant`: the domain is `(uint32_t)GET_PID() % 230`;
`created` is what `Domain::createParticipant` returns.  The result is whether the participant
was created. -/
def PublishingParticipant.init_participant (p : PublishingParticipant) (pid : Nat)
    (created : Option Nat) : Bool × PublishingParticipant :=
  (created.isSome, { p with domainId := pid % 2 ^ 32 % 230, participant_ := created })

/-- `PublishingParticipant::init_publisher(index)`; `created` is what
`Domain::createPublisher(participant_, publisher_attr_, &listener_)` returns when the call is
reached. -/
def PublishingParticipant.init_publisher (p : PublishingParticipant) (index : Nat)
    (created : Option Nat) : Bool × PublishingParticipant :=
  if p.participant_ = none then (false, p)
  else if index ≥ p.num_publishers_ then (false, p)
  else
    match created with
    | some pub => (true, { p with publishers_ := p.publishers_.set index (some pub) })
    | none => (false, p)

/-- `PublishingParticipant::topic_name`. -/
def PublishingParticipant.topic_name (p : PublishingParticipant) (topicName : String) :
    PublishingParticipant :=
  { p with publisher_attr_ :=
      { p.publisher_attr_ with topic :=
          { p.publisher_attr_.topic with topicDataType := p.type_name, topicName := topicName } } }

/-- `PublishingParticipant::reliability`: `publisher_attr_.qos.m_reliability.kind = kind;
return *this`. -/
def PublishingParticipant.reliability (p : PublishingParticipant) (kind : ReliabilityKind) :
    PublishingParticipant :=
  { p with publisher_attr_ :=
      { p.publisher_attr_ with qos :=
          { p.publisher_attr_.qos with m_reliability := { kind := kind } } } }

/-- `PublishingParticipant::liveliness_kind`: `publisher_attr_.qos.m_liveliness.kind = kind;
return *this`. -/
def PublishingParticipant.liveliness_kind (p : PublishingParticipant) (kind : LivelinessKind) :
    PublishingParticipant :=
  { p with publisher_attr_ :=
      { p.publisher_attr_ with qos :=
          { p.publisher_attr_.qos with m_liveliness :=
              { p.publisher_attr_.qos.m_liveliness with kind := kind } } } }

/-- `PublishingParticipant::liveliness_lease_duration`. -/
def PublishingParticipant.liveliness_lease_duration (p : PublishingParticipant)
    (lease_duration : Duration_t) : PublishingParticipant :=
  { p with publisher_attr_ :=
      { p.publisher_attr_ with qos :=
          { p.publisher_attr_.qos with m_liveliness :=
              { p.publisher_attr_.qos.m_liveliness with lease_duration := lease_duration } } } }

/-- `PublishingParticipant::liveliness_announcement_period`. -/
def PublishingParticipant.liveliness_announcement_period (p : PublishingParticipant)
    (announcement_period : Duration_t) : PublishingParticipant :=
  { p with publisher_attr_ :=
      { p.publisher_attr_ with qos :=
          { p.publisher_attr_.qos with m_liveliness :=
              { p.publisher_attr_.qos.m_liveliness with
                announcement_period := announcement_period } } } }

/-- `PublishingParticipant::times_liveliness_lost`. -/
def PublishingParticipant.times_liveliness_lost (p : PublishingParticipant) : Nat :=
  p.listener_.times_liveliness_lost

/-- The members of `SubscribingParticipant` (`SubscribingParticipant.hpp`), with the same
conventions as for `PublishingParticipant`. -/
structure SubscribingParticipant where
  participant_ : Option Nat
  domainId : Nat
  listener_ : SubscribingParticipant.Listener
  num_subscribers_ : Nat
  num_expected_publishers_ : Nat
  subscribers_ : List (Option Nat)
  subscriber_attr_ : SubscriberAttributes
  matched_ : Nat
  participant_matched_ : Nat
  type_name : String
deriving DecidableEq, Repr

/-- The constructor `SubscribingParticipant(num_subscribers, num_expected_publishers)`.
`tenth` is the `Duration_t` made from the `double` 0.1 (the converting constructor is not in
the sources). -/
def SubscribingParticipant.new (num_subscribers num_expected_publishers : Nat)
    (default_attr : SubscriberAttributes) (default_domain : Nat)
    (policy : MemoryManagementPolicy) (tenth : Duration_t) (type_name : String) :
    SubscribingParticipant :=
  { participant_ := none
    domainId := default_domain
    listener_ := ⟨0, 0⟩
    num_subscribers_ := num_subscribers
    num_expected_publishers_ := num_expected_publishers
    subscribers_ := List.replicate num_subscribers none
    subscriber_attr_ :=
      { default_attr with
        historyMemoryPolicy := policy
        times := { heartbeatResponseDelay := tenth } }
    matched_ := 0
    participant_matched_ := 0
    type_name := type_name }

/-- `SubscribingParticipant::reliability`. -/
def SubscribingParticipant.reliability (s : SubscribingParticipant) (kind : ReliabilityKind) :
    SubscribingParticipant :=
  { s with subscriber_attr_ :=
      { s.subscriber_attr_ with qos :=
          { s.subscriber_attr_.qos with m_reliability := { kind := kind } } } }

/-- `SubscribingParticipant::liveliness_kind`. -/
def SubscribingParticipant.liveliness_kind (s : SubscribingParticipant) (kind : LivelinessKind) :
    SubscribingParticipant :=
  { s with subscriber_attr_ :=
      { s.subscriber_attr_ with qos :=
          { s.subscriber_attr_.qos with m_liveliness :=
              { s.subscriber_attr_.qos.m_liveliness with kind := kind } } } }

/-- `SubscribingParticipant::liveliness_lease_duration`. -/
def SubscribingParticipant.liveliness_lease_duration (s : SubscribingParticipant)
    (lease_duration : Duration_t) : SubscribingParticipant :=
  { s with subscriber_attr_ :=
      { s.subscriber_attr_ with qos :=
          { s.subscriber_attr_.qos with m_liveliness :=
              { s.subscriber_attr_.qos.m_liveliness with lease_duration := lease_duration } } } }

/-- `SubscribingParticipant::topic_name`. -/
def SubscribingParticipant.topic_name (s : SubscribingParticipant) (topicName : String) :
    SubscribingParticipant :=
  { s with subscriber_attr_ :=
      { s.subscriber_attr_ with topic :=
          { s.subscriber_attr_.topic with topicDataType := s.type_name, topicName := topicName } } }

/-- `SubscribingParticipant::on_liveliness_changed` reaching the one listener of the
participant, whichever subscriber the callback is for. -/
def SubscribingParticipant.on_liveliness_changed (s : SubscribingParticipant)
    (_sub : Nat) (status : LivelinessChangedStatus) : SubscribingParticipant :=
  { s with listener_ := s.listener_.on_liveliness_changed status }

/-- `SubscribingParticipant::times_liveliness_lost`. -/
def SubscribingParticipant.times_liveliness_lost (s : SubscribingParticipant) : Nat :=
  s.listener_.times_liveliness_lost_

/-- `SubscribingParticipant::times_liveliness_recovered`. -/
def SubscribingParticipant.times_liveliness_recovered (s : SubscribingParticipant) : Nat :=
  s.listener_.times_liveliness_recovered_

/-- `PublishingParticipant::Listener::on_liveliness_lost` reaching the one listener of the
participant, whichever publisher the callback is for. -/
def PublishingParticipant.on_liveliness_lost (p : PublishingParticipant)
    (_pub : Nat) (status : LivelinessLostStatus) : PublishingParticipant :=
  { p with listener_ := p.listener_.on_liveliness_lost status }

/-- `SubscribingParticipant::init_subscriber(index)`; `created` is what
`Domain::createSubscriber(participant_, subscriber_attr_, &listener_)` returns when the call
is reached. -/
def SubscribingParticipant.init_subscriber (s : SubscribingParticipant) (index : Nat)
    (created : Option Nat) : Bool × SubscribingParticipant :=
  if index ≥ s.num_subscribers_ then (false, s)
  else
    match created with
    | some subscriber => (true, { s with subscribers_ := s.subscribers_.set index (some subscriber) })
    | none => (false, s)

/-- A publishing participant of the two-writer tests once `init_participant` has succeeded. -/
def test_publishers : PublishingParticipant :=
  ((PublishingParticipant.new 2 2
      ⟨⟨TopicKind_t.NO_KEY, "", "", ⟨HistoryQosPolicyKind.KEEP_LAST_HISTORY_QOS, 1⟩⟩,
        ⟨⟨DurabilityQosPolicyKind.VOLATILE_DURABILITY_QOS⟩, ⟨ReliabilityKind.Reliable⟩,
          ⟨LivelinessKind.Automatic, ⟨0, 0⟩, ⟨0, 0⟩⟩⟩,
        ⟨⟨0, 0⟩, ⟨0, 0⟩⟩, MemoryManagementPolicy.PREALLOCATED_MEMORY_MODE⟩
      0 MemoryManagementPolicy.PREALLOCATED_MEMORY_MODE "HelloWorldType").init_participant
    4242 (some 7)).2

/-- The subscribing participant after a sequence of `on_liveliness_changed` callbacks, each
for one of its subscribers. -/
def SubscribingParticipant.after (s : SubscribingParticipant)
    (callbacks : List (Nat × LivelinessChangedStatus)) : SubscribingParticipant :=
  callbacks.foldl (fun s' c => s'.on_liveliness_changed c.1 c.2) s

/-! ## The liveliness example -/

/-- The participant attributes `LivelinessSubscriber::init` sets (`PParam.rtps.builtin...`,
`PParam.rtps.setName`). -/
structure ParticipantAttributes where
  use_SIMPLE_RTPSParticipantDiscoveryProtocol : Bool
  use_SIMPLE_EndpointDiscoveryProtocol : Bool
  use_PublicationReaderANDSubscriptionWriter : Bool
  use_PublicationWriterANDSubscriptionReader : Bool
  domainId : Nat
  use_WriterLivelinessProtocol : Bool
  name : String
deriving DecidableEq, Repr

/-- The `double` numbers of seconds `LivelinessSubscriber::init` hands to `Duration_t`, kept
as the expressions of the source: `liveliness_ms * 1e-3` and `liveliness_ms * 1e-3 * 0.5`. -/
inductive DoubleSeconds where
  | ms (liveliness_ms : Int)
  | half_ms (liveliness_ms : Int)
deriving DecidableEq, Repr

/-- What the example does that is visible outside of it, in program order: output lines and
the calls into the library and into `LivelinessPublisher`, neither of which is in the
sources. -/
inductive MainEvent where
  | print (line : String)
  | log_reset
  | stop_all
  | publisher_init (kind : LivelinessKind)
  | publisher_run (count : Int) (sleep : Int)
  | subscriber_init (kind : LivelinessKind) (liveliness_ms : Int)
  | create_participant (attr : ParticipantAttributes)
  | register_type (participant : Nat)
  | create_subscriber (participant : Nat) (attr : SubscriberAttributes)
  | subscriber_run
  | remove_participant (participant : Option Nat)
deriving DecidableEq, Repr

/-- What the example takes from outside: the results of the library calls and of
`LivelinessPublisher::init`, the default value of the argument `liveliness_ms` (declared in
`LivelinessSubscriber.h`), the conversion of a `double` to `Duration_t`, and the
default-constructed subscriber attributes. -/
structure ExampleEnvironment where
  createParticipant : ParticipantAttributes → Option Nat
  createSubscriber : Nat → SubscriberAttributes → Option Nat
  publisher_init : LivelinessKind → Bool
  liveliness_ms : Int
  to_Duration_t : DoubleSeconds → Duration_t
  default_participant_attr : ParticipantAttributes
  default_subscriber_attr : SubscriberAttributes

/-- The members of `LivelinessSubscriber` that `init` sets. -/
structure LivelinessSubscriber where
  participant_ : Option Nat
  subscriber_ : Option Nat
deriving DecidableEq, Repr

/-- The participant attributes of `LivelinessSubscriber::init`. -/
def LivelinessSubscriber.PParam (env : ExampleEnvironment) : ParticipantAttributes :=
  { env.default_participant_attr with
    use_SIMPLE_RTPSParticipantDiscoveryProtocol := true
    use_SIMPLE_EndpointDiscoveryProtocol := true
    use_PublicationReaderANDSubscriptionWriter := true
    use_PublicationWriterANDSubscriptionReader := true
    domainId := 0
    use_WriterLivelinessProtocol := true
    name := "Participant_sub" }

/-- The subscriber attributes of `LivelinessSubscriber::init`. -/
def LivelinessSubscriber.Rparam (env : ExampleEnvironment) (kind : LivelinessKind)
    (liveliness_ms : Int) : SubscriberAttributes :=
  { env.default_subscriber_attr with
    topic :=
      { topicKind := TopicKind_t.NO_KEY
        topicDataType := "Topic"
        topicName := "Name"
        historyQos := { kind := HistoryQosPolicyKind.KEEP_LAST_HISTORY_QOS, depth := 30 } }
    qos :=
      { m_durability := { kind := DurabilityQosPolicyKind.TRANSIENT_LOCAL_DURABILITY_QOS }
        m_reliability := { kind := ReliabilityKind.Reliable }
        m_liveliness :=
          { lease_duration := env.to_Duration_t (DoubleSeconds.ms liveliness_ms)
            announcement_period := env.to_Duration_t (DoubleSeconds.half_ms liveliness_ms)
            kind := kind } } }

/-- The lines `LivelinessSubscriber::init` prints once the subscriber is created. -/
def LivelinessSubscriber.report (kind : LivelinessKind) (liveliness_ms : Int) : List MainEvent :=
  [MainEvent.print "Subscriber using:",
   MainEvent.print ("Lease duration: " ++ toString liveliness_ms)] ++
  (if kind = LivelinessKind.Automatic then [MainEvent.print "Kind: AUTOMATIC"]
   else if kind = LivelinessKind.ManualByParticipant then
     [MainEvent.print "Kind: MANUAL_BY_PARTICIPANT_LIVELINESS_QOS"]
   else []) ++
  [MainEvent.print ""]

/-- `LivelinessSubscriber::init(kind, liveliness_ms)` on a freshly constructed object: the
result, the object afterwards, and what was done. -/
def LivelinessSubscriber.init (env : ExampleEnvironment) (kind : LivelinessKind)
    (liveliness_ms : Int) : Bool × LivelinessSubscriber × List MainEvent :=
  match env.createParticipant (LivelinessSubscriber.PParam env) with
  | none =>
    (false, ⟨none, none⟩, [MainEvent.create_participant (LivelinessSubscriber.PParam env)])
  | some participant =>
    match env.createSubscriber participant (LivelinessSubscriber.Rparam env kind liveliness_ms) with
    | none =>
      (false, ⟨some participant, none⟩,
        [MainEvent.create_participant (LivelinessSubscriber.PParam env),
         MainEvent.register_type participant,
         MainEvent.create_subscriber participant
           (LivelinessSubscriber.Rparam env kind liveliness_ms)])
    | some subscriber =>
      (true, ⟨some participant, some subscriber⟩,
        [MainEvent.create_participant (LivelinessSubscriber.PParam env),
         MainEvent.register_type participant,
         MainEvent.create_subscriber participant
           (LivelinessSubscriber.Rparam env kind liveliness_ms)]
        ++ LivelinessSubscriber.report kind liveliness_ms)

/-- The digits read by `atoi`, most significant first, up to the first character that is not
a digit. -/
def atoi_digits (acc : Nat) : List Char → Nat
  | [] => acc
  | c :: rest => if c.isDigit then atoi_digits (acc * 10 + (c.toNat - 48)) rest else acc

/-- The number `atoi` reads at the start of a string: leading white space, an optional sign,
then decimal digits; 0 when there is no digit. -/
def atoi_number (s : String) : Int :=
  match s.toList.dropWhile (fun c => c = ' ' ∨ (9 ≤ c.toNat ∧ c.toNat ≤ 13)) with
  | '-' :: rest => - (atoi_digits 0 rest : Int)
  | '+' :: rest => (atoi_digits 0 rest : Int)
  | rest => (atoi_digits 0 rest : Int)

/-- `atoi` of the C library (declared in `<stdlib.h>`, not in the sources), which returns an
`int`.  The library computes it as `(int) strtol(s, NULL, 10)`: the number read is limited to
the range of a 64-bit `long` and then converted to the 32-bit `int`, which keeps its low
32 bits in two's complement.  A number within the range of `int` is returned as it is. -/
def atoi (s : String) : Int :=
  (max (-(2 ^ 63)) (min (atoi_number s) (2 ^ 63 - 1)) + 2 ^ 31) % 2 ^ 32 - 2 ^ 31

/-- The chain of `strcmp` on `argv[2]` in `main`: the liveliness kind of a name, if it is one
of the three names. -/
def liveliness_of_name (name : String) : Option LivelinessKind :=
  if name = "AUTOMATIC" then some LivelinessKind.Automatic
  else if name = "MANUAL_BY_PARTICIPANT" then some LivelinessKind.ManualByParticipant
  else if name = "MANUAL_BY_TOPIC" then some LivelinessKind.ManualByTopic
  else none

/-- The local variables of `main` after the arguments are read. -/
structure MainVariables where
  type : Int
  count : Int
  sleep : Int
  liveliness : LivelinessKind
deriving DecidableEq, Repr

/-- The exit code of `main` and what it did. -/
structure MainOutcome where
  exit_code : Int
  events : List MainEvent
deriving DecidableEq, Repr

/-- The first part of `main` (`Liveliness_main.cpp`, lines 34 to 106): reading the arguments;
`argv` includes the program name, `argc` is its length.  Either `main` returns at once
(`Except.error`, with the outcome), or it goes on to the `switch` with its variables set. -/
def main_arguments (argv : List String) : Except MainOutcome MainVariables :=
  if argv.length > 1 then
    if argv.getD 1 "" = "publisher" then
      if argv.length > 2 then
        match liveliness_of_name (argv.getD 2 "") with
        | none => Except.error ⟨0, [MainEvent.print "Unknown liveliness kind"]⟩
        | some liveliness =>
          Except.ok
            { type := 1
              count := if argv.length > 3 then atoi (argv.getD 2 "") else 10
              sleep :=
                if argv.length > 3 then (if argv.length > 4 then atoi (argv.getD 3 "") else 1000)
                else 1000
              liveliness := liveliness }
      else Except.ok ⟨1, 10, 1000, LivelinessKind.Automatic⟩
    else if argv.getD 1 "" = "subscriber" then
      if argv.length > 2 then
        match liveliness_of_name (argv.getD 2 "") with
        | none => Except.error ⟨0, [MainEvent.print "Unknown liveliness kind"]⟩
        | some liveliness => Except.ok ⟨2, 10, 1000, liveliness⟩
      else Except.ok ⟨2, 10, 1000, LivelinessKind.Automatic⟩
    else Except.ok ⟨1, 10, 1000, LivelinessKind.Automatic⟩
  else
    Except.error
      ⟨0, [MainEvent.print "publisher OR subscriber argument needed", MainEvent.log_reset]⟩

/-- The `switch` of `main` (lines 108 to 128). -/
def main_switch (env : ExampleEnvironment) (v : MainVariables) : List MainEvent :=
  if v.type = 1 then
    [MainEvent.publisher_init v.liveliness] ++
      (if env.publisher_init v.liveliness then [MainEvent.publisher_run v.count v.sleep] else [])
  else if v.type = 2 then
    [MainEvent.subscriber_init v.liveliness env.liveliness_ms] ++
      (LivelinessSubscriber.init env v.liveliness env.liveliness_ms).2.2 ++
      (if (LivelinessSubscriber.init env v.liveliness env.liveliness_ms).1
        then [MainEvent.subscriber_run] else []) ++
      [MainEvent.remove_participant
        (LivelinessSubscriber.init env v.liveliness env.liveliness_ms).2.1.participant_]
  else []

/-- `main` of the liveliness example (`Liveliness_main.cpp`). -/
def main (env : ExampleEnvironment) (argv : List String) : MainOutcome :=
  match main_arguments argv with
  | Except.error outcome => outcome
  | Except.ok v => ⟨0, main_switch env v ++ [MainEvent.stop_all, MainEvent.log_reset]⟩


/-- The name of a liveliness kind on the command line of the example. -/
def kind_name : LivelinessKind → String
  | .Automatic => "AUTOMATIC"
  | .ManualByParticipant => "MANUAL_BY_PARTICIPANT"
  | .ManualByTopic => "MANUAL_BY_TOPIC"

/-- An environment in which every initialisation fails: `LivelinessPublisher::init` returns
false and `Domain::createParticipant` returns null. -/
def failing_environment : ExampleEnvironment :=
  { createParticipant := fun _ => none
    createSubscriber := fun _ _ => none
    publisher_init := fun _ => false
    liveliness_ms := 100
    to_Duration_t := fun _ => ⟨0, 0⟩
    default_participant_attr := ⟨false, false, false, false, 0, false, ""⟩
    default_subscriber_attr :=
      ⟨⟨TopicKind_t.NO_KEY, "", "", ⟨HistoryQosPolicyKind.KEEP_LAST_HISTORY_QOS, 1⟩⟩,
        ⟨⟨DurabilityQosPolicyKind.VOLATILE_DURABILITY_QOS⟩, ⟨ReliabilityKind.BestEffort⟩,
          ⟨LivelinessKind.Automatic, ⟨0, 0⟩, ⟨0, 0⟩⟩⟩,
        ⟨⟨0, 0⟩⟩, MemoryManagementPolicy.PREALLOCATED_MEMORY_MODE⟩ }

/-! ## Discovery client (`PDPClient.cpp`) -/

/-- The entity identifiers `PDPClient.cpp` names; their values are not in the sources. -/
inductive EntityId_t where
  | c_EntityId_RTPSParticipant
  | c_EntityId_SPDPReader
  | c_EntityId_SPDPWriter
  | c_EntityId_SEDPPubReader
  | c_EntityId_SEDPPubWriter
  | c_EntityId_SEDPSubReader
  | c_EntityId_SEDPSubWriter
  | other (value : Nat)
deriving DecidableEq, Repr

/-- `GUID_t`: the prefix of the participant (12 bytes, kept as a number) and the entity
identifier. -/
structure GUID_t where
  guidPrefix : Nat
  entityId : EntityId_t
deriving DecidableEq, Repr

/-- The timer `RemoteParticipantLeaseDuration` of a proxy: the lease it was built from
(`TimeConv::Time_t2MilliSecondsDouble(pdata->m_leaseDuration)`) and whether `restart_timer()`
has been called. -/
structure RemoteParticipantLeaseDuration where
  lease : Duration_t
  restarted : Bool
deriving DecidableEq, Repr

/-- The fields of `ParticipantProxyData` that `PDPClient.cpp` reads or writes; the
declaration of the class is not in the sources.  Locators are kept as numbers. -/
structure ParticipantProxyData where
  m_guid : GUID_t
  m_key : Nat
  m_leaseDuration : Duration_t
  m_availableBuiltinEndpoints : Nat
  m_metatrafficUnicastLocatorList : List Nat
  m_metatrafficMulticastLocatorList : List Nat
  isAlive : Bool
  mp_leaseDurationTimer : Option RemoteParticipantLeaseDuration
deriving DecidableEq, Repr

/-- `RemoteServerAttributes`, one configured discovery server.  The pointer `proxy` is kept
as the proxy it points to, `none` for `nullptr`. -/
structure RemoteServerAttributes where
  guidPrefix : Nat
  metatrafficUnicastLocatorList : List Nat
  metatrafficMulticastLocatorList : List Nat
  proxy : Option ParticipantProxyData
deriving DecidableEq, Repr

/-- `RemoteServerAttributes::GetPDPReader`. -/
def RemoteServerAttributes.GetPDPReader (svr : RemoteServerAttributes) : GUID_t :=
  ⟨svr.guidPrefix, EntityId_t.c_EntityId_SPDPReader⟩

/-- `RemoteServerAttributes::GetPDPWriter`. -/
def RemoteServerAttributes.GetPDPWriter (svr : RemoteServerAttributes) : GUID_t :=
  ⟨svr.guidPrefix, EntityId_t.c_EntityId_SPDPWriter⟩

/-- `RemoteServerAttributes::GetParticipant`. -/
def RemoteServerAttributes.GetParticipant (svr : RemoteServerAttributes) : GUID_t :=
  ⟨svr.guidPrefix, EntityId_t.c_EntityId_RTPSParticipant⟩

/-- `ChangeKind_t`, as far as `PDPClient.cpp` names it. -/
inductive ChangeKind_t where
  | ALIVE
  | NOT_ALIVE_DISPOSED_UNREGISTERED
deriving DecidableEq, Repr

/-- `SampleIdentity`: writer and sequence number. -/
structure SampleIdentity where
  writer_guid : GUID_t
  sequence_number : Nat
deriving DecidableEq, Repr

/-- The fields of `CacheChange_t` that `announceParticipantState` reads or writes. -/
structure CacheChange_t where
  kind : ChangeKind_t
  instanceHandle : Nat
  sequenceNumber : Nat
  write_params : Option SampleIdentity
deriving DecidableEq, Repr

/-- The history of the PDP writer (`mp_PDPWriterHistory`): its changes and the last sequence
number given out.  The class `WriterHistory` is not in the sources. -/
structure WriterHistory where
  changes : List CacheChange_t
  last_sequence_number : Nat
deriving DecidableEq, Repr

/-- `WriterHistory::next_sequence_number`. -/
def WriterHistory.next_sequence_number (h : WriterHistory) : Nat :=
  h.last_sequence_number + 1

/-- `WriterHistory::get_min_change`: the change with the lowest sequence number, if the history
holds any. -/
def WriterHistory.get_min_change (h : WriterHistory) : Option CacheChange_t :=
  h.changes.foldl
    (fun best c =>
      match best with
      | none => some c
      | some b => if c.sequenceNumber < b.sequenceNumber then some c else some b)
    none

/-- A reader matched to the PDP writer (`RemoteReaderAttributes`): its GUID and the unicast
locators of its endpoint. -/
structure RemoteReaderAttributes where
  guid : GUID_t
  unicastLocatorList : List Nat
deriving DecidableEq, Repr

/-- What `PDPClient` does that is visible outside of it. -/
inductive PDPEffect where
  | add_data (change : CacheChange_t) (remote_readers : List GUID_t) (locators : List Nat)
  | release_Cache (change : Option CacheChange_t)
  | logError (text : String)
deriving DecidableEq, Repr

/-- The state of a `PDPClient` that the functions below read or write:
`mp_builtin->m_DiscoveryServers`, `m_participantProxies`, `_serverPing`, the history and the
GUID of the PDP writer, and the readers matched to the PDP writer. -/
structure PDPClient where
  m_DiscoveryServers : List RemoteServerAttributes
  m_participantProxies : List ParticipantProxyData
  _serverPing : Bool
  mp_PDPWriterHistory : WriterHistory
  mp_PDPWriter_guid : GUID_t
  matched_readers : List RemoteReaderAttributes
deriving DecidableEq, Repr

/-- The loop of `createParticipantProxyData` that looks for the prefix among the configured
servers: `is_server` starts false and is set on every server with the prefix. -/
def PDPClient.is_server (c : PDPClient) (guidPrefix : Nat) : Bool :=
  c.m_DiscoveryServers.foldl
    (fun is_server svr => if svr.guidPrefix = guidPrefix then true else is_server) false

/-- `PDPClient::createParticipantProxyData`: the new proxy (a copy of `participant_data`) and
the client afterwards. -/
def PDPClient.createParticipantProxyData (c : PDPClient)
    (participant_data : ParticipantProxyData) : ParticipantProxyData × PDPClient :=
  if c.is_server participant_data.m_guid.guidPrefix then
    ({ participant_data with
        isAlive := true
        mp_leaseDurationTimer := some ⟨participant_data.m_leaseDuration, true⟩ },
     { c with m_participantProxies := c.m_participantProxies ++
        [{ participant_data with
            isAlive := true
            mp_leaseDurationTimer := some ⟨participant_data.m_leaseDuration, true⟩ }] })
  else
    ({ participant_data with isAlive := true, mp_leaseDurationTimer := none },
     { c with m_participantProxies := c.m_participantProxies ++
        [{ participant_data with isAlive := true, mp_leaseDurationTimer := none }] })

/-- The endpoint discovery (`mp_EDP`) as `match_servers_EDP_endpoints` uses it; the class is
not in the sources, so its state and its two operations are arguments. -/
structure EDP (σ : Type) where
  areRemoteEndpointsMatched : σ → ParticipantProxyData → Bool
  assignRemoteEndpoints : σ → ParticipantProxyData → σ

/-- The body of the loop of `match_servers_EDP_endpoints` for one server: `all`, the state of
the endpoint discovery, and the proxies `assignRemoteEndpoints` was called for so far. -/
def match_server {σ : Type} (edp : EDP σ) (acc : Bool × σ × List ParticipantProxyData)
    (svr : RemoteServerAttributes) : Bool × σ × List ParticipantProxyData :=
  (acc.1 && svr.proxy.isSome,
    match svr.proxy with
    | some proxy =>
      if !edp.areRemoteEndpointsMatched acc.2.1 proxy then
        (edp.assignRemoteEndpoints acc.2.1 proxy, acc.2.2 ++ [proxy])
      else acc.2
    | none => acc.2)

/-- The loop of `match_servers_EDP_endpoints` over a list of servers, from `all = true`. -/
def match_servers {σ : Type} (edp : EDP σ) (servers : List RemoteServerAttributes) (st : σ) :
    Bool × σ × List ParticipantProxyData :=
  servers.foldl (match_server edp) (true, st, [])

/-- `PDPClient::match_servers_EDP_endpoints`: the result `all`, the state of the endpoint
discovery afterwards, and the proxies `assignRemoteEndpoints` was called for, in order. -/
def PDPClient.match_servers_EDP_endpoints {σ : Type} (edp : EDP σ) (c : PDPClient) (st : σ) :
    Bool × σ × List ParticipantProxyData :=
  match_servers edp c.m_DiscoveryServers st

/-- The call `match_servers_EDP_endpoints` makes for one server, given the state of the
endpoint discovery when the server is examined: `assignRemoteEndpoints(*svr.proxy)` when the
proxy is not null and its remote endpoints are not matched, no call otherwise. -/
def call_for {σ : Type} (edp : EDP σ) (st : σ) (svr : RemoteServerAttributes) :
    List ParticipantProxyData :=
  match svr.proxy with
  | some proxy => if edp.areRemoteEndpointsMatched st proxy then [] else [proxy]
  | none => []

/-- The servers an announcement is addressed to (loop at line 510): every server when the
announcement is not a ping, the servers without proxy otherwise. -/
def PDPClient.addressed_servers (c : PDPClient) : List RemoteServerAttributes :=
  c.m_DiscoveryServers.filter (fun svr => svr.proxy.isNone || !c._serverPing)

/-- `PDPClient::announceParticipantState(new_change, dispose, wparams)`.  Arguments stand for
what is not in the sources: `base` is the effect of `PDP::announceParticipantState` on the
history of the PDP writer, `created` is what `new_change` of the PDP writer returns, and
`sent` is what `RTPSMessageGroup::add_data` returns. -/
def PDPClient.announceParticipantState (c : PDPClient) (new_change dispose : Bool)
    (base : WriterHistory → WriterHistory) (created : Option CacheChange_t) (sent : Bool) :
    PDPClient × List PDPEffect :=
  if dispose then
    match created with
    | some change =>
      (c,
        [PDPEffect.add_data
          { change with
            sequenceNumber := c.mp_PDPWriterHistory.next_sequence_number
            write_params :=
              some ⟨c.mp_PDPWriter_guid, c.mp_PDPWriterHistory.next_sequence_number⟩ }
          (c.matched_readers.map (fun r => r.guid))
          (c.matched_readers.map (fun r => r.unicastLocatorList)).flatten] ++
        (if sent then [] else
          [PDPEffect.logError "Error sending announcement from client to servers"]) ++
        [PDPEffect.release_Cache
          (some { change with
            sequenceNumber := c.mp_PDPWriterHistory.next_sequence_number
            write_params :=
              some ⟨c.mp_PDPWriter_guid, c.mp_PDPWriterHistory.next_sequence_number⟩ })])
    | none => (c, [PDPEffect.release_Cache none])
  else if new_change then ({ c with mp_PDPWriterHistory := base c.mp_PDPWriterHistory }, [])
  else
    match (base c.mp_PDPWriterHistory).get_min_change with
    | some pPD =>
      ({ c with mp_PDPWriterHistory := base c.mp_PDPWriterHistory, _serverPing := false },
        [PDPEffect.add_data pPD
          (c.addressed_servers.map RemoteServerAttributes.GetPDPReader)
          (c.addressed_servers.map
            (fun svr => svr.metatrafficMulticastLocatorList ++ svr.metatrafficUnicastLocatorList)
            ).flatten] ++
        (if sent then [] else
          [PDPEffect.logError "Error sending announcement from client to servers"]))
    | none =>
      ({ c with mp_PDPWriterHistory := base c.mp_PDPWriterHistory },
        [PDPEffect.logError
          "ParticipantProxy data should have been added to client PDP history cache by a previous call to announceParticipantState()"])


/-- A client configured with two discovery servers, of prefixes 10 and 20, the first one
discovered already; it has pinged. -/
def test_client : PDPClient :=
  { m_DiscoveryServers :=
      [⟨10, [1], [2], some ⟨⟨10, EntityId_t.c_EntityId_RTPSParticipant⟩, 0, ⟨1, 0⟩, 0, [1], [2],
          true, some ⟨⟨1, 0⟩, true⟩⟩⟩,
       ⟨20, [3], [4], none⟩]
    m_participantProxies :=
      [⟨⟨10, EntityId_t.c_EntityId_RTPSParticipant⟩, 0, ⟨1, 0⟩, 0, [1], [2], true,
        some ⟨⟨1, 0⟩, true⟩⟩]
    _serverPing := true
    mp_PDPWriterHistory := ⟨[⟨ChangeKind_t.ALIVE, 5, 1, none⟩], 1⟩
    mp_PDPWriter_guid := ⟨30, EntityId_t.c_EntityId_SPDPWriter⟩
    matched_readers := [⟨⟨10, EntityId_t.c_EntityId_SPDPReader⟩, [1]⟩] }

/-- An endpoint discovery that keeps the list of the proxies whose remote endpoints it has
matched. -/
def test_edp : EDP (List ParticipantProxyData) :=
  { areRemoteEndpointsMatched := fun matched p => decide (p ∈ matched)
    assignRemoteEndpoints := fun matched p => matched ++ [p] }

/-! ## Calls on a publishing participant -/

/-- `PublishingParticipant::matched`: `++matched_` on the `std::atomic<unsigned int>`. -/
def PublishingParticipant.matched (p : PublishingParticipant) : PublishingParticipant :=
  { p with matched_ := (p.matched_ + 1) % 2 ^ 32 }

/-- `PublishingParticipant::unmatched`: `--matched_` on the `std::atomic<unsigned int>`, which
wraps around at 0. -/
def PublishingParticipant.unmatched (p : PublishingParticipant) : PublishingParticipant :=
  { p with matched_ := (p.matched_ + (2 ^ 32 - 1)) % 2 ^ 32 }

/-- Everything that can be called on a `PublishingParticipant` or on its listener
(`PublisingParticipant.hpp`): the public member functions and the two listener callbacks.
Results of library calls are arguments, as for `init_publisher`. -/
inductive PublishingParticipant.Call where
  | init_participant (pid : Nat) (created : Option Nat)
  | init_publisher (index : Nat) (created : Option Nat)
  | send_sample (index : Nat)
  | assert_liveliness (index : Nat)
  | wait_discovery (timeout : Nat)
  | topic_name (topicName : String)
  | reliability (kind : ReliabilityKind)
  | liveliness_kind (kind : LivelinessKind)
  | liveliness_lease_duration (lease_duration : Duration_t)
  | liveliness_announcement_period (announcement_period : Duration_t)
  | times_liveliness_lost
  | onPublicationMatched (pub : Nat) (is_matched : Bool)
  | on_liveliness_lost (pub : Nat) (status : LivelinessLostStatus)
deriving DecidableEq, Repr

/-- Whether `publishers_[index]` is a publisher: the index is within the vector and the
pointer is not null. -/
def PublishingParticipant.has_publisher (p : PublishingParticipant) (index : Nat) : Bool :=
  (p.publishers_.getD index none).isSome

/-- Whether a call returns with a defined result when made on the participant in this state,
no other call being in progress.  `send_sample(msg, index)` and `assert_liveliness(index)`
call a member function through `publishers_[index]` without a check, so they need a publisher
at that index.  `wait_discovery(timeout)` with the default timeout, zero, waits until
`matched_ == num_publishers_`; with another timeout it returns when the timeout has passed at
the latest.  Every other call returns. -/
def PublishingParticipant.returns (p : PublishingParticipant) :
    PublishingParticipant.Call → Bool
  | .send_sample index => p.has_publisher index
  | .assert_liveliness index => p.has_publisher index
  | .wait_discovery timeout => timeout != 0 || p.matched_ == p.num_publishers_
  | _ => true

/-- The members of the participant after a call that returns.  `send_sample` and
`assert_liveliness` go to the publisher; `wait_discovery` and `times_liveliness_lost` only
read. -/
def PublishingParticipant.effect (p : PublishingParticipant) :
    PublishingParticipant.Call → PublishingParticipant
  | .init_participant pid created => (p.init_participant pid created).2
  | .init_publisher index created => (p.init_publisher index created).2
  | .send_sample _ => p
  | .assert_liveliness _ => p
  | .wait_discovery _ => p
  | .topic_name topicName => p.topic_name topicName
  | .reliability kind => p.reliability kind
  | .liveliness_kind kind => p.liveliness_kind kind
  | .liveliness_lease_duration lease_duration => p.liveliness_lease_duration lease_duration
  | .liveliness_announcement_period announcement_period =>
    p.liveliness_announcement_period announcement_period
  | .times_liveliness_lost => p
  | .onPublicationMatched _ is_matched => if is_matched then p.matched else p.unmatched
  | .on_liveliness_lost pub status => p.on_liveliness_lost pub status

/-- The participant after one call, `none` when the call does not return with a defined
result. -/
def PublishingParticipant.call (p : PublishingParticipant)
    (c : PublishingParticipant.Call) : Option PublishingParticipant :=
  if p.returns c then some (p.effect c) else none

/-- Whether a call is an `on_liveliness_lost` callback. -/
def PublishingParticipant.Call.is_on_liveliness_lost : PublishingParticipant.Call → Bool
  | .on_liveliness_lost _ _ => true
  | _ => false

/-- Whether a call returns whatever the state of the participant. -/
def PublishingParticipant.Call.always_returns : PublishingParticipant.Call → Bool
  | .send_sample _ => false
  | .assert_liveliness _ => false
  | .wait_discovery timeout => timeout != 0
  | _ => true

/-- The participant after a sequence of calls made one after the other, `none` when one of
them does not return with a defined result. -/
def PublishingParticipant.calls (p : PublishingParticipant) :
    List PublishingParticipant.Call → Option PublishingParticipant
  | [] => some p
  | c :: rest =>
    match p.call c with
    | none => none
    | some p' => p'.calls rest

/-! ## Discovery client: servers found and lost -/

/-- The bits of `m_availableBuiltinEndpoints` that `PDPClient.cpp` names, the macros
`DISC_BUILTIN_ENDPOINT_*`; their values are not in the sources and are arguments. -/
structure BuiltinEndpointBits where
  DISC_BUILTIN_ENDPOINT_PARTICIPANT_ANNOUNCER : Nat
  DISC_BUILTIN_ENDPOINT_PARTICIPANT_DETECTOR : Nat
  DISC_BUILTIN_ENDPOINT_PUBLICATION_ANNOUNCER : Nat
  DISC_BUILTIN_ENDPOINT_PUBLICATION_DETECTOR : Nat
  DISC_BUILTIN_ENDPOINT_SUBSCRIPTION_ANNOUNCER : Nat
  DISC_BUILTIN_ENDPOINT_SUBSCRIPTION_DETECTOR : Nat
deriving DecidableEq, Repr

/-- The values the RTPS specification gives to the six bits: bit 0 to bit 5. -/
def rtps_bits : BuiltinEndpointBits := ⟨1, 2, 4, 8, 16, 32⟩

/-- `DurabilityKind_t` of an RTPS endpoint. -/
inductive DurabilityKind_t where
  | VOLATILE
  | TRANSIENT_LOCAL
  | TRANSIENT
  | PERSISTENT
deriving DecidableEq, Repr

/-- The `RemoteWriterAttributes` that `removeRemoteEndpoints` fills in (`watt`). -/
structure RemoteWriterAttributes where
  guid : GUID_t
  persistence_guid : GUID_t
  unicastLocatorList : List Nat
  multicastLocatorList : List Nat
  reliabilityKind : ReliabilityKind
  durabilityKind : DurabilityKind_t
  topicKind : TopicKind_t
  remoteLocatorList : List Nat
deriving DecidableEq, Repr

/-- The `RemoteReaderAttributes` that `removeRemoteEndpoints` fills in (`ratt`), with all the
fields it sets. -/
structure RemoteReaderMatch where
  expectsInlineQos : Bool
  guid : GUID_t
  unicastLocatorList : List Nat
  multicastLocatorList : List Nat
  reliabilityKind : ReliabilityKind
  durabilityKind : DurabilityKind_t
  topicKind : TopicKind_t
deriving DecidableEq, Repr

/-- The calls `assignRemoteEndpoints` and `removeRemoteEndpoints` make on the objects around
the client: the synchronisation timer `mp_sync`, the PDP reader, the PDP writer and the
writer liveliness protocol. -/
inductive EndpointCall where
  | sync_restart_timer
  | matched_writer_remove (watt : RemoteWriterAttributes)
  | matched_writer_add (watt : RemoteWriterAttributes) (flag : Bool)
  | matched_reader_remove (ratt : RemoteReaderMatch)
  | matched_reader_add (ratt : RemoteReaderMatch)
  | wlp_assignRemoteEndpoints (pdata : ParticipantProxyData)
deriving DecidableEq, Repr

/-- `PDPClient::assignRemoteEndpoints(pdata)` with `notifyAboveRemoteEndpoints`: every server
with the prefix of `pdata` gets `pdata` as its proxy, and the writer liveliness protocol is
told when there is one (`mp_WLP != nullptr`). -/
def PDPClient.assignRemoteEndpoints (c : PDPClient) (pdata : ParticipantProxyData)
    (mp_WLP : Bool) : PDPClient × List EndpointCall :=
  ({ c with m_DiscoveryServers := c.m_DiscoveryServers.map (fun svr =>
      if svr.guidPrefix = pdata.m_guid.guidPrefix then { svr with proxy := some pdata }
      else svr) },
   if mp_WLP then [EndpointCall.wlp_assignRemoteEndpoints pdata] else [])

/-- The `watt` of `removeRemoteEndpoints`. -/
def PDPClient.removed_writer (pdata : ParticipantProxyData) : RemoteWriterAttributes :=
  { guid := ⟨pdata.m_guid.guidPrefix, EntityId_t.c_EntityId_SPDPWriter⟩
    persistence_guid := ⟨pdata.m_guid.guidPrefix, EntityId_t.c_EntityId_SPDPWriter⟩
    unicastLocatorList := pdata.m_metatrafficUnicastLocatorList
    multicastLocatorList := pdata.m_metatrafficMulticastLocatorList
    reliabilityKind := ReliabilityKind.Reliable
    durabilityKind := DurabilityKind_t.TRANSIENT
    topicKind := TopicKind_t.WITH_KEY
    remoteLocatorList :=
      pdata.m_metatrafficUnicastLocatorList ++ pdata.m_metatrafficMulticastLocatorList }

/-- The `ratt` of `removeRemoteEndpoints`. -/
def PDPClient.removed_reader (pdata : ParticipantProxyData) : RemoteReaderMatch :=
  { expectsInlineQos := false
    guid := ⟨pdata.m_guid.guidPrefix, EntityId_t.c_EntityId_SPDPReader⟩
    unicastLocatorList := pdata.m_metatrafficUnicastLocatorList
    multicastLocatorList := pdata.m_metatrafficMulticastLocatorList
    reliabilityKind := ReliabilityKind.Reliable
    durabilityKind := DurabilityKind_t.TRANSIENT_LOCAL
    topicKind := TopicKind_t.WITH_KEY }

/-- `PDPClient::removeRemoteEndpoints(pdata)`: the client afterwards and the calls made, in
order.  The loop clears the proxy of every server with the prefix of `pdata` and restarts
`mp_sync` for each of them; when there was one, the PDP reader and the PDP writer are
rematched according to the two participant bits of `pdata`.  The `assert` at the top is a
precondition on the endpoint discovery and changes nothing. -/
def PDPClient.removeRemoteEndpoints (bits : BuiltinEndpointBits) (c : PDPClient)
    (pdata : ParticipantProxyData) : PDPClient × List EndpointCall :=
  ({ c with m_DiscoveryServers := c.m_DiscoveryServers.map (fun svr =>
      if svr.guidPrefix = pdata.m_guid.guidPrefix then { svr with proxy := none } else svr) },
   (c.m_DiscoveryServers.filter (fun svr => svr.guidPrefix = pdata.m_guid.guidPrefix)).map
      (fun _ => EndpointCall.sync_restart_timer) ++
   (if c.is_server pdata.m_guid.guidPrefix then
      (if pdata.m_availableBuiltinEndpoints &&& bits.DISC_BUILTIN_ENDPOINT_PARTICIPANT_ANNOUNCER
          ≠ 0 then
        [EndpointCall.matched_writer_remove (PDPClient.removed_writer pdata),
         EndpointCall.matched_writer_add (PDPClient.removed_writer pdata) false]
      else []) ++
      (if pdata.m_availableBuiltinEndpoints &&& bits.DISC_BUILTIN_ENDPOINT_PARTICIPANT_DETECTOR
          ≠ 0 then
        [EndpointCall.matched_reader_remove (PDPClient.removed_reader pdata),
         EndpointCall.matched_reader_add (PDPClient.removed_reader pdata)]
      else [])
    else []))

/-- The invariant of the server table: the proxy of a server, when not null, has the prefix of
the server. -/
def PDPClient.proxies_consistent (c : PDPClient) : Prop :=
  ∀ svr ∈ c.m_DiscoveryServers, ∀ p, svr.proxy = some p → p.m_guid.guidPrefix = svr.guidPrefix

instance PDPClient.proxies_consistent_decidable (c : PDPClient) :
    Decidable c.proxies_consistent :=
  decidable_of_iff
    (∀ svr ∈ c.m_DiscoveryServers,
      svr.proxy.all (fun p => decide (p.m_guid.guidPrefix = svr.guidPrefix)) = true)
    (by
      unfold PDPClient.proxies_consistent
      constructor
      · intro h svr hs p hp
        have := h svr hs
        rw [hp] at this
        simpa using this
      · intro h svr hs
        cases hp : svr.proxy with
        | none => rfl
        | some p => simpa using h svr hs p hp)

/-- The flags of `builtin.m_simpleEDP` that `initializeParticipantProxyData` reads. -/
structure SimpleEDPAttributes where
  use_PublicationWriterANDSubscriptionReader : Bool
  use_PublicationReaderANDSubscriptionWriter : Bool
deriving DecidableEq, Repr

/-- `PDPType_t`, as far as `PDPClient.cpp` names it. -/
inductive PDPType_t where
  | CLIENT
  | other
deriving DecidableEq, Repr

/-- The endpoint-mask step of `initializeParticipantProxyData` (lines 110 to 120), on the
value of `m_availableBuiltinEndpoints` (a 32-bit set; `|=` cannot overflow). -/
def PDPClient.endpoint_mask (bits : BuiltinEndpointBits) (edp : SimpleEDPAttributes)
    (m : Nat) : Nat :=
  if edp.use_PublicationReaderANDSubscriptionWriter then
    ((if edp.use_PublicationWriterANDSubscriptionReader then
        (m ||| bits.DISC_BUILTIN_ENDPOINT_PUBLICATION_ANNOUNCER)
          ||| bits.DISC_BUILTIN_ENDPOINT_SUBSCRIPTION_DETECTOR
      else m) ||| bits.DISC_BUILTIN_ENDPOINT_PUBLICATION_DETECTOR)
      ||| bits.DISC_BUILTIN_ENDPOINT_SUBSCRIPTION_ANNOUNCER
  else
    (if edp.use_PublicationWriterANDSubscriptionReader then
      (m ||| bits.DISC_BUILTIN_ENDPOINT_PUBLICATION_ANNOUNCER)
        ||| bits.DISC_BUILTIN_ENDPOINT_SUBSCRIPTION_DETECTOR
    else m)

/-- `PDPClient::initializeParticipantProxyData`: `base` is
`PDP::initializeParticipantProxyData`, which is not in the sources; then the error is logged
when the participant is not configured as a client, and the endpoint mask is extended. -/
def PDPClient.initializeParticipantProxyData (bits : BuiltinEndpointBits)
    (base : ParticipantProxyData → ParticipantProxyData) (discoveryProtocol : PDPType_t)
    (edp : SimpleEDPAttributes) (participant_data : ParticipantProxyData) :
    ParticipantProxyData × List PDPEffect :=
  ({ base participant_data with
      m_availableBuiltinEndpoints :=
        PDPClient.endpoint_mask bits edp (base participant_data).m_availableBuiltinEndpoints },
   if discoveryProtocol ≠ PDPType_t.CLIENT then
     [PDPEffect.logError "Using a PDP client object with another user's settings"]
   else [])

/-! ## The publishers of `TwoWriters_TwoReaders_ManualByParticipant` -/

/-- A non-negative `double`, `mantissa * 2 ^ (-exponent)`. -/
structure DoubleValue where
  mantissa : Nat
  exponent : Nat
deriving DecidableEq, Repr

/-- The `double` a literal `0.5` denotes: one half has an exact binary representation. -/
def DoubleValue.one_half : DoubleValue := ⟨1, 1⟩

/-- Initialisation of an `unsigned int` from a `double`: the fractional part is discarded.
The value is kept in 32 bits (for a `double` out of the range of `unsigned int` the C++
conversion is undefined). -/
def DoubleValue.to_unsigned_int (d : DoubleValue) : Nat :=
  d.mantissa / 2 ^ d.exponent % 2 ^ 32

/-- The order of `Duration_t`: by seconds, then by nanoseconds. -/
def Duration_t.lt (a b : Duration_t) : Bool :=
  decide (a.seconds < b.seconds) || (decide (a.seconds = b.seconds) && decide (a.nanosec < b.nanosec))

/-- The local `lease_duration_s` of the test `TwoWriters_TwoReaders_ManualByParticipant`. -/
def manual_by_participant_lease_duration_s : Nat := 1

/-- The local `announcement_period_s` of the same test:
`unsigned int announcement_period_s = 0.5;`. -/
def manual_by_participant_announcement_period_s : Nat :=
  DoubleValue.one_half.to_unsigned_int

/-- One of the two chained statements of the test (lines 1093 to 1096 and 1098 to 1101):
`publishers.topic_name(..).liveliness_announcement_period(announcement_period_s)
.liveliness_lease_duration(lease_duration_s).liveliness_kind(MANUAL_BY_PARTICIPANT_LIVELINESS_QOS)`.
`to_Duration_t` is the conversion of an `unsigned int` number of seconds to `Duration_t`
(the constructor is not in the sources). -/
def manual_by_participant_configure (to_Duration_t : Nat → Duration_t) (topicName : String)
    (publishers : PublishingParticipant) : PublishingParticipant :=
  (((publishers.topic_name topicName).liveliness_announcement_period
      (to_Duration_t manual_by_participant_announcement_period_s)).liveliness_lease_duration
      (to_Duration_t manual_by_participant_lease_duration_s)).liveliness_kind
    LivelinessKind.ManualByParticipant

/-- The publisher part of the test `TwoWriters_TwoReaders_ManualByParticipant` (lines 1093 to
1104), from the participant `init_participant` leaves: for each of the two `init_publisher`
calls its result and the attributes `publisher_attr_` holds at the call (what
`createPublisher` is handed), and the participant afterwards.  `created0` and `created1` are
what `createPublisher` returns; the test goes on only when both results are true
(`ASSERT_TRUE`). -/
def two_writers_manual_by_participant_publishers (to_Duration_t : Nat → Duration_t)
    (TEST_TOPIC_NAME : String) (created0 created1 : Option Nat)
    (publishers : PublishingParticipant) :
    List (Bool × PublisherAttributes) × PublishingParticipant :=
  ([(((manual_by_participant_configure to_Duration_t (TEST_TOPIC_NAME ++ "1")
          publishers).init_publisher 0 created0).1,
      (manual_by_participant_configure to_Duration_t (TEST_TOPIC_NAME ++ "1")
          publishers).publisher_attr_),
    (((manual_by_participant_configure to_Duration_t (TEST_TOPIC_NAME ++ "2")
          ((manual_by_participant_configure to_Duration_t (TEST_TOPIC_NAME ++ "1")
            publishers).init_publisher 0 created0).2).init_publisher 1 created1).1,
      (manual_by_participant_configure to_Duration_t (TEST_TOPIC_NAME ++ "2")
          ((manual_by_participant_configure to_Duration_t (TEST_TOPIC_NAME ++ "1")
            publishers).init_publisher 0 created0).2).publisher_attr_)],
   ((manual_by_participant_configure to_Duration_t (TEST_TOPIC_NAME ++ "2")
      ((manual_by_participant_configure to_Duration_t (TEST_TOPIC_NAME ++ "1")
        publishers).init_publisher 0 created0).2).init_publisher 1 created1).2)

/-! ## The two-writer tests and what a match does -/

/-- Whether a match creates the entry alive and notifies it, in each of the two versions. -/
def MatchPolicy.alive : MatchPolicy → Bool
  | .alive_on_match => true
  | .alive_on_assertion => false

/-- C1: an offered writer liveliness is compatible with a requested reader liveliness exactly
when the offered kind is at least the requested kind, in the order
Automatic < ManualByParticipant < ManualByTopic, and the offered lease is at most the requested
lease.  Equal kind with equal lease (10 ms against 10 ms) is compatible, offered 11 ms against
requested 10 ms is incompatible whatever the kinds, and a ManualByTopic writer is compatible
with an Automatic reader of the same lease. -/
theorem compatible_iff_kind_ge_and_lease_le :
    (∀ (offered : OfferedLiveliness) (requested : RequestedLiveliness),
      compatible offered requested = true ↔
        requested.kind ≤ offered.kind ∧ offered.lease_duration ≤ requested.lease_duration) ∧
    (LivelinessKind.Automatic < LivelinessKind.ManualByParticipant ∧
      LivelinessKind.ManualByParticipant < LivelinessKind.ManualByTopic) ∧
    (∀ (a b : Nat), Duration.finite a ≤ Duration.finite b ↔ a ≤ b) ∧
    (∀ (k : LivelinessKind) (p : Duration),
      compatible ⟨k, Duration.ms 10, p⟩ ⟨k, Duration.ms 10⟩ = true) ∧
    (∀ (ko kr : LivelinessKind) (p : Duration),
      compatible ⟨ko, Duration.ms 11, p⟩ ⟨kr, Duration.ms 10⟩ = false) ∧
    (∀ (lease p : Duration),
      compatible ⟨LivelinessKind.ManualByTopic, lease, p⟩ ⟨LivelinessKind.Automatic, lease⟩
        = true) := by
  refine ⟨?_, ⟨by decide, by decide⟩, ?_, ?_, ?_, ?_⟩
  · intro offered requested
    show compatible offered requested = true ↔
      requested.kind.rank ≤ offered.kind.rank ∧
        Duration.le offered.lease_duration requested.lease_duration = true
    unfold compatible
    by_cases hk : offered.kind.rank < requested.kind.rank
    · simp [hk]
    · have hk' : requested.kind.rank ≤ offered.kind.rank := Nat.le_of_not_lt hk
      cases hl : Duration.le offered.lease_duration requested.lease_duration <;> simp [hk, hk', hl]
  · intro a b
    show Duration.le (Duration.finite a) (Duration.finite b) = true ↔ a ≤ b
    simp [Duration.le]
  · intro k p
    cases k <;> simp [compatible, LivelinessKind.rank, Duration.le, Duration.ms]
  · intro ko kr p
    cases ko <;> cases kr <;> simp [compatible, LivelinessKind.rank, Duration.le, Duration.ms]
  · intro lease p
    cases lease <;> simp [compatible, LivelinessKind.rank, Duration.le]

/-! ## Reader Lease Monitor: the counters follow the lease table -/

theorem publish_entries (m : ReaderMonitor) : m.publish.entries = m.entries := rfl

theorem map_refresh_writer (w : WriterId) (now : Nat) (l : List LeaseEntry) :
    (l.map (fun e' => if e'.writer == w then e'.refresh now else e')).map (fun e => e.writer)
      = l.map (fun e => e.writer) := by
  induction l with
  | nil => rfl
  | cons a t ih =>
    simp only [List.map_cons, ih]
    by_cases h : a.writer == w <;> simp [h, LeaseEntry.refresh]

theorem map_refresh_of_not_mem (w : WriterId) (now : Nat) (l : List LeaseEntry)
    (h : w ∉ l.map (fun e => e.writer)) :
    l.map (fun e' => if e'.writer == w then e'.refresh now else e') = l := by
  induction l with
  | nil => rfl
  | cons a t ih =>
    simp only [List.map_cons, List.mem_cons, not_or] at h
    have ha : (a.writer == w) = false := by
      simp only [beq_eq_false_iff_ne, ne_eq]
      exact fun hc => h.1 hc.symm
    rw [List.map_cons, ih h.2, ha]
    rfl

theorem refresh_counts (w : WriterId) (now : Nat) :
    ∀ (l : List LeaseEntry) (e : LeaseEntry), (l.map (fun e => e.writer)).Nodup →
      l.find? (fun e => e.writer == w) = some e →
      (((l.map (fun e' => if e'.writer == w then e'.refresh now else e')).countP
          (fun e => e.alive) : Nat) : Int)
        = (l.countP (fun e => e.alive) : Nat) + (if e.alive then 0 else 1) ∧
      (((l.map (fun e' => if e'.writer == w then e'.refresh now else e')).countP
          (fun e => !e.alive) : Nat) : Int)
        = (l.countP (fun e => !e.alive) : Nat) - (if e.alive then 0 else 1) := by
  intro l
  induction l with
  | nil => intro e _ h; simp at h
  | cons a t ih =>
    intro e hnd hfind
    simp only [List.map_cons, List.nodup_cons] at hnd
    by_cases ha : a.writer == w
    · have hw : a.writer = w := by simpa using ha
      simp only [List.find?_cons, ha, Option.some.injEq] at hfind
      subst hfind
      have hnot : w ∉ t.map (fun e => e.writer) := hw ▸ hnd.1
      rw [List.map_cons, map_refresh_of_not_mem w now t hnot]
      cases hal : a.alive <;> simp [ha, LeaseEntry.refresh, List.countP_cons, hal]
    · have ha' : (a.writer == w) = false := by simpa using ha
      simp only [List.find?_cons, ha'] at hfind
      obtain ⟨h1, h2⟩ := ih e hnd.2 hfind
      rw [List.map_cons, ha']
      simp only [Bool.false_eq_true, if_false, List.countP_cons]
      constructor
      · rw [Nat.cast_add, h1]; omega
      · rw [Nat.cast_add, h2]; omega

theorem filter_of_not_mem (w : WriterId) (l : List LeaseEntry)
    (h : w ∉ l.map (fun e => e.writer)) :
    l.filter (fun e' => !(e'.writer == w)) = l := by
  induction l with
  | nil => rfl
  | cons a t ih =>
    simp only [List.map_cons, List.mem_cons, not_or] at h
    have ha : (a.writer == w) = false := by
      simp only [beq_eq_false_iff_ne, ne_eq]
      exact fun hc => h.1 hc.symm
    rw [List.filter_cons, ha, ih h.2]
    rfl

theorem filter_map_writer (w : WriterId) (l : List LeaseEntry) :
    (l.filter (fun e' => !(e'.writer == w))).map (fun e => e.writer)
      = (l.map (fun e => e.writer)).filter (fun w' => !(w' == w)) := by
  induction l with
  | nil => rfl
  | cons a t ih =>
    by_cases ha : a.writer == w <;> simp [List.filter_cons, ha, ih]

theorem remove_counts (w : WriterId) :
    ∀ (l : List LeaseEntry) (e : LeaseEntry), (l.map (fun e => e.writer)).Nodup →
      l.find? (fun e => e.writer == w) = some e →
      ((((l.filter (fun e' => !(e'.writer == w))).countP (fun e => e.alive) : Nat) : Int)
        = (l.countP (fun e => e.alive) : Nat) - (if e.alive then 1 else 0)) ∧
      ((((l.filter (fun e' => !(e'.writer == w))).countP (fun e => !e.alive) : Nat) : Int)
        = (l.countP (fun e => !e.alive) : Nat) - (if e.alive then 0 else 1)) := by
  intro l
  induction l with
  | nil => intro e _ h; simp at h
  | cons a t ih =>
    intro e hnd hfind
    simp only [List.map_cons, List.nodup_cons] at hnd
    by_cases ha : a.writer == w
    · have hw : a.writer = w := by simpa using ha
      simp only [List.find?_cons, ha, Option.some.injEq] at hfind
      subst hfind
      have hnot : w ∉ t.map (fun e => e.writer) := hw ▸ hnd.1
      rw [List.filter_cons, ha]
      simp only [Bool.not_true, Bool.false_eq_true, if_false, filter_of_not_mem w t hnot,
        List.countP_cons]
      cases hal : a.alive <;> simp
    · have ha' : (a.writer == w) = false := by simpa using ha
      simp only [List.find?_cons, ha'] at hfind
      obtain ⟨h1, h2⟩ := ih e hnd.2 hfind
      rw [List.filter_cons, ha']
      simp only [Bool.not_false, if_true, List.countP_cons]
      constructor
      · rw [Nat.cast_add, h1]; omega
      · rw [Nat.cast_add, h2]; omega

theorem map_expire_writer (now : Nat) (l : List LeaseEntry) :
    (l.map (fun e => if e.expired now then { e with alive := false } else e)).map
        (fun e => e.writer)
      = l.map (fun e => e.writer) := by
  induction l with
  | nil => rfl
  | cons a t ih =>
    simp only [List.map_cons, ih]
    by_cases h : a.expired now <;> simp [h]

theorem expire_counts (now : Nat) (l : List LeaseEntry) :
    ((((l.map (fun e => if e.expired now then { e with alive := false } else e)).countP
        (fun e => e.alive) : Nat) : Int)
      = (l.countP (fun e => e.alive) : Nat) - ((l.filter (LeaseEntry.expired now)).length : Nat)) ∧
    ((((l.map (fun e => if e.expired now then { e with alive := false } else e)).countP
        (fun e => !e.alive) : Nat) : Int)
      = (l.countP (fun e => !e.alive) : Nat) + ((l.filter (LeaseEntry.expired now)).length : Nat)) := by
  induction l with
  | nil => simp
  | cons a t ih =>
    obtain ⟨h1, h2⟩ := ih
    rw [List.map_cons, List.filter_cons]
    by_cases hx : a.expired now = true
    · have hal : a.alive = true := by
        unfold LeaseEntry.expired at hx
        simp only [Bool.and_eq_true] at hx
        exact hx.1
      simp only [hx, if_true, List.countP_cons, List.length_cons, hal]
      constructor
      · simp only [Bool.false_eq_true, if_false, Nat.add_zero, if_true]
        rw [h1]; push_cast; omega
      · simp only [Bool.not_false, if_true, Bool.not_true, Bool.false_eq_true, if_false]
        push_cast; rw [h2]; omega
    · simp only [hx, Bool.false_eq_true, if_false, List.countP_cons]
      constructor
      · rw [Nat.cast_add, h1]; omega
      · rw [Nat.cast_add, h2]; omega

theorem consistent_empty : ReaderMonitor.empty.consistent := by
  simp [ReaderMonitor.consistent, ReaderMonitor.empty]

theorem is_matched_iff (m : ReaderMonitor) (w : WriterId) :
    m.is_matched w = true ↔ w ∈ m.entries.map (fun e => e.writer) := by
  simp only [ReaderMonitor.is_matched, List.any_eq_true, List.mem_map, beq_iff_eq]

theorem consistent_on_match (policy : MatchPolicy) (w : WriterId) (kind : LivelinessKind)
    (lease : Duration) (now : Nat) (m : ReaderMonitor) (h : m.consistent) :
    (m.on_match policy w kind lease now).consistent := by
  unfold ReaderMonitor.on_match
  by_cases hm : m.is_matched w = true
  · simp only [hm, if_true]; exact h
  · have hnot : w ∉ m.entries.map (fun e => e.writer) := fun hc => hm ((is_matched_iff m w).2 hc)
    obtain ⟨h1, h2, h3⟩ := h
    simp only [hm, Bool.false_eq_true, if_false]
    cases policy
    · refine ⟨?_, ?_, ?_⟩
      · simp [ReaderMonitor.publish, List.countP_append, h1]
      · simp [ReaderMonitor.publish, List.countP_append, h2]
      · simp only [ReaderMonitor.publish, List.map_append, List.map_cons, List.map_nil]
        exact List.Nodup.append h3 (List.nodup_singleton w) (by simpa using hnot)
    · refine ⟨?_, ?_, ?_⟩
      · simp [List.countP_append, h1]
      · simp [List.countP_append, h2]
      · simp only [List.map_append, List.map_cons, List.map_nil]
        exact List.Nodup.append h3 (List.nodup_singleton w) (by simpa using hnot)

theorem consistent_on_unmatch (w : WriterId) (m : ReaderMonitor) (h : m.consistent) :
    (m.on_unmatch w).consistent := by
  unfold ReaderMonitor.on_unmatch
  cases hf : m.entries.find? (fun e => e.writer == w) with
  | none => exact h
  | some e =>
    obtain ⟨h1, h2, h3⟩ := h
    obtain ⟨c1, c2⟩ := remove_counts w m.entries e h3 hf
    refine ⟨?_, ?_, ?_⟩
    · show (if e.alive then _ else _ : LivelinessChangedStatus).alive_count = _
      rw [c1]
      cases e.alive <;> simp [h1]
    · show (if e.alive then _ else _ : LivelinessChangedStatus).not_alive_count = _
      rw [c2]
      cases e.alive <;> simp [h2]
    · show ((m.entries.filter (fun e' => !(e'.writer == w))).map (fun e => e.writer)).Nodup
      rw [filter_map_writer]
      exact h3.filter _

theorem consistent_on_assertion (w : WriterId) (now : Nat) (m : ReaderMonitor)
    (h : m.consistent) : (m.on_assertion w now).consistent := by
  unfold ReaderMonitor.on_assertion
  cases hf : m.entries.find? (fun e => e.writer == w) with
  | none => exact h
  | some e =>
    obtain ⟨h1, h2, h3⟩ := h
    obtain ⟨c1, c2⟩ := refresh_counts w now m.entries e h3 hf
    cases hal : e.alive
    · simp only [hal, Bool.false_eq_true, if_false] at c1 c2 ⊢
      refine ⟨?_, ?_, ?_⟩
      · show m.status.alive_count + 1 = _
        rw [publish_entries, c1, h1]
      · show m.status.not_alive_count - 1 = _
        rw [publish_entries, c2, h2]
      · rw [publish_entries, map_refresh_writer]; exact h3
    · simp only [hal, if_true] at c1 c2 ⊢
      refine ⟨?_, ?_, ?_⟩
      · show m.status.alive_count = _
        rw [c1, h1]; simp
      · show m.status.not_alive_count = _
        rw [c2, h2]; simp
      · rw [map_refresh_writer]; exact h3

theorem consistent_on_deadline_expired (now : Nat) (m : ReaderMonitor) (h : m.consistent) :
    (m.on_deadline_expired now).consistent := by
  unfold ReaderMonitor.on_deadline_expired
  cases hl : (m.entries.filter (LeaseEntry.expired now)).getLast? with
  | none => exact h
  | some last =>
    obtain ⟨h1, h2, h3⟩ := h
    obtain ⟨c1, c2⟩ := expire_counts now m.entries
    refine ⟨?_, ?_, ?_⟩
    · show m.status.alive_count - _ = _
      rw [publish_entries, c1, h1]
    · show m.status.not_alive_count + _ = _
      rw [publish_entries, c2, h2]
    · rw [publish_entries, map_expire_writer]; exact h3

theorem consistent_handle (policy : MatchPolicy) (m : ReaderMonitor) (ev : MonitorEvent)
    (h : m.consistent) : (m.handle policy ev).consistent := by
  cases ev with
  | matched w kind lease now => exact consistent_on_match policy w kind lease now m h
  | unmatched w => exact consistent_on_unmatch w m h
  | assertion w now => exact consistent_on_assertion w now m h
  | deadline_expired now => exact consistent_on_deadline_expired now m h

theorem handle_writers (policy : MatchPolicy) (m : ReaderMonitor) (ev : MonitorEvent) :
    (m.handle policy ev).entries.map (fun e => e.writer)
      = registry_step (m.entries.map (fun e => e.writer)) ev := by
  cases ev with
  | matched w kind lease now =>
    show (m.on_match policy w kind lease now).entries.map _ = _
    unfold ReaderMonitor.on_match registry_step
    by_cases hm : m.is_matched w = true
    · have hc : (m.entries.map (fun e => e.writer)).contains w = true := by
        simpa using (is_matched_iff m w).1 hm
      simp only [hm, if_true, hc]
    · have hc : (m.entries.map (fun e => e.writer)).contains w = false := by
        have hnot : w ∉ m.entries.map (fun e => e.writer) :=
          fun hc => hm ((is_matched_iff m w).2 hc)
        simpa using hnot
      simp only [hm, Bool.false_eq_true, if_false, hc]
      cases policy <;> simp [ReaderMonitor.publish]
  | unmatched w =>
    show (m.on_unmatch w).entries.map _ = _
    unfold ReaderMonitor.on_unmatch registry_step
    cases hf : m.entries.find? (fun e => e.writer == w) with
    | none =>
      have hnot : w ∉ m.entries.map (fun e => e.writer) := by
        intro hc
        obtain ⟨e, he, hw⟩ := List.mem_map.1 hc
        have := List.find?_eq_none.1 hf e he
        simp [hw] at this
      show m.entries.map (fun e => e.writer)
        = (m.entries.map (fun e => e.writer)).filter (fun w' => !(w' == w))
      rw [← filter_map_writer, filter_of_not_mem w m.entries hnot]
    | some e =>
      show (m.entries.filter (fun e' => !(e'.writer == w))).map (fun e => e.writer)
        = (m.entries.map (fun e => e.writer)).filter (fun w' => !(w' == w))
      rw [filter_map_writer]
  | assertion w now =>
    show (m.on_assertion w now).entries.map _ = _
    unfold ReaderMonitor.on_assertion registry_step
    cases hf : m.entries.find? (fun e => e.writer == w) with
    | none => rfl
    | some e =>
      cases hal : e.alive
      · simp only [hal, Bool.false_eq_true, if_false, publish_entries]
        exact map_refresh_writer w now m.entries
      · simp only [hal, if_true]
        exact map_refresh_writer w now m.entries
  | deadline_expired now =>
    show (m.on_deadline_expired now).entries.map _ = _
    unfold ReaderMonitor.on_deadline_expired registry_step
    cases hl : (m.entries.filter (LeaseEntry.expired now)).getLast? with
    | none => rfl
    | some last =>
      simp only [publish_entries]
      exact map_expire_writer now m.entries

theorem foldl_handle_invariant (policy : MatchPolicy) (evs : List MonitorEvent) :
    ∀ (m : ReaderMonitor) (reg : List WriterId), m.consistent →
      m.entries.map (fun e => e.writer) = reg →
      (evs.foldl (ReaderMonitor.handle policy) m).consistent ∧
      (evs.foldl (ReaderMonitor.handle policy) m).entries.map (fun e => e.writer)
        = evs.foldl registry_step reg := by
  induction evs with
  | nil => intro m reg h hr; exact ⟨h, hr⟩
  | cons ev rest ih =>
    intro m reg h hr
    simp only [List.foldl_cons]
    exact ih (m.handle policy ev) (registry_step reg ev) (consistent_handle policy m ev h)
      (by rw [handle_writers, hr])

/-- C2: for every reader and every sequence of match, unmatch, assertion-received and
deadline-expired events, `alive_count + not_alive_count` equals the number of writers
currently matched to the reader (as the Endpoint Registry sees them), under either reading of
the match input; since the sequence is arbitrary this holds after each event. -/
theorem alive_plus_not_alive_eq_matched (policy : MatchPolicy) (evs : List MonitorEvent) :
    (ReaderMonitor.run policy evs).status.alive_count
        + (ReaderMonitor.run policy evs).status.not_alive_count
      = ((currently_matched evs).length : Nat) ∧
    (currently_matched evs).Nodup ∧
    (∀ w, w ∈ currently_matched evs ↔ (ReaderMonitor.run policy evs).is_matched w = true) := by
  obtain ⟨⟨h1, h2, h3⟩, hw⟩ :=
    foldl_handle_invariant policy evs ReaderMonitor.empty [] consistent_empty rfl
  have hw' : (ReaderMonitor.run policy evs).entries.map (fun e => e.writer)
      = currently_matched evs := hw
  refine ⟨?_, ?_, ?_⟩
  · unfold ReaderMonitor.run
    rw [h1, h2, ← hw', List.length_map,
      List.length_eq_countP_add_countP (fun e : LeaseEntry => e.alive)]
    push_cast
    simp [ReaderMonitor.run]
  · rw [← hw']; exact h3
  · intro w
    rw [is_matched_iff, hw']

/-! ## Reader Lease Monitor: assertion before the deadline -/

theorem find_map_of_writer_eq (w : WriterId) (f : LeaseEntry → LeaseEntry)
    (hf : ∀ e, (f e).writer = e.writer) (l : List LeaseEntry) :
    (l.map f).find? (fun e => e.writer == w) = (l.find? (fun e => e.writer == w)).map f := by
  induction l with
  | nil => rfl
  | cons a t ih =>
    rw [List.map_cons, List.find?_cons, List.find?_cons, hf a]
    cases (a.writer == w) with
    | true => rfl
    | false => exact ih

theorem find_writer_eq (w : WriterId) (l : List LeaseEntry) (e : LeaseEntry)
    (h : l.find? (fun e => e.writer == w) = some e) : e.writer = w := by
  have := List.find?_some h
  simpa using this

theorem not_expired_of_before (e : LeaseEntry) (now : Nat)
    (h : ∀ t, e.deadline = some t → now < t) : e.expired now = false := by
  unfold LeaseEntry.expired deadline_reached
  cases hd : e.deadline with
  | none => simp
  | some t =>
    have := h t hd
    simp only [Bool.and_eq_false_imp, decide_eq_false_iff_not, Nat.not_le]
    intro _; exact this

theorem find_on_deadline_expired (w : WriterId) (now : Nat) (m : ReaderMonitor) :
    (m.on_deadline_expired now).entries.find? (fun e => e.writer == w)
      = (m.entries.find? (fun e => e.writer == w)).map
          (fun e => if e.expired now then { e with alive := false } else e) := by
  unfold ReaderMonitor.on_deadline_expired
  cases hl : (m.entries.filter (LeaseEntry.expired now)).getLast? with
  | none =>
    have hnil : m.entries.filter (LeaseEntry.expired now) = [] := List.getLast?_eq_none_iff.1 hl
    show m.entries.find? _ = _
    cases hf : m.entries.find? (fun e => e.writer == w) with
    | none => rfl
    | some e =>
      have hmem : e ∈ m.entries := List.mem_of_find?_eq_some hf
      have hx : e.expired now = false := by
        cases hx : e.expired now with
        | false => rfl
        | true =>
          have : e ∈ m.entries.filter (LeaseEntry.expired now) := List.mem_filter.2 ⟨hmem, hx⟩
          rw [hnil] at this
          exact absurd this (List.not_mem_nil e)
      simp [hx]
  | some last =>
    rw [publish_entries]
    exact find_map_of_writer_eq w _ (fun e => by by_cases h : e.expired now <;> simp [h]) m.entries

theorem find_on_assertion (w : WriterId) (now : Nat) (m : ReaderMonitor) :
    (m.on_assertion w now).entries.find? (fun e => e.writer == w)
      = (m.entries.find? (fun e => e.writer == w)).map (LeaseEntry.refresh now) := by
  unfold ReaderMonitor.on_assertion
  cases hf : m.entries.find? (fun e => e.writer == w) with
  | none => simp [hf]
  | some e =>
    have hw := find_writer_eq w m.entries e hf
    have key : (m.entries.map (fun e' => if e'.writer == w then e'.refresh now else e')).find?
        (fun e => e.writer == w) = some (e.refresh now) := by
      rw [find_map_of_writer_eq w _
        (fun e => by by_cases h : e.writer == w <;> simp [h, LeaseEntry.refresh]), hf]
      simp [hw]
    cases hal : e.alive
    · simp only [hal, Bool.false_eq_true, if_false, publish_entries, Option.map_some']
      exact key
    · simp only [hal, if_true, Option.map_some']
      exact key

/-- C3: for a matched (writer, reader) pair whose lease entry is alive, an assertion received
at a time `now` strictly before the entry's current deadline leaves the entry alive with
deadline `now + lease_duration`; the timer firing at `now` does not touch the entry, and the
assertion itself publishes nothing (no transition, counts unchanged). -/
theorem assertion_before_deadline_stays_alive (m : ReaderMonitor) (w : WriterId)
    (e : LeaseEntry) (now : Nat)
    (hmatched : m.entries.find? (fun e' => e'.writer == w) = some e)
    (halive : e.alive = true)
    (hbefore : ∀ t, e.deadline = some t → now < t) :
    (m.on_deadline_expired now).entries.find? (fun e' => e'.writer == w) = some e ∧
    ((m.on_deadline_expired now).on_assertion w now).entries.find? (fun e' => e'.writer == w)
      = some { e with deadline := deadline_after now e.lease_duration, alive := true } ∧
    ((m.on_deadline_expired now).on_assertion w now).delivered
      = (m.on_deadline_expired now).delivered ∧
    ((m.on_deadline_expired now).on_assertion w now).status = (m.on_deadline_expired now).status ∧
    (m.on_assertion w now).entries.find? (fun e' => e'.writer == w)
      = some { e with deadline := deadline_after now e.lease_duration, alive := true } ∧
    (m.on_assertion w now).delivered = m.delivered ∧
    (m.on_assertion w now).status = m.status := by
  have hx := not_expired_of_before e now hbefore
  have h1 : (m.on_deadline_expired now).entries.find? (fun e' => e'.writer == w) = some e := by
    rw [find_on_deadline_expired, hmatched]
    simp [hx]
  have quiet : ∀ m' : ReaderMonitor, m'.entries.find? (fun e' => e'.writer == w) = some e →
      (m'.on_assertion w now).entries.find? (fun e' => e'.writer == w)
        = some { e with deadline := deadline_after now e.lease_duration, alive := true } ∧
      (m'.on_assertion w now).delivered = m'.delivered ∧
      (m'.on_assertion w now).status = m'.status := by
    intro m' hm'
    refine ⟨?_, ?_, ?_⟩
    · rw [find_on_assertion, hm']; rfl
    · unfold ReaderMonitor.on_assertion; simp only [hm', halive, if_true]
    · unfold ReaderMonitor.on_assertion; simp only [hm', halive, if_true]
  exact ⟨h1, (quiet _ h1).1, (quiet _ h1).2.1, (quiet _ h1).2.2, (quiet m hmatched).1,
    (quiet m hmatched).2.1, (quiet m hmatched).2.2⟩

/-- Witness of C3: the ManualByTopic pair with a 10 ms lease, asserted at instant 0 and again
5 ms later. -/
theorem assertion_before_deadline_stays_alive_witness :
    ((((test_reader ReliabilityKind.Reliable
          (test_writer LivelinessKind.ManualByTopic ReliabilityKind.Reliable 10)).monitor.on_assertion
          ⟨1, 1⟩ 0).on_deadline_expired 5000000).on_assertion ⟨1, 1⟩ 5000000).entries.find?
        (fun e' => e'.writer == ⟨1, 1⟩)
      = some ⟨⟨1, 1⟩, LivelinessKind.ManualByTopic, Duration.ms 10, some 15000000, true⟩ ∧
    ((((test_reader ReliabilityKind.Reliable
          (test_writer LivelinessKind.ManualByTopic ReliabilityKind.Reliable 10)).monitor.on_assertion
          ⟨1, 1⟩ 0).on_deadline_expired 5000000).on_assertion ⟨1, 1⟩ 5000000).delivered
      = (((test_reader ReliabilityKind.Reliable
          (test_writer LivelinessKind.ManualByTopic ReliabilityKind.Reliable 10)).monitor.on_assertion
          ⟨1, 1⟩ 0).on_deadline_expired 5000000).delivered :=
  have h := assertion_before_deadline_stays_alive
    ((test_reader ReliabilityKind.Reliable
      (test_writer LivelinessKind.ManualByTopic ReliabilityKind.Reliable 10)).monitor.on_assertion
      ⟨1, 1⟩ 0)
    ⟨1, 1⟩ ⟨⟨1, 1⟩, LivelinessKind.ManualByTopic, Duration.ms 10, some 10000000, true⟩ 5000000
    (by decide) rfl (by intro t ht; cases ht; decide)
  ⟨h.2.1, h.2.2.1⟩

/-! ## Runs of a system, writer by writer and reader by reader -/

theorem on_timer_static (now : Nat) (w : WriterState) :
    (w.on_timer now).guid = w.guid ∧ (w.on_timer now).reliability = w.reliability ∧
    (w.on_timer now).qos = w.qos := by
  unfold WriterState.on_timer
  by_cases h : w.lease_expired now = true
  · rw [if_pos h]; exact ⟨rfl, rfl, rfl⟩
  · rw [if_neg h]; exact ⟨rfl, rfl, rfl⟩

theorem step_static (now : Nat) (sc : Option LocalScope) (w : WriterState) :
    (w.step now sc).guid = w.guid ∧ (w.step now sc).reliability = w.reliability ∧
    (w.step now sc).qos = w.qos := by
  unfold WriterState.step
  by_cases h : LocalScope.covers sc w.guid w.qos.kind = true
  · rw [if_pos h]; exact on_timer_static now w
  · rw [if_neg h]; exact on_timer_static now w

theorem stimulus_of_static (w w' : WriterState) (b : Bool) (hg : w'.guid = w.guid)
    (hr : w'.reliability = w.reliability) (hq : w'.qos = w.qos) :
    Stimulus.of w' b = Stimulus.of w b := by
  unfold Stimulus.of
  rw [hg, hr, hq]

theorem find_writer_map (g : WriterId) (f : WriterState → WriterState)
    (hf : ∀ w, (f w).guid = w.guid) (l : List WriterState) :
    (l.map f).find? (fun w => w.guid == g) = (l.find? (fun w => w.guid == g)).map f := by
  induction l with
  | nil => rfl
  | cons a t ih =>
    rw [List.map_cons, List.find?_cons, List.find?_cons, hf a]
    cases (a.guid == g) with
    | true => rfl
    | false => exact ih

theorem resolve_step (s : System) (x : Nat × Action) (a : Action) :
    (s.step x).resolve a = s.resolve a := by
  have key : ∀ g b,
      (match (s.step x).writers.find? (fun w => w.guid == g) with
        | none => (⟨none, none⟩ : Stimulus)
        | some src => Stimulus.of src b)
      = (match s.writers.find? (fun w => w.guid == g) with
        | none => (⟨none, none⟩ : Stimulus)
        | some src => Stimulus.of src b) := by
    intro g b
    show (match (s.writers.map (WriterState.step x.1 (s.resolve x.2).scope)).find?
        (fun w => w.guid == g) with
        | none => (⟨none, none⟩ : Stimulus)
        | some src => Stimulus.of src b) = _
    rw [find_writer_map g _ (fun w => (step_static _ _ w).1)]
    cases s.writers.find? (fun w => w.guid == g) with
    | none => rfl
    | some src =>
      obtain ⟨h1, h2, h3⟩ := step_static x.1 (s.resolve x.2).scope src
      exact stimulus_of_static src _ b h1 h2 h3
  cases a with
  | sample_write g => exact key g true
  | assert_liveliness g => exact key g false
  | automatic_tick p => rfl
  | idle => rfl

theorem stimuli_step (s : System) (x : Nat × Action) (trace : List (Nat × Action)) :
    (s.step x).stimuli trace = s.stimuli trace := by
  unfold System.stimuli
  apply List.map_congr_left
  intro y _
  rw [resolve_step]

theorem run_eq_local (s : System) (trace : List (Nat × Action)) :
    s.run trace =
      { writers := s.writers.map (fun w => w.run (s.stimuli trace))
        readers := s.readers.map (fun r => r.run (s.stimuli trace)) } := by
  induction trace generalizing s with
  | nil =>
    simp [System.run, System.stimuli, WriterState.run, Reader.run]
  | cons x rest ih =>
    show (s.step x).run rest = _
    rw [ih, stimuli_step]
    simp only [System.step, List.map_map]
    rfl

/-! ## Writer-side engine, step by step -/

theorem on_timer_not_alive (now : Nat) (w : WriterState) (h : w.alive = false) :
    w.on_timer now = w := by
  unfold WriterState.on_timer WriterState.lease_expired
  simp [h]

theorem on_timer_before (now t : Nat) (L : Nat) (w : WriterState)
    (hl : w.last_assertion_time = some t) (hq : w.qos.lease_duration = Duration.finite L)
    (h : now < t + L) : w.on_timer now = w := by
  unfold WriterState.on_timer WriterState.lease_expired WriterState.lease_deadline
  simp only [hl, hq, deadline_after, deadline_reached]
  have : ¬ (t + L ≤ now) := by omega
  simp [this]

theorem on_timer_lost (now t : Nat) (L : Nat) (w : WriterState) (ha : w.alive = true)
    (hl : w.last_assertion_time = some t) (hq : w.qos.lease_duration = Duration.finite L)
    (h : t + L ≤ now) :
    w.on_timer now =
      { w with
        alive := false
        status := ⟨w.status.total_count + 1, 0⟩
        delivered := w.delivered ++ [⟨w.status.total_count + 1, w.status.total_count_change + 1⟩] } := by
  unfold WriterState.on_timer WriterState.lease_expired WriterState.lease_deadline
  simp only [ha, hl, hq, deadline_after, deadline_reached]
  simp [h, WriterState.publish]

theorem writer_run_cons (w : WriterState) (x : Nat × Stimulus) (rest : List (Nat × Stimulus)) :
    w.run (x :: rest) = (w.step x.1 x.2.scope).run rest := rfl

theorem writer_run_append (w : WriterState) (l1 l2 : List (Nat × Stimulus)) :
    w.run (l1 ++ l2) = (w.run l1).run l2 := by
  unfold WriterState.run
  rw [List.foldl_append]

/-- Assertions that keep coming within the lease: the writer stays alive and nothing is
delivered to its listener. -/
theorem writer_within_lease (g : WriterId) (k : LivelinessKind) (L : Nat) :
    ∀ (stimuli : List (Nat × Stimulus)) (t : Nat) (w : WriterState),
      w.guid = g → w.qos.kind = k → w.qos.lease_duration = Duration.finite L →
      w.alive = true → w.last_assertion_time = some t →
      (∀ x ∈ stimuli, LocalScope.covers x.2.scope g k = true) →
      within_lease L t (stimuli.map (fun x => x.1)) →
      w.run stimuli
        = { w with last_assertion_time := some ((stimuli.map (fun x => x.1)).getLastD t) } := by
  intro stimuli
  induction stimuli with
  | nil =>
    intro t w _ _ _ _ hl _ _
    have hrun : w.run [] = w := rfl
    rw [hrun]
    cases w
    simp only at hl
    subst hl
    rfl
  | cons x rest ih =>
    intro t w hg hk hq ha hl hcov hwl
    simp only [List.map_cons, within_lease] at hwl
    obtain ⟨_, hlt, hrest⟩ := hwl
    have hc : LocalScope.covers x.2.scope w.guid w.qos.kind = true := by
      rw [hg, hk]; exact hcov x (List.mem_cons_self _ _)
    have hstep : w.step x.1 x.2.scope = { w with last_assertion_time := some x.1 } := by
      unfold WriterState.step
      rw [if_pos hc, on_timer_before x.1 t L w hl hq hlt]
      cases w
      simp only at ha
      subst ha
      rfl
    rw [writer_run_cons, hstep,
      ih x.1 { w with last_assertion_time := some x.1 } hg hk hq ha rfl
        (fun y hy => hcov y (List.mem_cons_of_mem _ hy)) hrest]
    simp only [List.map_cons, List.getLastD_cons]

/-- Assertions each followed by a silence longer than the lease, then the timer: the writer
is lost once per assertion. -/
theorem writer_separated (g : WriterId) (k : LivelinessKind) (L : Nat) (T : Nat) :
    ∀ (stimuli : List (Nat × Stimulus)) (t : Nat) (w : WriterState),
      w.guid = g → w.qos.kind = k → w.qos.lease_duration = Duration.finite L →
      w.alive = true → w.last_assertion_time = some t →
      (∀ x ∈ stimuli, LocalScope.covers x.2.scope g k = true) →
      separated L (t :: stimuli.map (fun x => x.1)) T →
      ((w.run stimuli).on_timer T).alive = false ∧
      ((w.run stimuli).on_timer T).delivered.length
        = w.delivered.length + stimuli.length + 1 ∧
      ((w.run stimuli).on_timer T).status.total_count
        = w.status.total_count + stimuli.length + 1 := by
  intro stimuli
  induction stimuli with
  | nil =>
    intro t w _ _ hq ha hl _ hsep
    simp only [List.map_nil, separated, and_true] at hsep
    have : w.run [] = w := rfl
    rw [this, on_timer_lost T t L w ha hl hq (Nat.le_of_lt hsep)]
    simp
  | cons x rest ih =>
    intro t w hg hk hq ha hl hcov hsep
    simp only [List.map_cons, separated] at hsep
    obtain ⟨hlt, hrest⟩ := hsep
    have hc : LocalScope.covers x.2.scope w.guid w.qos.kind = true := by
      rw [hg, hk]; exact hcov x (List.mem_cons_self _ _)
    have hstep : w.step x.1 x.2.scope
        = ({ w with
              alive := false
              status := ⟨w.status.total_count + 1, 0⟩
              delivered := w.delivered
                ++ [⟨w.status.total_count + 1, w.status.total_count_change + 1⟩] }
            : WriterState).assert x.1 := by
      unfold WriterState.step
      rw [if_pos hc, on_timer_lost x.1 t L w ha hl hq (Nat.le_of_lt hlt)]
    rw [writer_run_cons, hstep]
    obtain ⟨h1, h2, h3⟩ := ih x.1
      (({ w with
            alive := false
            status := ⟨w.status.total_count + 1, 0⟩
            delivered := w.delivered
              ++ [⟨w.status.total_count + 1, w.status.total_count_change + 1⟩] }
          : WriterState).assert x.1)
      hg hk hq rfl rfl (fun y hy => hcov y (List.mem_cons_of_mem _ hy)) hrest
    refine ⟨h1, ?_, ?_⟩
    · rw [h2]; simp [WriterState.assert]; omega
    · rw [h3]; simp [WriterState.assert]; omega

/-! ## A reader matched to one writer, step by step -/

theorem listener_after_append (d : List LivelinessChangedStatus) (st : LivelinessChangedStatus) :
    ReaderCounts.after (d ++ [st])
      = (ReaderCounts.after d).count st := by
  unfold ReaderCounts.after
  rw [List.foldl_append]
  rfl

theorem expire_single_noop (m : ReaderMonitor) (e : LeaseEntry) (now : Nat)
    (h : m.entries = [e]) (hx : e.expired now = false) : m.on_deadline_expired now = m := by
  unfold ReaderMonitor.on_deadline_expired
  simp [h, hx]

theorem expire_single (m : ReaderMonitor) (e : LeaseEntry) (now : Nat)
    (h : m.entries = [e]) (hx : e.expired now = true) :
    m.on_deadline_expired now =
      { entries := [{ e with alive := false }]
        status := { m.status with
          alive_count := m.status.alive_count - 1
          not_alive_count := m.status.not_alive_count + 1
          alive_count_change := 0
          not_alive_count_change := 0
          last_publication_handle := some e.writer }
        delivered := m.delivered ++ [{ m.status with
          alive_count := m.status.alive_count - 1
          not_alive_count := m.status.not_alive_count + 1
          alive_count_change := m.status.alive_count_change - 1
          not_alive_count_change := m.status.not_alive_count_change + 1
          last_publication_handle := some e.writer }] } := by
  unfold ReaderMonitor.on_deadline_expired
  simp [h, hx, ReaderMonitor.publish]

theorem assert_single_alive (m : ReaderMonitor) (e : LeaseEntry) (now : Nat)
    (h : m.entries = [e]) (ha : e.alive = true) :
    m.on_assertion e.writer now = { m with entries := [e.refresh now] } := by
  unfold ReaderMonitor.on_assertion
  simp [h, ha]

theorem assert_single_not_alive (m : ReaderMonitor) (e : LeaseEntry) (now : Nat)
    (h : m.entries = [e]) (ha : e.alive = false) :
    m.on_assertion e.writer now =
      { entries := [e.refresh now]
        status := { m.status with
          alive_count := m.status.alive_count + 1
          not_alive_count := m.status.not_alive_count - 1
          alive_count_change := 0
          not_alive_count_change := 0
          last_publication_handle := some e.writer }
        delivered := m.delivered ++ [{ m.status with
          alive_count := m.status.alive_count + 1
          not_alive_count := m.status.not_alive_count - 1
          alive_count_change := m.status.alive_count_change + 1
          not_alive_count_change := m.status.not_alive_count_change - 1
          last_publication_handle := some e.writer }] } := by
  unfold ReaderMonitor.on_assertion
  simp [h, ha, ReaderMonitor.publish]

theorem receive_single_asserting (r : Reader) (e : LeaseEntry) (msg : AssertionMessage)
    (now : Nat) (h : r.monitor.entries = [e])
    (hm : msg.asserts r.reliability e.writer e.kind = true) :
    Reader.receive (some msg) now r
      = { r with monitor := r.monitor.on_assertion e.writer now } := by
  unfold Reader.receive
  simp [h, hm, ReaderMonitor.assert_all]

theorem receive_single_silent (r : Reader) (e : LeaseEntry) (msg : Option AssertionMessage)
    (now : Nat) (h : r.monitor.entries = [e])
    (hm : ∀ msg', msg = some msg' → msg'.asserts r.reliability e.writer e.kind = false) :
    Reader.receive msg now r = r := by
  unfold Reader.receive
  cases msg with
  | none => rfl
  | some msg' =>
    have := hm msg' rfl
    simp [h, this, ReaderMonitor.assert_all]

theorem reader_step_reliability (now : Nat) (msg : Option AssertionMessage) (r : Reader) :
    (r.step now msg).reliability = r.reliability := by
  unfold Reader.step Reader.receive
  cases msg <;> rfl

theorem expired_iff (e : LeaseEntry) (now d : Nat) (ha : e.alive = true)
    (hd : e.deadline = some d) : e.expired now = decide (d ≤ now) := by
  unfold LeaseEntry.expired deadline_reached
  simp [ha, hd]

theorem not_expired_of_not_alive (e : LeaseEntry) (now : Nat) (ha : e.alive = false) :
    e.expired now = false := by
  unfold LeaseEntry.expired
  simp [ha]

/-- The timer at a reader whose entry expired: one loss. -/
theorem reader_expire_summary (r : Reader) (e : LeaseEntry) (a b now : Nat)
    (hs : r.summary e a b) (hx : e.expired now = true) :
    Reader.summary { r with monitor := r.monitor.on_deadline_expired now }
      { e with alive := false } a (b + 1) := by
  obtain ⟨h1, h2, h3, h4⟩ := hs
  rw [expire_single r.monitor e now h1 hx]
  refine ⟨rfl, rfl, ?_, ?_⟩
  · show (ReaderCounts.after
      (r.monitor.delivered ++ [_])).recovered = _
    rw [listener_after_append]
    unfold Reader.times_recovered at h3
    simp [ReaderCounts.count, h2, h3]
  · show (ReaderCounts.after
      (r.monitor.delivered ++ [_])).lost = _
    rw [listener_after_append]
    unfold Reader.times_lost at h4
    simp [ReaderCounts.count, h2, h4]

/-- An assertion received for an entry that is not alive: one recovery. -/
theorem reader_receive_recover (r : Reader) (e : LeaseEntry) (a b now : Nat)
    (msg : AssertionMessage) (hs : r.summary e a b) (ha : e.alive = false)
    (hm : msg.asserts r.reliability e.writer e.kind = true) :
    (Reader.receive (some msg) now r).summary (e.refresh now) (a + 1) b := by
  obtain ⟨h1, h2, h3, h4⟩ := hs
  rw [receive_single_asserting r e msg now h1 hm, assert_single_not_alive r.monitor e now h1 ha]
  refine ⟨rfl, rfl, ?_, ?_⟩
  · show (ReaderCounts.after
      (r.monitor.delivered ++ [_])).recovered = _
    rw [listener_after_append]
    unfold Reader.times_recovered at h3
    simp [ReaderCounts.count, h2, h3]
  · show (ReaderCounts.after
      (r.monitor.delivered ++ [_])).lost = _
    rw [listener_after_append]
    unfold Reader.times_lost at h4
    simp [ReaderCounts.count, h2, h4]

/-- An assertion received for an alive entry: nothing is delivered. -/
theorem reader_receive_refresh (r : Reader) (e : LeaseEntry) (a b now : Nat)
    (msg : AssertionMessage) (hs : r.summary e a b) (ha : e.alive = true)
    (hm : msg.asserts r.reliability e.writer e.kind = true) :
    (Reader.receive (some msg) now r).summary (e.refresh now) a b := by
  obtain ⟨h1, h2, h3, h4⟩ := hs
  rw [receive_single_asserting r e msg now h1 hm, assert_single_alive r.monitor e now h1 ha]
  exact ⟨rfl, h2, h3, h4⟩

/-- An assertion reaching an entry that is not alive: one recovery. -/
theorem reader_step_recover (r : Reader) (e : LeaseEntry) (a b now : Nat)
    (msg : AssertionMessage) (hs : r.summary e a b) (ha : e.alive = false)
    (hm : msg.asserts r.reliability e.writer e.kind = true) :
    (r.step now (some msg)).summary (e.refresh now) (a + 1) b := by
  unfold Reader.step
  rw [expire_single_noop r.monitor e now hs.1 (not_expired_of_not_alive e now ha)]
  exact reader_receive_recover r e a b now msg hs ha hm

/-- An assertion reaching an alive entry before its deadline: nothing is delivered. -/
theorem reader_step_refresh (r : Reader) (e : LeaseEntry) (a b now d : Nat)
    (msg : AssertionMessage) (hs : r.summary e a b) (ha : e.alive = true)
    (hd : e.deadline = some d) (hlt : now < d)
    (hm : msg.asserts r.reliability e.writer e.kind = true) :
    (r.step now (some msg)).summary (e.refresh now) a b := by
  have hx : e.expired now = false := by
    rw [expired_iff e now d ha hd]; simp; omega
  unfold Reader.step
  rw [expire_single_noop r.monitor e now hs.1 hx]
  exact reader_receive_refresh r e a b now msg hs ha hm

/-- The deadline of an alive entry is reached and nothing asserts it: one loss. -/
theorem reader_step_lose (r : Reader) (e : LeaseEntry) (a b now d : Nat)
    (msg : Option AssertionMessage) (hs : r.summary e a b) (ha : e.alive = true)
    (hd : e.deadline = some d) (hle : d ≤ now)
    (hm : ∀ msg', msg = some msg' → msg'.asserts r.reliability e.writer e.kind = false) :
    (r.step now msg).summary { e with alive := false } a (b + 1) := by
  have hx : e.expired now = true := by
    rw [expired_iff e now d ha hd]; simpa using hle
  have h := reader_expire_summary r e a b now hs hx
  unfold Reader.step
  rw [receive_single_silent { r with monitor := r.monitor.on_deadline_expired now }
    { e with alive := false } msg now h.1 hm]
  exact h

/-- The deadline of an alive entry is reached and an assertion arrives: one loss, then one
recovery. -/
theorem reader_step_lose_recover (r : Reader) (e : LeaseEntry) (a b now d : Nat)
    (msg : AssertionMessage) (hs : r.summary e a b) (ha : e.alive = true)
    (hd : e.deadline = some d) (hle : d ≤ now)
    (hm : msg.asserts r.reliability e.writer e.kind = true) :
    (r.step now (some msg)).summary (e.refresh now) (a + 1) (b + 1) := by
  have hx : e.expired now = true := by
    rw [expired_iff e now d ha hd]; simpa using hle
  have h := reader_expire_summary r e a b now hs hx
  unfold Reader.step
  exact reader_receive_recover { r with monitor := r.monitor.on_deadline_expired now }
    { e with alive := false } a (b + 1) now msg h rfl hm

/-- Nothing asserts the entry and no deadline is reached: the reader is unchanged. -/
theorem reader_step_quiet (r : Reader) (e : LeaseEntry) (now : Nat)
    (msg : Option AssertionMessage) (h1 : r.monitor.entries = [e])
    (hx : e.expired now = false)
    (hm : ∀ msg', msg = some msg' → msg'.asserts r.reliability e.writer e.kind = false) :
    r.step now msg = r := by
  unfold Reader.step
  rw [expire_single_noop r.monitor e now h1 hx]
  exact receive_single_silent r e msg now h1 hm

/-! ## A reader matched to one writer, along a sequence of assertions -/

theorem reader_run_cons (r : Reader) (x : Nat × Stimulus) (rest : List (Nat × Stimulus)) :
    r.run (x :: rest) = (r.step x.1 x.2.message).run rest := rfl

theorem reader_run_append (r : Reader) (l1 l2 : List (Nat × Stimulus)) :
    r.run (l1 ++ l2) = (r.run l1).run l2 := by
  unfold Reader.run
  rw [List.foldl_append]

theorem refresh_is_for (e : LeaseEntry) (g : WriterId) (k : LivelinessKind) (L now : Nat)
    (h : e.is_for g k L) :
    (e.refresh now).is_for g k L ∧ (e.refresh now).alive = true ∧
    (e.refresh now).deadline = some (now + L) := by
  obtain ⟨h1, h2, h3⟩ := h
  refine ⟨⟨h1, h2, h3⟩, rfl, ?_⟩
  show deadline_after now e.lease_duration = _
  rw [h3]; rfl

/-- Assertions that keep arriving within the lease: the entry stays alive and nothing is
delivered to the listener. -/
theorem reader_within_lease (rel : ReliabilityKind) (g : WriterId) (k : LivelinessKind)
    (L a b : Nat) :
    ∀ (stimuli : List (Nat × Stimulus)) (t : Nat) (r : Reader) (e : LeaseEntry),
      r.reliability = rel → r.summary e a b → e.is_for g k L → e.alive = true →
      e.deadline = some (t + L) →
      (∀ x ∈ stimuli, ∃ msg, x.2.message = some msg ∧ msg.asserts rel g k = true) →
      within_lease L t (stimuli.map (fun x => x.1)) →
      ∃ e', (r.run stimuli).summary e' a b ∧ (r.run stimuli).reliability = rel ∧
        e'.is_for g k L ∧ e'.alive = true ∧
        e'.deadline = some ((stimuli.map (fun x => x.1)).getLastD t + L) := by
  intro stimuli
  induction stimuli with
  | nil =>
    intro t r e hr hs hf ha hd _ _
    exact ⟨e, hs, hr, hf, ha, hd⟩
  | cons x rest ih =>
    intro t r e hr hs hf ha hd hmsg hwl
    simp only [List.map_cons, within_lease] at hwl
    obtain ⟨_, hlt, hrest⟩ := hwl
    obtain ⟨msg, hx, hm⟩ := hmsg x (List.mem_cons_self _ _)
    have hm' : msg.asserts r.reliability e.writer e.kind = true := by
      rw [hr, hf.1, hf.2.1]; exact hm
    have hstep := reader_step_refresh r e a b x.1 (t + L) msg hs ha hd hlt hm'
    obtain ⟨f1, f2, f3⟩ := refresh_is_for e g k L x.1 hf
    rw [reader_run_cons, hx]
    have hrel : (r.step x.1 (some msg)).reliability = rel := by
      rw [reader_step_reliability]; exact hr
    obtain ⟨e', h1, h2, h3, h4, h5⟩ := ih x.1 (r.step x.1 (some msg)) (e.refresh x.1) hrel hstep
      f1 f2 f3 (fun y hy => hmsg y (List.mem_cons_of_mem _ hy)) hrest
    refine ⟨e', h1, h2, h3, h4, ?_⟩
    simp only [List.map_cons, List.getLastD_cons]
    exact h5

/-- Assertions each followed by a silence longer than the lease, then the timer: the entry is
lost once per assertion and recovers at each assertion after the first. -/
theorem reader_separated (rel : ReliabilityKind) (g : WriterId) (k : LivelinessKind)
    (L T : Nat) :
    ∀ (stimuli : List (Nat × Stimulus)) (t a b : Nat) (r : Reader) (e : LeaseEntry),
      r.reliability = rel → r.summary e a b → e.is_for g k L → e.alive = true →
      e.deadline = some (t + L) →
      (∀ x ∈ stimuli, ∃ msg, x.2.message = some msg ∧ msg.asserts rel g k = true) →
      separated L (t :: stimuli.map (fun x => x.1)) T →
      ∃ e', ((r.run stimuli).step T none).summary e' (a + stimuli.length)
          (b + stimuli.length + 1) ∧
        e'.is_for g k L ∧ e'.alive = false := by
  intro stimuli
  induction stimuli with
  | nil =>
    intro t a b r e _ hs hf ha hd _ hsep
    simp only [List.map_nil, separated, and_true] at hsep
    have hl := reader_step_lose r e a b T (t + L) none hs ha hd (Nat.le_of_lt hsep)
      (fun _ h => by cases h)
    exact ⟨{ e with alive := false }, by simpa using hl, hf, rfl⟩
  | cons x rest ih =>
    intro t a b r e hr hs hf ha hd hmsg hsep
    simp only [List.map_cons, separated] at hsep
    obtain ⟨hlt, hrest⟩ := hsep
    obtain ⟨msg, hx, hm⟩ := hmsg x (List.mem_cons_self _ _)
    have hm' : msg.asserts r.reliability e.writer e.kind = true := by
      rw [hr, hf.1, hf.2.1]; exact hm
    have hstep := reader_step_lose_recover r e a b x.1 (t + L) msg hs ha hd (Nat.le_of_lt hlt) hm'
    obtain ⟨f1, f2, f3⟩ := refresh_is_for e g k L x.1 hf
    rw [reader_run_cons, hx]
    have hrel : (r.step x.1 (some msg)).reliability = rel := by
      rw [reader_step_reliability]; exact hr
    obtain ⟨e', h1, h2, h3⟩ := ih x.1 (a + 1) (b + 1) (r.step x.1 (some msg)) (e.refresh x.1)
      hrel hstep f1 f2 f3 (fun y hy => hmsg y (List.mem_cons_of_mem _ hy)) hrest
    refine ⟨e', ?_, h2, h3⟩
    have e1 : a + (x :: rest).length = a + 1 + rest.length := by simp; omega
    have e2 : b + (x :: rest).length + 1 = b + 1 + rest.length + 1 := by simp; omega
    rw [e1, e2]; exact h1

/-! ## One writer matched to one reader -/

theorem stimulus_covers_self (w : WriterState) (b : Bool)
    (h : w.qos.kind ≠ LivelinessKind.Automatic) :
    LocalScope.covers (Stimulus.of w b).scope w.guid w.qos.kind = true := by
  unfold Stimulus.of
  cases hk : w.qos.kind with
  | Automatic => exact absurd hk h
  | ManualByParticipant => simp [LocalScope.covers]
  | ManualByTopic => simp [LocalScope.covers]

theorem visible_message (w : WriterState) (rel : ReliabilityKind) (b : Bool)
    (h : w.visible rel b = true) :
    ∃ msg, (Stimulus.of w b).message = some msg ∧ msg.asserts rel w.guid w.qos.kind = true := by
  unfold WriterState.visible at h
  unfold Stimulus.of
  cases hk : w.qos.kind with
  | Automatic => rw [hk] at h; simp at h
  | ManualByParticipant =>
    exact ⟨_, rfl, by simp [AssertionMessage.asserts]⟩
  | ManualByTopic =>
    rw [hk] at h
    cases b with
    | true => exact ⟨_, rfl, by simp [AssertionMessage.asserts]⟩
    | false =>
      simp only [Bool.false_or, Bool.and_eq_true, beq_iff_eq] at h
      refine ⟨AssertionMessage.heartbeat w.guid, ?_, ?_⟩
      · simp [h.1]
      · simp [AssertionMessage.asserts, h.2]

theorem pair_resolve_call (w : WriterState) (ws : List WriterState) (rs : List Reader)
    (b : Bool) :
    (⟨w :: ws, rs⟩ : System).resolve (Action.call w.guid b) = Stimulus.of w b := by
  cases b <;> simp [Action.call, System.resolve]

theorem pair_stimuli_calls (w : WriterState) (ws : List WriterState) (rs : List Reader)
    (calls : List (Nat × Bool)) :
    (⟨w :: ws, rs⟩ : System).stimuli (calls_trace w.guid calls)
      = calls.map (fun c => (c.1, Stimulus.of w c.2)) := by
  unfold System.stimuli calls_trace
  rw [List.map_map]
  apply List.map_congr_left
  intro c _
  simp only [Function.comp, pair_resolve_call]

theorem stimuli_append (s : System) (l1 l2 : List (Nat × Action)) :
    s.stimuli (l1 ++ l2) = s.stimuli l1 ++ s.stimuli l2 := by
  unfold System.stimuli
  rw [List.map_append]

theorem stimuli_idle (s : System) (T : Nat) :
    s.stimuli [(T, Action.idle)] = [(T, ⟨none, none⟩)] := rfl

theorem publisher_listener_length (l : List LivelinessLostStatus) (n : Nat) :
    (l.foldl WriterCounts.count ⟨n⟩).lost
      = n + l.length := by
  induction l generalizing n with
  | nil => rfl
  | cons a t ih =>
    rw [List.foldl_cons]
    show (t.foldl WriterCounts.count ⟨n + 1⟩).lost = _
    rw [ih]; simp; omega

theorem writer_times_lost_eq (s : System) :
    s.writer_times_liveliness_lost = (s.writers.map (fun w => w.delivered.length)).sum := by
  unfold System.writer_times_liveliness_lost System.publisher_listener
  rw [publisher_listener_length, List.length_flatten, List.map_map]
  simp only [Nat.zero_add]
  rfl

theorem listener_counts (l : List LivelinessChangedStatus) (a b : Nat) :
    l.foldl ReaderCounts.count ⟨a, b⟩
      = ⟨a + l.countP (fun st => !(st.alive_count_change == 1)),
         b + l.countP (fun st => st.alive_count_change == 1)⟩ := by
  induction l generalizing a b with
  | nil => rfl
  | cons st t ih =>
    rw [List.foldl_cons]
    by_cases h : (st.alive_count_change == 1) = true
    · have e1 : ReaderCounts.count ⟨a, b⟩ st = ⟨a, b + 1⟩ := by
        unfold ReaderCounts.count
        rw [if_pos h]
      rw [e1, ih]
      simp [List.countP_cons, h]; omega
    · have e1 : ReaderCounts.count ⟨a, b⟩ st = ⟨a + 1, b⟩ := by
        unfold ReaderCounts.count
        rw [if_neg h]
      rw [e1, ih]
      simp only [Bool.not_eq_true] at h
      simp [List.countP_cons, h]; omega

theorem times_recovered_eq (s : System) :
    s.times_liveliness_recovered = (s.readers.map Reader.times_recovered).sum := by
  have key : ∀ l : List LivelinessChangedStatus,
      ReaderCounts.after l
        = ⟨l.countP (fun st => !(st.alive_count_change == 1)),
           l.countP (fun st => st.alive_count_change == 1)⟩ := by
    intro l
    unfold ReaderCounts.after
    rw [listener_counts]
    simp
  unfold System.times_liveliness_recovered System.subscriber_listener
  rw [key]
  simp only [List.countP_flatten, List.map_map]
  congr 1
  apply List.map_congr_left
  intro r _
  simp only [Function.comp, Reader.times_recovered, key]

theorem reader_times_lost_eq (s : System) :
    s.reader_times_liveliness_lost = (s.readers.map Reader.times_lost).sum := by
  have key : ∀ l : List LivelinessChangedStatus,
      ReaderCounts.after l
        = ⟨l.countP (fun st => !(st.alive_count_change == 1)),
           l.countP (fun st => st.alive_count_change == 1)⟩ := by
    intro l
    unfold ReaderCounts.after
    rw [listener_counts]
    simp
  unfold System.reader_times_liveliness_lost System.subscriber_listener
  rw [key]
  simp only [List.countP_flatten, List.map_map]
  congr 1
  apply List.map_congr_left
  intro r _
  simp only [Function.comp, Reader.times_lost, key]

theorem writer_step_assert_of_not_alive (w : WriterState) (now : Nat) (sc : Option LocalScope)
    (ha : w.alive = false) (hc : LocalScope.covers sc w.guid w.qos.kind = true) :
    w.step now sc = w.assert now := by
  unfold WriterState.step
  rw [if_pos hc, on_timer_not_alive now w ha]

/-- Calls each followed by a silence longer than the lease, starting from a writer that is
not alive: one loss per call. -/
theorem writer_calls_separated (w : WriterState) (L T : Nat) (calls : List (Nat × Bool))
    (hk : w.qos.kind ≠ LivelinessKind.Automatic)
    (hq : w.qos.lease_duration = Duration.finite L) (ha : w.alive = false)
    (hsep : separated L (calls.map (fun c => c.1)) T) :
    ((w.run (calls.map (fun c => (c.1, Stimulus.of w c.2)))).on_timer T).alive = false ∧
    ((w.run (calls.map (fun c => (c.1, Stimulus.of w c.2)))).on_timer T).delivered.length
      = w.delivered.length + calls.length ∧
    ((w.run (calls.map (fun c => (c.1, Stimulus.of w c.2)))).on_timer T).status.total_count
      = w.status.total_count + calls.length := by
  cases calls with
  | nil =>
    have : w.run [] = w := rfl
    simp only [List.map_nil, this, on_timer_not_alive T w ha, List.length_nil]
    exact ⟨ha, rfl, by simp⟩
  | cons c rest =>
    rw [List.map_cons, writer_run_cons,
      writer_step_assert_of_not_alive w c.1 _ ha (stimulus_covers_self w c.2 hk)]
    have hcov : ∀ x ∈ rest.map (fun c => (c.1, Stimulus.of w c.2)),
        LocalScope.covers x.2.scope w.guid w.qos.kind = true := by
      intro x hx
      obtain ⟨c', _, rfl⟩ := List.mem_map.1 hx
      exact stimulus_covers_self w c'.2 hk
    have hsep' : separated L (c.1 :: (rest.map (fun c => (c.1, Stimulus.of w c.2))).map
        (fun x => x.1)) T := by
      rw [List.map_map]
      exact hsep
    obtain ⟨h1, h2, h3⟩ := writer_separated w.guid w.qos.kind L T _ c.1 (w.assert c.1) rfl rfl hq
      rfl rfl hcov hsep'
    refine ⟨h1, ?_, ?_⟩
    · rw [h2]; simp [WriterState.assert]; omega
    · rw [h3]; simp [WriterState.assert]; omega

/-- Calls that reach the reader, each followed by a silence longer than the lease, starting
from an entry that is not alive: one recovery and one loss per call. -/
theorem reader_calls_separated (w : WriterState) (r : Reader) (e : LeaseEntry) (L T a b : Nat)
    (calls : List (Nat × Bool)) (hs : r.summary e a b)
    (hf : e.is_for w.guid w.qos.kind L) (ha : e.alive = false)
    (hvis : ∀ c ∈ calls, w.visible r.reliability c.2 = true)
    (hsep : separated L (calls.map (fun c => c.1)) T) :
    ∃ e', ((r.run (calls.map (fun c => (c.1, Stimulus.of w c.2)))).step T none).summary e'
        (a + calls.length) (b + calls.length) ∧
      e'.is_for w.guid w.qos.kind L ∧ e'.alive = false := by
  cases calls with
  | nil =>
    have : r.run [] = r := rfl
    simp only [List.map_nil, this, List.length_nil, Nat.add_zero]
    rw [reader_step_quiet r e T none hs.1 (not_expired_of_not_alive e T ha)
      (fun _ h => by cases h)]
    exact ⟨e, hs, hf, ha⟩
  | cons c rest =>
    obtain ⟨msg, hmsg, hm⟩ := visible_message w r.reliability c.2 (hvis c (List.mem_cons_self _ _))
    have hm' : msg.asserts r.reliability e.writer e.kind = true := by
      rw [hf.1, hf.2.1]; exact hm
    have hstep := reader_step_recover r e a b c.1 msg hs ha hm'
    obtain ⟨f1, f2, f3⟩ := refresh_is_for e w.guid w.qos.kind L c.1 hf
    rw [List.map_cons, reader_run_cons]
    simp only [hmsg]
    have hall : ∀ x ∈ rest.map (fun c => (c.1, Stimulus.of w c.2)),
        ∃ msg, x.2.message = some msg ∧ msg.asserts r.reliability w.guid w.qos.kind = true := by
      intro x hx
      obtain ⟨c', hc', rfl⟩ := List.mem_map.1 hx
      exact visible_message w r.reliability c'.2 (hvis c' (List.mem_cons_of_mem _ hc'))
    have hsep' : separated L (c.1 :: (rest.map (fun c => (c.1, Stimulus.of w c.2))).map
        (fun x => x.1)) T := by
      rw [List.map_map]
      exact hsep
    obtain ⟨e', h1, h2, h3⟩ := reader_separated r.reliability w.guid w.qos.kind L T _ c.1 (a + 1) b
      (r.step c.1 (some msg)) (e.refresh c.1) (reader_step_reliability _ _ _) hstep f1 f2 f3
      hall hsep'
    refine ⟨e', ?_, h2, h3⟩
    have e1 : a + (c :: rest).length = a + 1 + (rest.map (fun c => (c.1, Stimulus.of w c.2))).length := by
      simp; omega
    have e2 : b + (c :: rest).length = b + (rest.map (fun c => (c.1, Stimulus.of w c.2))).length + 1 := by
      simp; omega
    rw [e1, e2]; exact h1

theorem pair_run (w : WriterState) (r : Reader) (trace : List (Nat × Action)) :
    (⟨[w], [r]⟩ : System).run trace
      = ⟨[w.run ((⟨[w], [r]⟩ : System).stimuli trace)],
         [r.run ((⟨[w], [r]⟩ : System).stimuli trace)]⟩ := by
  rw [run_eq_local]
  rfl

theorem pair_counters (w : WriterState) (r : Reader) :
    (⟨[w], [r]⟩ : System).writer_times_liveliness_lost = w.delivered.length ∧
    (⟨[w], [r]⟩ : System).times_liveliness_recovered = r.times_recovered ∧
    (⟨[w], [r]⟩ : System).reader_times_liveliness_lost = r.times_lost := by
  rw [writer_times_lost_eq, times_recovered_eq, reader_times_lost_eq]
  simp

/-! ## Manual kinds: assertions separated by silences -/

/-- C7: for a matched manual-kind writer (ManualByParticipant, or ManualByTopic with reliable
endpoints) that is not alive at the start, with the reader's entry for it not alive either:
if n assertions (sample writes or `assert_liveliness()` calls) are issued and each is followed
by a silent interval longer than `lease_duration`, then the writer's lost count, the reader's
recovered count and the reader's lost count each grow by exactly n. -/
theorem manual_assertions_each_followed_by_silence (w : WriterState) (r : Reader)
    (e : LeaseEntry) (L T : Nat) (calls : List (Nat × Bool))
    (hkind : w.qos.kind = LivelinessKind.ManualByParticipant ∨
      (w.qos.kind = LivelinessKind.ManualByTopic ∧ w.reliability = ReliabilityKind.Reliable ∧
        r.reliability = ReliabilityKind.Reliable))
    (hlease : w.qos.lease_duration = Duration.finite L)
    (hentry : r.monitor.entries = [e]) (hfor : e.is_for w.guid w.qos.kind L)
    (hpending : r.monitor.status.alive_count_change = 0)
    (hw : w.alive = false) (he : e.alive = false)
    (hsilence : separated L (calls.map (fun c => c.1)) T) :
    ((⟨[w], [r]⟩ : System).run
        (calls_trace w.guid calls ++ [(T, Action.idle)])).writer_times_liveliness_lost
      = (⟨[w], [r]⟩ : System).writer_times_liveliness_lost + calls.length ∧
    ((⟨[w], [r]⟩ : System).run
        (calls_trace w.guid calls ++ [(T, Action.idle)])).times_liveliness_recovered
      = (⟨[w], [r]⟩ : System).times_liveliness_recovered + calls.length ∧
    ((⟨[w], [r]⟩ : System).run
        (calls_trace w.guid calls ++ [(T, Action.idle)])).reader_times_liveliness_lost
      = (⟨[w], [r]⟩ : System).reader_times_liveliness_lost + calls.length := by
  have hk : w.qos.kind ≠ LivelinessKind.Automatic := by
    rcases hkind with h | ⟨h, _, _⟩ <;> rw [h] <;> decide
  have hvis : ∀ c ∈ calls, w.visible r.reliability c.2 = true := by
    intro c _
    unfold WriterState.visible
    rcases hkind with h | ⟨h, h1, h2⟩
    · rw [h]
    · rw [h, h1, h2]; simp
  rw [pair_run, stimuli_append, pair_stimuli_calls, stimuli_idle]
  obtain ⟨_, w2, _⟩ := writer_calls_separated w L T calls hk hlease hw hsilence
  obtain ⟨e', ⟨_, _, r3, r4⟩, _, _⟩ := reader_calls_separated w r e L T r.times_recovered
    r.times_lost calls ⟨hentry, hpending, rfl, rfl⟩ hfor he hvis hsilence
  obtain ⟨c1, c2, c3⟩ := pair_counters w r
  rw [c1, c2, c3]
  obtain ⟨d1, d2, d3⟩ := pair_counters
    (w.run (calls.map (fun c => (c.1, Stimulus.of w c.2)) ++ [(T, ⟨none, none⟩)]))
    (r.run (calls.map (fun c => (c.1, Stimulus.of w c.2)) ++ [(T, ⟨none, none⟩)]))
  rw [d1, d2, d3, writer_run_append, reader_run_append]
  exact ⟨w2, r3, r4⟩

/-- Witness of C7: `ShortLiveliness_ManualByParticipant_Reliable`, lease 10 ms, three samples
at 100 ms spacing. -/
theorem manual_assertions_each_followed_by_silence_witness :
    ((⟨[test_writer LivelinessKind.ManualByParticipant ReliabilityKind.Reliable 10],
        [test_reader ReliabilityKind.Reliable
          (test_writer LivelinessKind.ManualByParticipant ReliabilityKind.Reliable 10)]⟩
        : System).run
        (calls_trace ⟨1, 1⟩ (three_calls true)
          ++ [(300000000, Action.idle)])).writer_times_liveliness_lost = 0 + 3 ∧
    ((⟨[test_writer LivelinessKind.ManualByParticipant ReliabilityKind.Reliable 10],
        [test_reader ReliabilityKind.Reliable
          (test_writer LivelinessKind.ManualByParticipant ReliabilityKind.Reliable 10)]⟩
        : System).run
        (calls_trace ⟨1, 1⟩ (three_calls true)
          ++ [(300000000, Action.idle)])).times_liveliness_recovered = 0 + 3 ∧
    ((⟨[test_writer LivelinessKind.ManualByParticipant ReliabilityKind.Reliable 10],
        [test_reader ReliabilityKind.Reliable
          (test_writer LivelinessKind.ManualByParticipant ReliabilityKind.Reliable 10)]⟩
        : System).run
        (calls_trace ⟨1, 1⟩ (three_calls true)
          ++ [(300000000, Action.idle)])).reader_times_liveliness_lost = 0 + 3 :=
  manual_assertions_each_followed_by_silence
    (test_writer LivelinessKind.ManualByParticipant ReliabilityKind.Reliable 10)
    (test_reader ReliabilityKind.Reliable
      (test_writer LivelinessKind.ManualByParticipant ReliabilityKind.Reliable 10))
    (test_entry LivelinessKind.ManualByParticipant 10) 10000000 300000000 (three_calls true)
    (Or.inl rfl) rfl (by decide) ⟨rfl, rfl, rfl⟩ rfl rfl rfl
    (by simp [separated, three_calls])

/-! ## Writer side: one lost event per alive-to-lost transition -/

theorem handle_counts (w : WriterState) (ev : WriterEvent) :
    (w.handle ev).status.total_count
      = w.status.total_count + ((if w.alive && !(w.handle ev).alive then 1 else 0 : Nat) : Int) ∧
    (w.handle ev).delivered.length
      = w.delivered.length + (if w.alive && !(w.handle ev).alive then 1 else 0) := by
  cases ev with
  | asserted now =>
    simp [WriterState.handle, WriterState.assert]
  | timer now =>
    simp only [WriterState.handle]
    by_cases hx : w.lease_expired now = true
    · have ha : w.alive = true := by
        unfold WriterState.lease_expired at hx
        simp only [Bool.and_eq_true] at hx
        exact hx.1
      have e1 : w.on_timer now = WriterState.publish
          { w with
            alive := false
            status := { total_count := w.status.total_count + 1
                        total_count_change := w.status.total_count_change + 1 } } := by
        unfold WriterState.on_timer
        rw [if_pos hx]
      simp only [e1]
      simp [WriterState.publish, ha]
    · have e1 : w.on_timer now = w := by
        unfold WriterState.on_timer
        rw [if_neg hx]
      simp only [e1]
      cases w.alive <;> simp

theorem foldl_handle_counts (evs : List WriterEvent) :
    ∀ w : WriterState,
      (evs.foldl WriterState.handle w).status.total_count
        = w.status.total_count + (lost_transitions w evs : Nat) ∧
      (evs.foldl WriterState.handle w).delivered.length
        = w.delivered.length + lost_transitions w evs := by
  induction evs with
  | nil => intro w; simp [lost_transitions]
  | cons ev rest ih =>
    intro w
    obtain ⟨h1, h2⟩ := ih (w.handle ev)
    obtain ⟨g1, g2⟩ := handle_counts w ev
    simp only [List.foldl_cons, lost_transitions]
    constructor
    · rw [h1, g1]; push_cast; omega
    · rw [h2, g2]; omega

/-- Calls that keep coming within the lease, then a silence longer than the lease, starting
from a writer that is not alive: no loss during the calls, one loss after the silence. -/
theorem writer_calls_within_lease (w : WriterState) (L T : Nat) (c : Nat × Bool)
    (rest : List (Nat × Bool)) (hk : w.qos.kind ≠ LivelinessKind.Automatic)
    (hq : w.qos.lease_duration = Duration.finite L) (ha : w.alive = false)
    (hwl : within_lease L c.1 (rest.map (fun c => c.1)))
    (hT : (rest.map (fun c => c.1)).getLastD c.1 + L < T) :
    (w.run ((c :: rest).map (fun c => (c.1, Stimulus.of w c.2)))).delivered = w.delivered ∧
    ((w.run ((c :: rest).map (fun c => (c.1, Stimulus.of w c.2)))).on_timer T).delivered.length
      = w.delivered.length + 1 ∧
    ((w.run ((c :: rest).map (fun c => (c.1, Stimulus.of w c.2)))).on_timer T).status.total_count
      = w.status.total_count + 1 := by
  rw [List.map_cons, writer_run_cons,
    writer_step_assert_of_not_alive w c.1 _ ha (stimulus_covers_self w c.2 hk)]
  have hcov : ∀ x ∈ rest.map (fun c => (c.1, Stimulus.of w c.2)),
      LocalScope.covers x.2.scope w.guid w.qos.kind = true := by
    intro x hx
    obtain ⟨c', _, rfl⟩ := List.mem_map.1 hx
    exact stimulus_covers_self w c'.2 hk
  have htimes : (rest.map (fun c => (c.1, Stimulus.of w c.2))).map (fun x => x.1)
      = rest.map (fun c => c.1) := by
    rw [List.map_map]; rfl
  have hrun := writer_within_lease w.guid w.qos.kind L _ c.1 (w.assert c.1) rfl rfl hq rfl rfl
    hcov (by rw [htimes]; exact hwl)
  rw [hrun, htimes]
  have hlost := on_timer_lost T ((rest.map (fun c => c.1)).getLastD c.1) L
    { (w.assert c.1) with
      last_assertion_time := some ((rest.map (fun c => c.1)).getLastD c.1) }
    rfl rfl hq (Nat.le_of_lt hT)
  refine ⟨rfl, ?_, ?_⟩
  · rw [hlost]
    simp [WriterState.assert]
  · rw [hlost]
    simp [WriterState.assert]

/-- Calls that reach the reader and keep coming within the lease, then a silence longer than
the lease, starting from an entry that is not alive: one recovery, then one loss. -/
theorem reader_calls_within_lease (w : WriterState) (r : Reader) (e : LeaseEntry)
    (L T a b : Nat) (c : Nat × Bool) (rest : List (Nat × Bool)) (hs : r.summary e a b)
    (hf : e.is_for w.guid w.qos.kind L) (ha : e.alive = false)
    (hvis : ∀ c' ∈ c :: rest, w.visible r.reliability c'.2 = true)
    (hwl : within_lease L c.1 (rest.map (fun c => c.1)))
    (hT : (rest.map (fun c => c.1)).getLastD c.1 + L < T) :
    (∃ e', (r.run ((c :: rest).map (fun c => (c.1, Stimulus.of w c.2)))).summary e' (a + 1) b ∧
      e'.alive = true) ∧
    (∃ e', ((r.run ((c :: rest).map (fun c => (c.1, Stimulus.of w c.2)))).step T none).summary
      e' (a + 1) (b + 1) ∧ e'.alive = false) := by
  obtain ⟨msg, hmsg, hm⟩ := visible_message w r.reliability c.2 (hvis c (List.mem_cons_self _ _))
  have hm' : msg.asserts r.reliability e.writer e.kind = true := by
    rw [hf.1, hf.2.1]; exact hm
  have hstep := reader_step_recover r e a b c.1 msg hs ha hm'
  obtain ⟨f1, f2, f3⟩ := refresh_is_for e w.guid w.qos.kind L c.1 hf
  rw [List.map_cons, reader_run_cons]
  simp only [hmsg]
  have hall : ∀ x ∈ rest.map (fun c => (c.1, Stimulus.of w c.2)),
      ∃ msg, x.2.message = some msg ∧ msg.asserts r.reliability w.guid w.qos.kind = true := by
    intro x hx
    obtain ⟨c', hc', rfl⟩ := List.mem_map.1 hx
    exact visible_message w r.reliability c'.2 (hvis c' (List.mem_cons_of_mem _ hc'))
  have htimes : (rest.map (fun c => (c.1, Stimulus.of w c.2))).map (fun x => x.1)
      = rest.map (fun c => c.1) := by
    rw [List.map_map]; rfl
  obtain ⟨e', h1, h2, h3, h4, h5⟩ := reader_within_lease r.reliability w.guid w.qos.kind L (a + 1) b
    _ c.1 (r.step c.1 (some msg)) (e.refresh c.1) (reader_step_reliability _ _ _) hstep f1 f2 f3
    hall (by rw [htimes]; exact hwl)
  rw [htimes] at h5
  refine ⟨⟨e', h1, h4⟩, { e' with alive := false }, ?_, rfl⟩
  exact reader_step_lose _ e' (a + 1) b T _ none h1 h4 h5 (Nat.le_of_lt hT) (fun _ h => by cases h)

/-- C4: liveliness-lost is fired exactly once per alive-to-lost transition of a writer:
along every sequence of assertions and timer firings `total_count` and the number of lost
events both grow by the number of alive-to-lost transitions (so `total_count` never
decreases), and an assertion fires no lost event.  Consequently, for n ≥ 1 assertions of a
manual-kind writer (sample writes or `assert_liveliness()` calls that reach the reader), each
issued less than `lease_duration` after the previous one and followed by a silence longer than
`lease_duration`, starting with writer and lease entry not alive, the writer reports exactly
one loss and the reader exactly one recovery and one loss; during the assertions nothing is
lost. -/
theorem lost_fired_once_per_transition (w : WriterState) (r : Reader) (e : LeaseEntry)
    (L T : Nat) (c : Nat × Bool) (rest : List (Nat × Bool))
    (hmanual : w.qos.kind ≠ LivelinessKind.Automatic)
    (hvisible : ∀ c' ∈ c :: rest, w.visible r.reliability c'.2 = true)
    (hlease : w.qos.lease_duration = Duration.finite L)
    (hentry : r.monitor.entries = [e]) (hfor : e.is_for w.guid w.qos.kind L)
    (hpending : r.monitor.status.alive_count_change = 0)
    (hw : w.alive = false) (he : e.alive = false)
    (hclose : within_lease L c.1 (rest.map (fun c => c.1)))
    (hsilence : (rest.map (fun c => c.1)).getLastD c.1 + L < T) :
    (∀ (w0 : WriterState) (evs : List WriterEvent),
      (evs.foldl WriterState.handle w0).status.total_count
        = w0.status.total_count + (lost_transitions w0 evs : Nat) ∧
      (evs.foldl WriterState.handle w0).delivered.length
        = w0.delivered.length + lost_transitions w0 evs) ∧
    (∀ (w0 : WriterState) (ev : WriterEvent),
      w0.status.total_count ≤ (w0.handle ev).status.total_count) ∧
    (∀ (w0 : WriterState) (now : Nat),
      (w0.assert now).delivered = w0.delivered ∧ (w0.assert now).status = w0.status) ∧
    (((⟨[w], [r]⟩ : System).run (calls_trace w.guid (c :: rest))).writer_times_liveliness_lost
        = (⟨[w], [r]⟩ : System).writer_times_liveliness_lost ∧
      ((⟨[w], [r]⟩ : System).run (calls_trace w.guid (c :: rest))).times_liveliness_recovered
        = (⟨[w], [r]⟩ : System).times_liveliness_recovered + 1 ∧
      ((⟨[w], [r]⟩ : System).run (calls_trace w.guid (c :: rest))).reader_times_liveliness_lost
        = (⟨[w], [r]⟩ : System).reader_times_liveliness_lost) ∧
    (((⟨[w], [r]⟩ : System).run
          (calls_trace w.guid (c :: rest) ++ [(T, Action.idle)])).writer_times_liveliness_lost
        = (⟨[w], [r]⟩ : System).writer_times_liveliness_lost + 1 ∧
      ((⟨[w], [r]⟩ : System).run
          (calls_trace w.guid (c :: rest) ++ [(T, Action.idle)])).times_liveliness_recovered
        = (⟨[w], [r]⟩ : System).times_liveliness_recovered + 1 ∧
      ((⟨[w], [r]⟩ : System).run
          (calls_trace w.guid (c :: rest) ++ [(T, Action.idle)])).reader_times_liveliness_lost
        = (⟨[w], [r]⟩ : System).reader_times_liveliness_lost + 1) := by
  obtain ⟨w1, w2, _⟩ := writer_calls_within_lease w L T c rest hmanual hlease hw hclose hsilence
  obtain ⟨⟨e1, ⟨_, _, r1, r2⟩, _⟩, e2, ⟨_, _, r3, r4⟩, _⟩ :=
    reader_calls_within_lease w r e L T r.times_recovered r.times_lost c rest
      ⟨hentry, hpending, rfl, rfl⟩ hfor he hvisible hclose hsilence
  obtain ⟨c1, c2, c3⟩ := pair_counters w r
  refine ⟨fun w0 evs => foldl_handle_counts evs w0, ?_, fun w0 now => ⟨rfl, rfl⟩, ?_, ?_⟩
  · intro w0 ev
    rw [(handle_counts w0 ev).1]
    have : (0 : Int) ≤ ((if w0.alive && !(w0.handle ev).alive then 1 else 0 : Nat) : Int) :=
      Int.ofNat_nonneg _
    omega
  · rw [pair_run, pair_stimuli_calls, c1, c2, c3]
    obtain ⟨d1, d2, d3⟩ := pair_counters
      (w.run ((c :: rest).map (fun c => (c.1, Stimulus.of w c.2))))
      (r.run ((c :: rest).map (fun c => (c.1, Stimulus.of w c.2))))
    rw [d1, d2, d3, w1]
    exact ⟨rfl, r1, r2⟩
  · rw [pair_run, stimuli_append, pair_stimuli_calls, stimuli_idle, c1, c2, c3]
    obtain ⟨d1, d2, d3⟩ := pair_counters
      (w.run ((c :: rest).map (fun c => (c.1, Stimulus.of w c.2)) ++ [(T, ⟨none, none⟩)]))
      (r.run ((c :: rest).map (fun c => (c.1, Stimulus.of w c.2)) ++ [(T, ⟨none, none⟩)]))
    rw [d1, d2, d3, writer_run_append, reader_run_append]
    exact ⟨w2, r3, r4⟩

/-- Witness of C4: `LongLiveliness_ManualByParticipant_Reliable`, lease 200 ms, three samples
at 100 ms spacing, then a wait until 500 ms. -/
theorem lost_fired_once_per_transition_witness :
    ((test_pair LivelinessKind.ManualByParticipant ReliabilityKind.Reliable 200).run
        (calls_trace ⟨1, 1⟩ (three_calls true)
          ++ [(500000000, Action.idle)])).writer_times_liveliness_lost = 0 + 1 ∧
    ((test_pair LivelinessKind.ManualByParticipant ReliabilityKind.Reliable 200).run
        (calls_trace ⟨1, 1⟩ (three_calls true)
          ++ [(500000000, Action.idle)])).times_liveliness_recovered = 0 + 1 ∧
    ((test_pair LivelinessKind.ManualByParticipant ReliabilityKind.Reliable 200).run
        (calls_trace ⟨1, 1⟩ (three_calls true)
          ++ [(500000000, Action.idle)])).reader_times_liveliness_lost = 0 + 1 :=
  (lost_fired_once_per_transition
    (test_writer LivelinessKind.ManualByParticipant ReliabilityKind.Reliable 200)
    (test_reader ReliabilityKind.Reliable
      (test_writer LivelinessKind.ManualByParticipant ReliabilityKind.Reliable 200))
    (test_entry LivelinessKind.ManualByParticipant 200) 200000000 500000000
    (0, true) [(100000000, true), (200000000, true)]
    (by decide) (by decide) rfl (by decide) ⟨rfl, rfl, rfl⟩ rfl rfl rfl
    (by simp [within_lease]) (by simp)).2.2.2.2

/-! ## ManualByTopic and best-effort readers: heartbeats are not seen -/

theorem expire_noop_of_none_alive (m : ReaderMonitor) (now : Nat)
    (h : ∀ e ∈ m.entries, e.alive = false) : m.on_deadline_expired now = m := by
  unfold ReaderMonitor.on_deadline_expired
  have hnil : m.entries.filter (LeaseEntry.expired now) = [] := by
    rw [List.filter_eq_nil_iff]
    intro e he
    rw [not_expired_of_not_alive e now (h e he)]
    exact Bool.false_ne_true
  rw [hnil]
  rfl

theorem receive_ignored (r : Reader) (msg : Option AssertionMessage) (now : Nat)
    (h : ∀ msg', msg = some msg' →
      ∀ e ∈ r.monitor.entries, msg'.asserts r.reliability e.writer e.kind = false) :
    Reader.receive msg now r = r := by
  unfold Reader.receive
  cases msg with
  | none => rfl
  | some msg' =>
    have hnil : r.monitor.entries.filter (fun e => msg'.asserts r.reliability e.writer e.kind)
        = [] := by
      rw [List.filter_eq_nil_iff]
      intro e he
      rw [h msg' rfl e he]
      exact Bool.false_ne_true
    simp only [hnil, List.map_nil, ReaderMonitor.assert_all, List.foldl_nil]

theorem best_effort_step (w : WriterState) (r : Reader) (now : Nat)
    (hk : w.qos.kind = LivelinessKind.ManualByTopic)
    (hr : r.reliability = ReliabilityKind.BestEffort) :
    r.step now (Stimulus.of w false).message = r.step now none := by
  unfold Reader.step
  rw [receive_ignored]
  · rfl
  · intro msg' hmsg e _
    unfold Stimulus.of at hmsg
    rw [hk] at hmsg
    show msg'.asserts r.reliability e.writer e.kind = false
    by_cases hw : (w.reliability == ReliabilityKind.Reliable) = true
    · simp only [Bool.false_eq_true, if_false, hw, if_true, Option.some.injEq] at hmsg
      subst hmsg
      simp [AssertionMessage.asserts, hr]
    · simp [hw] at hmsg

theorem best_effort_run (w : WriterState) (hk : w.qos.kind = LivelinessKind.ManualByTopic)
    (times : List Nat) :
    ∀ r : Reader, r.reliability = ReliabilityKind.BestEffort →
      r.run (times.map (fun t => (t, Stimulus.of w false)))
        = r.run (times.map (fun t => (t, (⟨none, none⟩ : Stimulus)))) := by
  induction times with
  | nil => intro r _; rfl
  | cons t rest ih =>
    intro r hr
    rw [List.map_cons, List.map_cons, reader_run_cons, reader_run_cons]
    show (r.step t (Stimulus.of w false).message).run _ = (r.step t none).run _
    rw [best_effort_step w r t hk hr]
    exact ih _ (by rw [reader_step_reliability]; exact hr)

theorem quiet_run (times : List Nat) :
    ∀ r : Reader, (∀ e ∈ r.monitor.entries, e.alive = false) →
      r.run (times.map (fun t => (t, (⟨none, none⟩ : Stimulus)))) = r := by
  induction times with
  | nil => intro r _; rfl
  | cons t rest ih =>
    intro r hq
    rw [List.map_cons, reader_run_cons]
    have : r.step t none = r := by
      unfold Reader.step
      rw [expire_noop_of_none_alive r.monitor t hq]
      rfl
    show (r.step t none).run _ = r
    rw [this]
    exact ih r hq

theorem stimuli_idles (s : System) (times : List Nat) :
    s.stimuli (times.map (fun t => (t, Action.idle)))
      = times.map (fun t => (t, (⟨none, none⟩ : Stimulus))) := by
  unfold System.stimuli
  rw [List.map_map]
  rfl

theorem stimuli_asserts (w : WriterState) (rs : List Reader) (times : List Nat) :
    (⟨[w], rs⟩ : System).stimuli (calls_trace w.guid (times.map (fun t => (t, false))))
      = times.map (fun t => (t, Stimulus.of w false)) := by
  rw [pair_stimuli_calls w [] rs, List.map_map]
  rfl

/-- C8: for a ManualByTopic writer matched with best-effort readers, every sequence of
`assert_liveliness()` calls made without sample writes leaves the readers exactly as if only
time had passed; when no lease entry is alive at the start the readers, and with them the
recovered and lost counts, are unchanged.  The writer's own lost count still grows by one for
each call that is followed by a silence longer than the lease. -/
theorem best_effort_reader_ignores_assert_liveliness (w : WriterState) (rs : List Reader)
    (L T : Nat) (times : List Nat)
    (hkind : w.qos.kind = LivelinessKind.ManualByTopic)
    (hbest : ∀ r ∈ rs, r.reliability = ReliabilityKind.BestEffort)
    (hlease : w.qos.lease_duration = Duration.finite L)
    (hw : w.alive = false)
    (hquiet : ∀ r ∈ rs, ∀ e ∈ r.monitor.entries, e.alive = false)
    (hsilence : separated L times T) :
    (∀ times' : List Nat,
      ((⟨[w], rs⟩ : System).run
          (calls_trace w.guid (times'.map (fun t => (t, false))))).readers
        = ((⟨[w], rs⟩ : System).run (times'.map (fun t => (t, Action.idle)))).readers) ∧
    ((⟨[w], rs⟩ : System).run
        (calls_trace w.guid (times.map (fun t => (t, false))) ++ [(T, Action.idle)])).readers
      = rs ∧
    ((⟨[w], rs⟩ : System).run
        (calls_trace w.guid (times.map (fun t => (t, false)))
          ++ [(T, Action.idle)])).times_liveliness_recovered
      = (⟨[w], rs⟩ : System).times_liveliness_recovered ∧
    ((⟨[w], rs⟩ : System).run
        (calls_trace w.guid (times.map (fun t => (t, false)))
          ++ [(T, Action.idle)])).reader_times_liveliness_lost
      = (⟨[w], rs⟩ : System).reader_times_liveliness_lost ∧
    ((⟨[w], rs⟩ : System).run
        (calls_trace w.guid (times.map (fun t => (t, false)))
          ++ [(T, Action.idle)])).writer_times_liveliness_lost
      = (⟨[w], rs⟩ : System).writer_times_liveliness_lost + times.length := by
  have hreaders : ((⟨[w], rs⟩ : System).run
      (calls_trace w.guid (times.map (fun t => (t, false))) ++ [(T, Action.idle)])).readers
      = rs := by
    rw [run_eq_local, stimuli_append, stimuli_asserts, stimuli_idle]
    show rs.map _ = rs
    conv => rhs; rw [← List.map_id rs]
    apply List.map_congr_left
    intro r hr
    rw [reader_run_append, best_effort_run w hkind times r (hbest r hr),
      quiet_run times r (hquiet r hr)]
    exact quiet_run [T] r (hquiet r hr)
  refine ⟨?_, hreaders, ?_, ?_, ?_⟩
  · intro times'
    rw [run_eq_local, run_eq_local, stimuli_asserts, stimuli_idles]
    show rs.map _ = rs.map _
    apply List.map_congr_left
    intro r hr
    exact best_effort_run w hkind times' r (hbest r hr)
  · rw [times_recovered_eq, times_recovered_eq, hreaders]
  · rw [reader_times_lost_eq, reader_times_lost_eq, hreaders]
  · rw [writer_times_lost_eq, writer_times_lost_eq, run_eq_local, stimuli_append,
      stimuli_asserts, stimuli_idle]
    have hk : w.qos.kind ≠ LivelinessKind.Automatic := by rw [hkind]; decide
    have hsep : separated L ((times.map (fun t => (t, false))).map (fun c => c.1)) T := by
      rw [List.map_map]
      have : ((fun c : Nat × Bool => c.1) ∘ fun t => (t, false)) = id := rfl
      rw [this, List.map_id]
      exact hsilence
    obtain ⟨_, h2, _⟩ := writer_calls_separated w L T (times.map (fun t => (t, false))) hk hlease
      hw hsep
    rw [List.map_map, List.length_map] at h2
    simp only [List.map_cons, List.map_nil, List.sum_cons, List.sum_nil, Nat.add_zero,
      writer_run_append]
    exact h2

/-- Witness of C8: the second half of `ShortLiveliness_ManualByTopic_BestEffort`, lease 10 ms,
three `assert_liveliness()` calls at 100 ms spacing. -/
theorem best_effort_reader_ignores_assert_liveliness_witness :
    ((test_pair LivelinessKind.ManualByTopic ReliabilityKind.BestEffort 10).run
        (calls_trace ⟨1, 1⟩ ([0, 100000000, 200000000].map (fun t => (t, false)))
          ++ [(300000000, Action.idle)])).readers
      = [test_reader ReliabilityKind.BestEffort
          (test_writer LivelinessKind.ManualByTopic ReliabilityKind.BestEffort 10)] ∧
    ((test_pair LivelinessKind.ManualByTopic ReliabilityKind.BestEffort 10).run
        (calls_trace ⟨1, 1⟩ ([0, 100000000, 200000000].map (fun t => (t, false)))
          ++ [(300000000, Action.idle)])).writer_times_liveliness_lost = 0 + 3 :=
  have h := best_effort_reader_ignores_assert_liveliness
    (test_writer LivelinessKind.ManualByTopic ReliabilityKind.BestEffort 10)
    [test_reader ReliabilityKind.BestEffort
      (test_writer LivelinessKind.ManualByTopic ReliabilityKind.BestEffort 10)]
    10000000 300000000 [0, 100000000, 200000000]
    rfl (by decide) rfl rfl (by decide) (by simp [separated])
  ⟨h.2.1, h.2.2.2.2⟩

/-! ## Automatic liveliness: the participant's recurring announcement -/

theorem periodic_within_lease (P L : Nat) (h : P < L) :
    ∀ (n start : Nat), within_lease L start (periodic start P n) := by
  intro n
  induction n with
  | zero => intro start; trivial
  | succ n ih =>
    intro start
    exact ⟨Nat.le_add_right _ _, by omega, ih (start + P)⟩

theorem periodic_last (P : Nat) :
    ∀ (n start : Nat), (periodic start P n).getLastD start = start + n * P := by
  intro n
  induction n with
  | zero => intro start; simp [periodic]
  | succ n ih =>
    intro start
    simp only [periodic, List.getLastD_cons]
    rw [ih (start + P), Nat.succ_mul]
    omega

theorem stimuli_ticks (s : System) (p : Nat) (times : List Nat) :
    s.stimuli (ticks_trace p times) = times.map (fun t => (t, automatic_stimulus p)) := by
  unfold System.stimuli ticks_trace
  rw [List.map_map]
  rfl

theorem map_fst_ticks (p : Nat) (times : List Nat) :
    (times.map (fun t => (t, automatic_stimulus p))).map (fun x => x.1) = times := by
  rw [List.map_map]
  exact List.map_id times

/-- An automatic writer under announcements that keep coming within the lease, observed
before the lease of the last announcement runs out: no lost event. -/
theorem writer_ticks (w : WriterState) (L T first : Nat) (rest : List Nat)
    (hk : w.qos.kind = LivelinessKind.Automatic)
    (hq : w.qos.lease_duration = Duration.finite L) (ha : w.alive = false)
    (hwl : within_lease L first rest) (hT : T < rest.getLastD first + L) :
    ((w.run ((first :: rest).map (fun t => (t, automatic_stimulus w.guid.participant)))).on_timer
      T).delivered = w.delivered := by
  have hc : LocalScope.covers (automatic_stimulus w.guid.participant).scope w.guid w.qos.kind
      = true := by
    simp [automatic_stimulus, LocalScope.covers, hk]
  rw [List.map_cons, writer_run_cons, writer_step_assert_of_not_alive w first _ ha hc]
  have hcov : ∀ x ∈ rest.map (fun t => (t, automatic_stimulus w.guid.participant)),
      LocalScope.covers x.2.scope w.guid w.qos.kind = true := by
    intro x hx
    obtain ⟨t, _, rfl⟩ := List.mem_map.1 hx
    exact hc
  have hrun := writer_within_lease w.guid w.qos.kind L _ first (w.assert first) rfl rfl hq rfl rfl
    hcov (by rw [map_fst_ticks]; exact hwl)
  rw [hrun, map_fst_ticks]
  rw [on_timer_before T (rest.getLastD first) L
    { (w.assert first) with last_assertion_time := some (rest.getLastD first) } rfl hq hT]
  rfl

/-- A reader whose entry is alive, under announcements that keep arriving within the lease,
observed before the lease of the last announcement runs out: nothing is delivered. -/
theorem reader_ticks_alive (r : Reader) (e : LeaseEntry) (g : WriterId) (L T t a b : Nat)
    (times : List Nat) (hs : r.summary e a b)
    (hf : e.is_for g LivelinessKind.Automatic L) (ha : e.alive = true)
    (hd : e.deadline = some (t + L))
    (hwl : within_lease L t times) (hT : T < times.getLastD t + L) :
    ((r.run (times.map (fun t => (t, automatic_stimulus g.participant)))).step T none).times_recovered
      = a ∧
    ((r.run (times.map (fun t => (t, automatic_stimulus g.participant)))).step T none).times_lost
      = b := by
  have hall : ∀ x ∈ times.map (fun t => (t, automatic_stimulus g.participant)),
      ∃ msg, x.2.message = some msg ∧
        msg.asserts r.reliability g LivelinessKind.Automatic = true := by
    intro x hx
    obtain ⟨t', _, rfl⟩ := List.mem_map.1 hx
    exact ⟨_, rfl, by simp [AssertionMessage.asserts]⟩
  obtain ⟨e', h1, _, _, h4, h5⟩ := reader_within_lease r.reliability g LivelinessKind.Automatic
    L a b _ t r e rfl hs hf ha hd hall (by rw [map_fst_ticks]; exact hwl)
  rw [map_fst_ticks] at h5
  have hx : e'.expired T = false := by
    rw [expired_iff e' T _ h4 h5]
    exact decide_eq_false (by omega)
  rw [reader_step_quiet _ e' T none h1.1 hx (fun _ h => by cases h)]
  exact ⟨h1.2.2.1, h1.2.2.2⟩

/-- C5: writer and reader both Automatic (reliable or best-effort), announcement period
smaller than the lease.  From discovery at `t0` on, as long as the participant keeps
announcing every `P` and the writer never writes or asserts, at every observation instant
after the first announcement the writer's lost count is 0, the reader's lost count is 0 and
the reader's recovered count is exactly 1, under either reading of the match input. -/
theorem automatic_liveliness_never_lost (policy : MatchPolicy) (g : WriterId)
    (writer_reliability reader_reliability : ReliabilityKind) (L P t0 n T : Nat)
    (hperiod : P < L) (hn : 1 ≤ n) (hT1 : t0 + n * P ≤ T) (hT2 : T < t0 + (n + 1) * P) :
    ((⟨[WriterState.create g writer_reliability
          ⟨LivelinessKind.Automatic, Duration.finite L, Duration.finite P⟩],
        [⟨reader_reliability,
          ReaderMonitor.empty.on_match policy g LivelinessKind.Automatic (Duration.finite L) t0⟩]⟩
        : System).run
        (ticks_trace g.participant (periodic t0 P n)
          ++ [(T, Action.idle)])).writer_times_liveliness_lost = 0 ∧
    ((⟨[WriterState.create g writer_reliability
          ⟨LivelinessKind.Automatic, Duration.finite L, Duration.finite P⟩],
        [⟨reader_reliability,
          ReaderMonitor.empty.on_match policy g LivelinessKind.Automatic (Duration.finite L) t0⟩]⟩
        : System).run
        (ticks_trace g.participant (periodic t0 P n)
          ++ [(T, Action.idle)])).times_liveliness_recovered = 1 ∧
    ((⟨[WriterState.create g writer_reliability
          ⟨LivelinessKind.Automatic, Duration.finite L, Duration.finite P⟩],
        [⟨reader_reliability,
          ReaderMonitor.empty.on_match policy g LivelinessKind.Automatic (Duration.finite L) t0⟩]⟩
        : System).run
        (ticks_trace g.participant (periodic t0 P n)
          ++ [(T, Action.idle)])).reader_times_liveliness_lost = 0 := by
  obtain ⟨m, rfl⟩ : ∃ m, n = m + 1 := ⟨n - 1, by omega⟩
  have hlast : (periodic (t0 + P) P m).getLastD (t0 + P) = t0 + (m + 1) * P := by
    rw [periodic_last, Nat.succ_mul]; omega
  have hTL : T < t0 + (m + 1) * P + L := by
    rw [Nat.succ_mul] at hT2; omega
  rw [pair_run, stimuli_append, stimuli_ticks, stimuli_idle]
  obtain ⟨d1, d2, d3⟩ := pair_counters
    ((WriterState.create g writer_reliability
        ⟨LivelinessKind.Automatic, Duration.finite L, Duration.finite P⟩).run
      ((periodic t0 P (m + 1)).map (fun t => (t, automatic_stimulus g.participant))
        ++ [(T, ⟨none, none⟩)]))
    ((⟨reader_reliability,
        ReaderMonitor.empty.on_match policy g LivelinessKind.Automatic (Duration.finite L) t0⟩
        : Reader).run
      ((periodic t0 P (m + 1)).map (fun t => (t, automatic_stimulus g.participant))
        ++ [(T, ⟨none, none⟩)]))
  rw [d1, d2, d3, writer_run_append, reader_run_append]
  refine ⟨?_, ?_⟩
  · have hw := writer_ticks (WriterState.create g writer_reliability
        ⟨LivelinessKind.Automatic, Duration.finite L, Duration.finite P⟩) L T (t0 + P)
      (periodic (t0 + P) P m) rfl rfl rfl (periodic_within_lease P L hperiod m (t0 + P))
      (by rw [hlast]; exact hTL)
    exact congrArg List.length hw
  · cases policy with
    | alive_on_match =>
      have hs : Reader.summary (⟨reader_reliability,
          ReaderMonitor.empty.on_match MatchPolicy.alive_on_match g LivelinessKind.Automatic
            (Duration.finite L) t0⟩ : Reader)
          ⟨g, LivelinessKind.Automatic, Duration.finite L, some (t0 + L), true⟩ 1 0 := by
        refine ⟨?_, ?_, ?_, ?_⟩ <;>
          simp [ReaderMonitor.on_match, ReaderMonitor.is_matched, ReaderMonitor.empty,
            ReaderMonitor.publish, deadline_after, Reader.times_recovered, Reader.times_lost,
            ReaderCounts.after,
            ReaderCounts.count]
      have hlast0 : (periodic t0 P (m + 1)).getLastD t0 = t0 + (m + 1) * P := periodic_last P _ _
      exact reader_ticks_alive _ _ g L T t0 1 0 (periodic t0 P (m + 1)) hs ⟨rfl, rfl, rfl⟩ rfl rfl
        (periodic_within_lease P L hperiod (m + 1) t0) (by rw [hlast0]; exact hTL)
    | alive_on_assertion =>
      have hs : Reader.summary (⟨reader_reliability,
          ReaderMonitor.empty.on_match MatchPolicy.alive_on_assertion g LivelinessKind.Automatic
            (Duration.finite L) t0⟩ : Reader)
          ⟨g, LivelinessKind.Automatic, Duration.finite L, some (t0 + L), false⟩ 0 0 := by
        refine ⟨?_, ?_, ?_, ?_⟩ <;>
          simp [ReaderMonitor.on_match, ReaderMonitor.is_matched, ReaderMonitor.empty,
            deadline_after, Reader.times_recovered, Reader.times_lost,
            ReaderCounts.after]
      have e1 : periodic t0 P (m + 1) = (t0 + P) :: periodic (t0 + P) P m := rfl
      rw [e1, List.map_cons, reader_run_cons]
      have hm : (AssertionMessage.participant_scoped g.participant
          LivelinessKind.Automatic).asserts reader_reliability g LivelinessKind.Automatic
          = true := by
        simp [AssertionMessage.asserts]
      have hstep := reader_step_recover _ _ 0 0 (t0 + P) _ hs rfl hm
      exact reader_ticks_alive _ _ g L T (t0 + P) 1 0 (periodic (t0 + P) P m) hstep
        ⟨rfl, rfl, rfl⟩ rfl rfl (periodic_within_lease P L hperiod m (t0 + P))
        (by rw [hlast]; exact hTL)

/-- Witness of C5: `Liveliness_Automatic_Reliable`, lease 20 ms, announcement period 18 ms,
observed after 200 ms, that is after the eleventh announcement. -/
theorem automatic_liveliness_never_lost_witness :
    ((⟨[WriterState.create ⟨1, 1⟩ ReliabilityKind.Reliable
          ⟨LivelinessKind.Automatic, Duration.finite 20000000, Duration.finite 18000000⟩],
        [⟨ReliabilityKind.Reliable,
          ReaderMonitor.empty.on_match MatchPolicy.alive_on_assertion ⟨1, 1⟩
            LivelinessKind.Automatic (Duration.finite 20000000) 0⟩]⟩
        : System).run
        (ticks_trace 1 (periodic 0 18000000 11)
          ++ [(200000000, Action.idle)])).writer_times_liveliness_lost = 0 ∧
    ((⟨[WriterState.create ⟨1, 1⟩ ReliabilityKind.Reliable
          ⟨LivelinessKind.Automatic, Duration.finite 20000000, Duration.finite 18000000⟩],
        [⟨ReliabilityKind.Reliable,
          ReaderMonitor.empty.on_match MatchPolicy.alive_on_assertion ⟨1, 1⟩
            LivelinessKind.Automatic (Duration.finite 20000000) 0⟩]⟩
        : System).run
        (ticks_trace 1 (periodic 0 18000000 11)
          ++ [(200000000, Action.idle)])).times_liveliness_recovered = 1 ∧
    ((⟨[WriterState.create ⟨1, 1⟩ ReliabilityKind.Reliable
          ⟨LivelinessKind.Automatic, Duration.finite 20000000, Duration.finite 18000000⟩],
        [⟨ReliabilityKind.Reliable,
          ReaderMonitor.empty.on_match MatchPolicy.alive_on_assertion ⟨1, 1⟩
            LivelinessKind.Automatic (Duration.finite 20000000) 0⟩]⟩
        : System).run
        (ticks_trace 1 (periodic 0 18000000 11)
          ++ [(200000000, Action.idle)])).reader_times_liveliness_lost = 0 :=
  automatic_liveliness_never_lost MatchPolicy.alive_on_assertion ⟨1, 1⟩
    ReliabilityKind.Reliable ReliabilityKind.Reliable 20000000 18000000 0 11 200000000
    (by decide) (by decide) (by decide) (by decide)

/-! ## Which writers never lose liveliness while the process runs -/

theorem covers_automatic_iff (s : System) (w : WriterState) (a : Action)
    (hlookup : s.writers.find? (fun w' => w'.guid == w.guid) = some w)
    (hk : w.qos.kind = LivelinessKind.Automatic) :
    LocalScope.covers (s.resolve a).scope w.guid w.qos.kind = true
      ↔ a = Action.automatic_tick w.guid.participant := by
  have hcall : ∀ g b,
      LocalScope.covers
        (match s.writers.find? (fun w' : WriterState => w'.guid == g) with
          | none => (⟨none, none⟩ : Stimulus)
          | some src => Stimulus.of src b).scope w.guid w.qos.kind = false := by
    intro g b
    cases hf : s.writers.find? (fun w' : WriterState => w'.guid == g) with
    | none => rfl
    | some src =>
      have hsrc : src.guid = g := by simpa using List.find?_some hf
      show LocalScope.covers (Stimulus.of src b).scope w.guid w.qos.kind = false
      unfold Stimulus.of
      cases hsk : src.qos.kind with
      | Automatic => rfl
      | ManualByParticipant => simp [LocalScope.covers, hk]
      | ManualByTopic =>
        simp only [LocalScope.covers, beq_eq_false_iff_ne, ne_eq]
        intro hwg
        rw [hsrc] at hwg
        rw [← hwg, hlookup] at hf
        have : w = src := by simpa using hf
        rw [← this, hk] at hsk
        cases hsk
  cases a with
  | sample_write g =>
    simp only [System.resolve, hcall g true, Bool.false_eq_true, false_iff]
    intro h; cases h
  | assert_liveliness g =>
    simp only [System.resolve, hcall g false, Bool.false_eq_true, false_iff]
    intro h; cases h
  | automatic_tick p =>
    simp only [System.resolve, LocalScope.covers, hk, beq_self_eq_true, Bool.and_true,
      beq_iff_eq, Action.automatic_tick.injEq]
    exact ⟨fun h => h.symm, fun h => h.symm⟩
  | idle =>
    simp only [System.resolve, LocalScope.covers, Bool.false_eq_true, false_iff]
    intro h; cases h

theorem on_timer_infinite (now : Nat) (w : WriterState)
    (hq : w.qos.lease_duration = Duration.infinite) : w.on_timer now = w := by
  unfold WriterState.on_timer WriterState.lease_expired WriterState.lease_deadline
  cases hl : w.last_assertion_time <;> simp [hq, deadline_after, deadline_reached]

theorem on_timer_within_gap (now t gap : Nat) (w : WriterState)
    (hl : w.last_assertion_time = some t)
    (hgap : Duration.finite gap ≤ w.qos.lease_duration) (h : now < t + gap) :
    w.on_timer now = w := by
  cases hq : w.qos.lease_duration with
  | infinite => exact on_timer_infinite now w hq
  | finite L =>
    rw [hq] at hgap
    have hle : gap ≤ L := by
      have : Duration.le (Duration.finite gap) (Duration.finite L) = true := hgap
      simpa [Duration.le] using this
    exact on_timer_before now t L w hl hq (by omega)

/-- An automatic writer along a run in which the announcements keep coming: its state changes
only by the announcements, and nothing is delivered to its listener. -/
theorem automatic_writer_run (s : System) (w : WriterState) (gap : Nat)
    (hlookup : s.writers.find? (fun w' => w'.guid == w.guid) = some w)
    (hk : w.qos.kind = LivelinessKind.Automatic)
    (hgap : Duration.finite gap ≤ w.qos.lease_duration) :
    ∀ (trace : List (Nat × Action)) (last : Option Nat) (prev : Nat) (w' : WriterState),
      w'.guid = w.guid → w'.qos = w.qos →
      (w'.alive = true → ∃ t, last = some t ∧ w'.last_assertion_time = some t) →
      announcements_keep_coming w.guid.participant gap last prev trace →
      (w'.run (s.stimuli trace)).delivered = w'.delivered ∧
      (w'.run (s.stimuli trace)).status = w'.status := by
  intro trace
  induction trace with
  | nil => intro last prev w' _ _ _ _; exact ⟨rfl, rfl⟩
  | cons x rest ih =>
    intro last prev w' hg hq hal hrun
    obtain ⟨_, hlt, hrest⟩ := hrun
    have htimer : w'.on_timer x.1 = w' := by
      cases ha : w'.alive with
      | false => exact on_timer_not_alive x.1 w' ha
      | true =>
        obtain ⟨t, h1, h2⟩ := hal ha
        exact on_timer_within_gap x.1 t gap w' h2 (by rw [hq]; exact hgap) (hlt t h1)
    have hcov := covers_automatic_iff s w x.2 hlookup hk
    show ((w'.step x.1 (s.resolve x.2).scope).run (s.stimuli rest)).delivered = _ ∧
      ((w'.step x.1 (s.resolve x.2).scope).run (s.stimuli rest)).status = _
    unfold WriterState.step
    rw [hg, hq, htimer]
    by_cases hc : LocalScope.covers (s.resolve x.2).scope w.guid w.qos.kind = true
    · rw [if_pos hc]
      have hx : x.2 = Action.automatic_tick w.guid.participant := hcov.1 hc
      rw [if_pos hx] at hrest
      exact ih (some x.1) x.1 (w'.assert x.1) hg hq (fun _ => ⟨x.1, rfl, rfl⟩) hrest
    · rw [if_neg hc]
      have hx : ¬ x.2 = Action.automatic_tick w.guid.participant := fun h => hc (hcov.2 h)
      rw [if_neg hx] at hrest
      exact ih last x.1 w' hg hq hal hrest

/-- Counterexample to C6: a ManualByParticipant writer with a 10 ms lease writes one sample
and stays silent; the process keeps running (its automatic announcements fire every 9 ms) and
the writer is not destroyed, yet after 18 ms its listener has counted one loss. -/
theorem manual_by_participant_writer_lost_while_running :
    (test_writer LivelinessKind.ManualByParticipant ReliabilityKind.Reliable 10).qos.kind
      = LivelinessKind.ManualByParticipant ∧
    announcements_keep_coming 1 10000000 none 0 silent_manual_writer_trace ∧
    ((test_pair LivelinessKind.ManualByParticipant ReliabilityKind.Reliable 10).run
      silent_manual_writer_trace).writer_times_liveliness_lost = 1 := by
  refine ⟨rfl, ?_, by decide⟩
  refine ⟨Nat.le_refl _, fun t h => Option.noConfusion h, ?_, fun t h => Option.noConfusion h,
    ?_, ?_, trivial⟩
  · decide
  · decide
  · intro t h
    have h' : some 9000000 = some t := h
    rw [← Option.some.inj h']
    decide

/-- C6, amended: for every writer whose liveliness kind is Automatic, over any run in which
the process keeps running (every instant of the run is less than a gap, itself at most the
lease, after the latest automatic announcement of the participant) and whatever else the
application does, no lost event is delivered and `total_count` does not change: starting from
creation, `times_liveliness_lost` stays 0. -/
theorem automatic_writer_never_lost (s : System) (w : WriterState) (gap start : Nat)
    (trace : List (Nat × Action))
    (hlookup : s.writers.find? (fun w' => w'.guid == w.guid) = some w)
    (hkind : w.qos.kind = LivelinessKind.Automatic)
    (hgap : Duration.finite gap ≤ w.qos.lease_duration)
    (hfresh : w.alive = false)
    (hrunning : announcements_keep_coming w.guid.participant gap none start trace) :
    (s.run trace).writers = s.writers.map (fun w' => w'.run (s.stimuli trace)) ∧
    (w.run (s.stimuli trace)).delivered = w.delivered ∧
    (w.run (s.stimuli trace)).status.total_count = w.status.total_count ∧
    (s.writers = [w] →
      (s.run trace).writer_times_liveliness_lost = s.writer_times_liveliness_lost) := by
  obtain ⟨h1, h2⟩ := automatic_writer_run s w gap hlookup hkind hgap trace none start w rfl rfl
    (fun h => by rw [hfresh] at h; cases h) hrunning
  refine ⟨by rw [run_eq_local], h1, by rw [h2], ?_⟩
  intro hs
  rw [writer_times_lost_eq, writer_times_lost_eq, run_eq_local, hs]
  simp [h1]

/-- Witness of C6 as amended: the automatic writer of `Liveliness_Automatic_Reliable`, lease
20 ms, under announcements every 18 ms. -/
theorem automatic_writer_never_lost_witness :
    ((test_writer LivelinessKind.Automatic ReliabilityKind.Reliable 20).run
        ((test_pair LivelinessKind.Automatic ReliabilityKind.Reliable 20).stimuli
          two_ticks_trace)).delivered = [] ∧
    ((test_pair LivelinessKind.Automatic ReliabilityKind.Reliable 20).run
        two_ticks_trace).writer_times_liveliness_lost
      = (test_pair LivelinessKind.Automatic ReliabilityKind.Reliable 20).writer_times_liveliness_lost :=
  have h := automatic_writer_never_lost
    (test_pair LivelinessKind.Automatic ReliabilityKind.Reliable 20)
    (test_writer LivelinessKind.Automatic ReliabilityKind.Reliable 20) 20000000 0
    two_ticks_trace (by decide) rfl (by decide) rfl
    ⟨by decide, fun t h => Option.noConfusion h,
      by decide, fun t h => by rw [← Option.some.inj (show some 18000000 = some t from h)]; decide,
      by decide, fun t h => by rw [← Option.some.inj (show some 36000000 = some t from h)]; decide,
      trivial⟩
  ⟨h.2.1, h.2.2.2 rfl⟩

/-! ## Several writers at one participant -/

/-- A writer that is not alive and that no stimulus covers is left as it is. -/
theorem writer_run_untouched (stimuli : List (Nat × Stimulus)) :
    ∀ w : WriterState, w.alive = false →
      (∀ y ∈ stimuli, LocalScope.covers y.2.scope w.guid w.qos.kind = false) →
      w.run stimuli = w := by
  induction stimuli with
  | nil => intro w _ _; rfl
  | cons x rest ih =>
    intro w ha hcov
    have hstep : w.step x.1 x.2.scope = w := by
      unfold WriterState.step
      rw [hcov x (List.mem_cons_self _ _)]
      simp only [Bool.false_eq_true, if_false]
      exact on_timer_not_alive x.1 w ha
    rw [writer_run_cons, hstep]
    exact ih w ha (fun y hy => hcov y (List.mem_cons_of_mem _ hy))

/-- A reader none of whose entries is alive and none of whose entries is asserted by any of
the messages is left as it is. -/
theorem reader_run_untouched (stimuli : List (Nat × Stimulus)) :
    ∀ r : Reader, (∀ e ∈ r.monitor.entries, e.alive = false) →
      (∀ y ∈ stimuli, ∀ msg, y.2.message = some msg →
        ∀ e ∈ r.monitor.entries, msg.asserts r.reliability e.writer e.kind = false) →
      r.run stimuli = r := by
  induction stimuli with
  | nil => intro r _ _; rfl
  | cons x rest ih =>
    intro r hq hmsg
    have hstep : r.step x.1 x.2.message = r := by
      unfold Reader.step
      rw [expire_noop_of_none_alive r.monitor x.1 hq]
      exact receive_ignored r x.2.message x.1 (hmsg x (List.mem_cons_self _ _))
    rw [reader_run_cons, hstep]
    exact ih r hq (fun y hy => hmsg y (List.mem_cons_of_mem _ hy))

theorem stimulus_of_manual_by_topic (w0 : WriterState) (b : Bool)
    (hk : w0.qos.kind = LivelinessKind.ManualByTopic) :
    (Stimulus.of w0 b).scope = some (LocalScope.writer w0.guid) ∧
    ∀ msg, (Stimulus.of w0 b).message = some msg →
      msg = AssertionMessage.sample w0.guid ∨ msg = AssertionMessage.heartbeat w0.guid := by
  unfold Stimulus.of
  rw [hk]
  refine ⟨rfl, ?_⟩
  intro msg hmsg
  cases b with
  | true =>
    simp only [if_true, Option.some.injEq] at hmsg
    exact Or.inl hmsg.symm
  | false =>
    by_cases hr : (w0.reliability == ReliabilityKind.Reliable) = true
    · simp only [Bool.false_eq_true, if_false, hr, if_true, Option.some.injEq] at hmsg
      exact Or.inr hmsg.symm
    · simp [hr] at hmsg

theorem other_writer_not_covered (w0 w : WriterState) (b : Bool)
    (hk : w0.qos.kind = LivelinessKind.ManualByTopic) (hg : w.guid ≠ w0.guid) :
    LocalScope.covers (Stimulus.of w0 b).scope w.guid w.qos.kind = false := by
  rw [(stimulus_of_manual_by_topic w0 b hk).1]
  simpa [LocalScope.covers] using hg

theorem other_entry_not_asserted (w0 : WriterState) (b : Bool) (rel : ReliabilityKind)
    (e : LeaseEntry) (hk : w0.qos.kind = LivelinessKind.ManualByTopic)
    (he : e.writer ≠ w0.guid) :
    ∀ msg, (Stimulus.of w0 b).message = some msg → msg.asserts rel e.writer e.kind = false := by
  intro msg hmsg
  rcases (stimulus_of_manual_by_topic w0 b hk).2 msg hmsg with h | h
  · rw [h]; simpa [AssertionMessage.asserts] using he
  · rw [h]; simp [AssertionMessage.asserts, he]

theorem expire_writers (now : Nat) (m : ReaderMonitor) :
    ∀ e ∈ (m.on_deadline_expired now).entries, ∃ e' ∈ m.entries,
      e.writer = e'.writer ∧ e.kind = e'.kind := by
  intro e he
  unfold ReaderMonitor.on_deadline_expired at he
  cases hl : (m.entries.filter (LeaseEntry.expired now)).getLast? with
  | none =>
    rw [hl] at he
    exact ⟨e, he, rfl, rfl⟩
  | some last =>
    rw [hl] at he
    simp only [publish_entries] at he
    obtain ⟨e', he', rfl⟩ := List.mem_map.1 he
    refine ⟨e', he', ?_, ?_⟩ <;> by_cases hx : e'.expired now <;> simp [hx]

theorem two_by_two_counters (w w' : WriterState) (r r' : Reader) :
    (⟨[w, w'], [r, r']⟩ : System).writer_times_liveliness_lost
      = w.delivered.length + w'.delivered.length ∧
    (⟨[w, w'], [r, r']⟩ : System).times_liveliness_recovered
      = r.times_recovered + r'.times_recovered ∧
    (⟨[w, w'], [r, r']⟩ : System).reader_times_liveliness_lost
      = r.times_lost + r'.times_lost := by
  rw [writer_times_lost_eq, times_recovered_eq, reader_times_lost_eq]
  simp

/-- C10: at a participant with several ManualByTopic writers, a sample write or
`assert_liveliness()` on one writer changes the liveliness state of that writer only: every
other writer, and every reader holding no lease entry for it, goes through the instant exactly
as if only time had passed, and is left untouched when it is not alive.  So with two writers
on two topics, each with its reader, nothing alive yet and only writer 0 asserting (calls
within the lease, then a silence longer than the lease), exactly one recovery, one writer loss
and one reader loss are reported in total, and writer 1 and reader 1 are as they were. -/
theorem manual_by_topic_asserts_one_writer (w0 w1 : WriterState) (r0 r1 : Reader)
    (e0 e1 : LeaseEntry) (L T : Nat) (c : Nat × Bool) (rest : List (Nat × Bool))
    (hkind : w0.qos.kind = LivelinessKind.ManualByTopic)
    (hguid : w1.guid ≠ w0.guid)
    (hvisible : ∀ c' ∈ c :: rest, w0.visible r0.reliability c'.2 = true)
    (hlease : w0.qos.lease_duration = Duration.finite L)
    (hentry0 : r0.monitor.entries = [e0]) (hfor0 : e0.is_for w0.guid w0.qos.kind L)
    (hpending0 : r0.monitor.status.alive_count_change = 0)
    (hentry1 : r1.monitor.entries = [e1]) (hfor1 : e1.writer = w1.guid)
    (hw0 : w0.alive = false) (hw1 : w1.alive = false)
    (he0 : e0.alive = false) (he1 : e1.alive = false)
    (hclose : within_lease L c.1 (rest.map (fun c => c.1)))
    (hsilence : (rest.map (fun c => c.1)).getLastD c.1 + L < T) :
    (∀ (s : System) (src : WriterState) (now : Nat) (b : Bool),
      s.writers.find? (fun w => w.guid == src.guid) = some src →
      src.qos.kind = LivelinessKind.ManualByTopic →
      (∀ w ∈ s.writers, w.guid ≠ src.guid →
        w.step now (s.resolve (Action.call src.guid b)).scope = w.step now none ∧
        (w.alive = false → w.step now (s.resolve (Action.call src.guid b)).scope = w)) ∧
      (∀ r ∈ s.readers, (∀ e ∈ r.monitor.entries, e.writer ≠ src.guid) →
        r.step now (s.resolve (Action.call src.guid b)).message = r.step now none ∧
        ((∀ e ∈ r.monitor.entries, e.alive = false) →
          r.step now (s.resolve (Action.call src.guid b)).message = r))) ∧
    (∃ w0' r0', (⟨[w0, w1], [r0, r1]⟩ : System).run
        (calls_trace w0.guid (c :: rest) ++ [(T, Action.idle)]) = ⟨[w0', w1], [r0', r1]⟩) ∧
    (((⟨[w0, w1], [r0, r1]⟩ : System).run
          (calls_trace w0.guid (c :: rest))).writer_times_liveliness_lost
        = (⟨[w0, w1], [r0, r1]⟩ : System).writer_times_liveliness_lost ∧
      ((⟨[w0, w1], [r0, r1]⟩ : System).run
          (calls_trace w0.guid (c :: rest))).times_liveliness_recovered
        = (⟨[w0, w1], [r0, r1]⟩ : System).times_liveliness_recovered + 1 ∧
      ((⟨[w0, w1], [r0, r1]⟩ : System).run
          (calls_trace w0.guid (c :: rest))).reader_times_liveliness_lost
        = (⟨[w0, w1], [r0, r1]⟩ : System).reader_times_liveliness_lost) ∧
    (((⟨[w0, w1], [r0, r1]⟩ : System).run
          (calls_trace w0.guid (c :: rest) ++ [(T, Action.idle)])).writer_times_liveliness_lost
        = (⟨[w0, w1], [r0, r1]⟩ : System).writer_times_liveliness_lost + 1 ∧
      ((⟨[w0, w1], [r0, r1]⟩ : System).run
          (calls_trace w0.guid (c :: rest) ++ [(T, Action.idle)])).times_liveliness_recovered
        = (⟨[w0, w1], [r0, r1]⟩ : System).times_liveliness_recovered + 1 ∧
      ((⟨[w0, w1], [r0, r1]⟩ : System).run
          (calls_trace w0.guid (c :: rest) ++ [(T, Action.idle)])).reader_times_liveliness_lost
        = (⟨[w0, w1], [r0, r1]⟩ : System).reader_times_liveliness_lost + 1) := by
  have hmanual : w0.qos.kind ≠ LivelinessKind.Automatic := by rw [hkind]; decide
  -- the stimuli of the calls, and what they mean to writer 1 and reader 1
  have hst : (⟨[w0, w1], [r0, r1]⟩ : System).stimuli (calls_trace w0.guid (c :: rest))
      = (c :: rest).map (fun c => (c.1, Stimulus.of w0 c.2)) :=
    pair_stimuli_calls w0 [w1] [r0, r1] (c :: rest)
  have hcov1 : ∀ y ∈ (c :: rest).map (fun c => (c.1, Stimulus.of w0 c.2)),
      LocalScope.covers y.2.scope w1.guid w1.qos.kind = false := by
    intro y hy
    obtain ⟨c', _, rfl⟩ := List.mem_map.1 hy
    exact other_writer_not_covered w0 w1 c'.2 hkind hguid
  have he1w : e1.writer ≠ w0.guid := by rw [hfor1]; exact hguid
  have hmsg1 : ∀ y ∈ (c :: rest).map (fun c => (c.1, Stimulus.of w0 c.2)),
      ∀ msg, y.2.message = some msg →
        ∀ e ∈ r1.monitor.entries, msg.asserts r1.reliability e.writer e.kind = false := by
    intro y hy msg hmsg e he
    obtain ⟨c', _, rfl⟩ := List.mem_map.1 hy
    rw [hentry1] at he
    rw [List.mem_singleton.1 he]
    exact other_entry_not_asserted w0 c'.2 r1.reliability e1 hkind he1w msg hmsg
  have hquiet1 : ∀ e ∈ r1.monitor.entries, e.alive = false := by
    intro e he
    rw [hentry1] at he
    rw [List.mem_singleton.1 he]; exact he1
  have hw1run := writer_run_untouched _ w1 hw1 hcov1
  have hr1run := reader_run_untouched _ r1 hquiet1 hmsg1
  have hw1T : w1.on_timer T = w1 := on_timer_not_alive T w1 hw1
  have hr1T : r1.step T none = r1 := by
    unfold Reader.step
    rw [expire_noop_of_none_alive r1.monitor T hquiet1]
    rfl
  -- writer 0 and reader 0
  obtain ⟨a1, a2, _⟩ := writer_calls_within_lease w0 L T c rest hmanual hlease hw0 hclose hsilence
  obtain ⟨⟨_, ⟨_, _, b1, b2⟩, _⟩, _, ⟨_, _, b3, b4⟩, _⟩ :=
    reader_calls_within_lease w0 r0 e0 L T r0.times_recovered r0.times_lost c rest
      ⟨hentry0, hpending0, rfl, rfl⟩ hfor0 he0 hvisible hclose hsilence
  have hrun : (⟨[w0, w1], [r0, r1]⟩ : System).run (calls_trace w0.guid (c :: rest))
      = ⟨[w0.run ((c :: rest).map (fun c => (c.1, Stimulus.of w0 c.2))), w1],
         [r0.run ((c :: rest).map (fun c => (c.1, Stimulus.of w0 c.2))), r1]⟩ := by
    rw [run_eq_local, hst]
    simp only [List.map_cons, List.map_nil]
    rw [← List.map_cons (fun c => (c.1, Stimulus.of w0 c.2)) c rest, hw1run, hr1run]
  have hrunT : (⟨[w0, w1], [r0, r1]⟩ : System).run
      (calls_trace w0.guid (c :: rest) ++ [(T, Action.idle)])
      = ⟨[(w0.run ((c :: rest).map (fun c => (c.1, Stimulus.of w0 c.2)))).on_timer T, w1],
         [(r0.run ((c :: rest).map (fun c => (c.1, Stimulus.of w0 c.2)))).step T none, r1]⟩ := by
    rw [run_eq_local, stimuli_append, stimuli_idle, hst]
    simp only [List.map_cons, List.map_nil, writer_run_append, reader_run_append]
    rw [← List.map_cons (fun c => (c.1, Stimulus.of w0 c.2)) c rest, hw1run, hr1run]
    show (⟨[WriterState.on_timer T _, WriterState.on_timer T w1],
      [Reader.step T none _, Reader.step T none r1]⟩ : System) = _
    rw [hw1T, hr1T]
  refine ⟨?_, ⟨_, _, hrunT⟩, ?_, ?_⟩
  · intro s src now b hlookup hk
    have hres : s.resolve (Action.call src.guid b) = Stimulus.of src b := by
      cases b <;> simp [Action.call, System.resolve, hlookup]
    rw [hres]
    constructor
    · intro w _ hg
      have hc := other_writer_not_covered src w b hk hg
      have h1 : w.step now (Stimulus.of src b).scope = w.step now none := by
        unfold WriterState.step
        rw [hc]
        rfl
      exact ⟨h1, fun ha => by rw [h1]; exact on_timer_not_alive now w ha⟩
    · intro r _ hnone
      have h1 : r.step now (Stimulus.of src b).message = r.step now none := by
        unfold Reader.step
        rw [receive_ignored]
        · rfl
        · intro msg hmsg e he
          obtain ⟨e', he', h1, h2⟩ := expire_writers now r.monitor e he
          show msg.asserts r.reliability e.writer e.kind = false
          rw [h1, h2]
          exact other_entry_not_asserted src b r.reliability e' hk (hnone e' he') msg hmsg
      refine ⟨h1, fun hq => ?_⟩
      rw [h1]
      unfold Reader.step
      rw [expire_noop_of_none_alive r.monitor now hq]
      rfl
  · obtain ⟨c1, c2, c3⟩ := two_by_two_counters w0 w1 r0 r1
    obtain ⟨d1, d2, d3⟩ := two_by_two_counters
      (w0.run ((c :: rest).map (fun c => (c.1, Stimulus.of w0 c.2)))) w1
      (r0.run ((c :: rest).map (fun c => (c.1, Stimulus.of w0 c.2)))) r1
    rw [hrun, c1, c2, c3, d1, d2, d3, a1, b1, b2]
    exact ⟨rfl, by omega, rfl⟩
  · obtain ⟨c1, c2, c3⟩ := two_by_two_counters w0 w1 r0 r1
    obtain ⟨d1, d2, d3⟩ := two_by_two_counters
      ((w0.run ((c :: rest).map (fun c => (c.1, Stimulus.of w0 c.2)))).on_timer T) w1
      ((r0.run ((c :: rest).map (fun c => (c.1, Stimulus.of w0 c.2)))).step T none) r1
    rw [hrunT, c1, c2, c3, d1, d2, d3, a2, b3, b4]
    exact ⟨by omega, by omega, by omega⟩

/-- Witness of C10: `TwoWriters_TwoReaders_ManualByTopic`, lease 500 ms, four
`assert_liveliness()` calls on writer 0 at 10 ms spacing, then a wait of one second. -/
theorem manual_by_topic_asserts_one_writer_witness :
    ((⟨[test_writer_of 0 LivelinessKind.ManualByTopic 500,
          test_writer_of 1 LivelinessKind.ManualByTopic 500],
        [test_reader_of 0 LivelinessKind.ManualByTopic 500,
          test_reader_of 1 LivelinessKind.ManualByTopic 500]⟩ : System).run
        (calls_trace ⟨1, 0⟩ ((0, false) :: [(10000000, false), (20000000, false), (30000000, false)])
          ++ [(1030000000, Action.idle)])).writer_times_liveliness_lost = 0 + 1 ∧
    ((⟨[test_writer_of 0 LivelinessKind.ManualByTopic 500,
          test_writer_of 1 LivelinessKind.ManualByTopic 500],
        [test_reader_of 0 LivelinessKind.ManualByTopic 500,
          test_reader_of 1 LivelinessKind.ManualByTopic 500]⟩ : System).run
        (calls_trace ⟨1, 0⟩ ((0, false) :: [(10000000, false), (20000000, false), (30000000, false)])
          ++ [(1030000000, Action.idle)])).times_liveliness_recovered = 0 + 1 ∧
    ((⟨[test_writer_of 0 LivelinessKind.ManualByTopic 500,
          test_writer_of 1 LivelinessKind.ManualByTopic 500],
        [test_reader_of 0 LivelinessKind.ManualByTopic 500,
          test_reader_of 1 LivelinessKind.ManualByTopic 500]⟩ : System).run
        (calls_trace ⟨1, 0⟩ ((0, false) :: [(10000000, false), (20000000, false), (30000000, false)])
          ++ [(1030000000, Action.idle)])).reader_times_liveliness_lost = 0 + 1 :=
  (manual_by_topic_asserts_one_writer
    (test_writer_of 0 LivelinessKind.ManualByTopic 500)
    (test_writer_of 1 LivelinessKind.ManualByTopic 500)
    (test_reader_of 0 LivelinessKind.ManualByTopic 500)
    (test_reader_of 1 LivelinessKind.ManualByTopic 500)
    (test_entry_of 0 LivelinessKind.ManualByTopic 500)
    (test_entry_of 1 LivelinessKind.ManualByTopic 500)
    500000000 1030000000 (0, false) [(10000000, false), (20000000, false), (30000000, false)]
    rfl (by decide) (by decide) rfl rfl ⟨rfl, rfl, rfl⟩ rfl rfl rfl rfl rfl rfl rfl
    ⟨by decide, by decide, by decide, by decide, by decide, by decide, trivial⟩
    (by decide)).2.2.2

/-! ## The liveliness example: exit code and arguments -/

/-- Counterexample to C11: with `LivelinessPublisher::init` returning false, and with
`LivelinessSubscriber::init` returning false because no participant could be created, `main`
still returns 0. -/
theorem main_returns_zero_when_init_fails :
    failing_environment.publisher_init LivelinessKind.Automatic = false ∧
    (main failing_environment ["Liveliness", "publisher"]).exit_code = 0 ∧
    (LivelinessSubscriber.init failing_environment LivelinessKind.Automatic
      failing_environment.liveliness_ms).1 = false ∧
    (main failing_environment ["Liveliness", "subscriber"]).exit_code = 0 := by
  decide

theorem main_exit_code (env : ExampleEnvironment) (argv : List String) :
    (main env argv).exit_code = 0 := by
  unfold main
  cases h : main_arguments argv with
  | ok v => rfl
  | error o =>
    show o.exit_code = 0
    unfold main_arguments at h
    repeat' split at h
    all_goals first
      | (cases h; rfl)
      | cases h


theorem switch_publisher (env : ExampleEnvironment) (count sleep : Int) (k : LivelinessKind) :
    main_switch env ⟨1, count, sleep, k⟩
      = [MainEvent.publisher_init k] ++
        (if env.publisher_init k then [MainEvent.publisher_run count sleep] else []) := by
  unfold main_switch
  rw [if_pos rfl]

theorem switch_subscriber (env : ExampleEnvironment) (count sleep : Int) (k : LivelinessKind) :
    main_switch env ⟨2, count, sleep, k⟩
      = [MainEvent.subscriber_init k env.liveliness_ms] ++
        (LivelinessSubscriber.init env k env.liveliness_ms).2.2 ++
        (if (LivelinessSubscriber.init env k env.liveliness_ms).1
          then [MainEvent.subscriber_run] else []) ++
        [MainEvent.remove_participant
          (LivelinessSubscriber.init env k env.liveliness_ms).2.1.participant_] := by
  unfold main_switch
  rw [if_neg (show ¬ ((2 : Int) = 1) by decide), if_pos rfl]

theorem init_does_not_run (env : ExampleEnvironment) (k : LivelinessKind) (ms : Int) :
    MainEvent.subscriber_run ∉ (LivelinessSubscriber.init env k ms).2.2 := by
  unfold LivelinessSubscriber.init LivelinessSubscriber.report
  split
  · simp
  · split
    · simp
    · cases k <;> simp

/-- C11, as amended: `main` returns exit code 0 on every path, the graceful shutdown and the
failed initialisation alike.  When `init` of the publisher or of the subscriber returns false,
`run` is skipped and `main` goes on to `Domain::stopAll()`, `Log::Reset()` and `return 0`. -/
theorem main_always_returns_zero (env : ExampleEnvironment) (argv : List String) :
    (main env argv).exit_code = 0 ∧
    (∀ count sleep k, main_arguments argv = Except.ok ⟨1, count, sleep, k⟩ →
      env.publisher_init k = false →
      main env argv
        = ⟨0, [MainEvent.publisher_init k, MainEvent.stop_all, MainEvent.log_reset]⟩) ∧
    (∀ count sleep k, main_arguments argv = Except.ok ⟨2, count, sleep, k⟩ →
      (LivelinessSubscriber.init env k env.liveliness_ms).1 = false →
      main env argv
        = ⟨0, [MainEvent.subscriber_init k env.liveliness_ms] ++
            (LivelinessSubscriber.init env k env.liveliness_ms).2.2 ++
            [MainEvent.remove_participant
              (LivelinessSubscriber.init env k env.liveliness_ms).2.1.participant_,
             MainEvent.stop_all, MainEvent.log_reset]⟩ ∧
      MainEvent.subscriber_run ∉ (main env argv).events) := by
  refine ⟨main_exit_code env argv, ?_, ?_⟩
  · intro count sleep k h hinit
    unfold main
    rw [h]
    simp only [switch_publisher, hinit]
    rfl
  · intro count sleep k h hinit
    have hev := init_does_not_run env k env.liveliness_ms
    have hmain : main env argv
        = ⟨0, [MainEvent.subscriber_init k env.liveliness_ms] ++
            (LivelinessSubscriber.init env k env.liveliness_ms).2.2 ++
            [MainEvent.remove_participant
              (LivelinessSubscriber.init env k env.liveliness_ms).2.1.participant_,
             MainEvent.stop_all, MainEvent.log_reset]⟩ := by
      unfold main
      rw [h]
      simp only [switch_subscriber, hinit]
      simp
    refine ⟨hmain, ?_⟩
    rw [hmain]
    simp [hev]

/-- Witness of C11, as amended: the publisher whose `init` fails, and the subscriber for
which no participant can be created. -/
theorem main_always_returns_zero_witness :
    main failing_environment ["Liveliness", "publisher", "MANUAL_BY_TOPIC"]
      = ⟨0, [MainEvent.publisher_init LivelinessKind.ManualByTopic, MainEvent.stop_all,
          MainEvent.log_reset]⟩ ∧
    MainEvent.subscriber_run ∉ (main failing_environment ["Liveliness", "subscriber"]).events :=
  ⟨(main_always_returns_zero failing_environment
      ["Liveliness", "publisher", "MANUAL_BY_TOPIC"]).2.1 10 1000 LivelinessKind.ManualByTopic
      rfl rfl,
    ((main_always_returns_zero failing_environment ["Liveliness", "subscriber"]).2.2
      10 1000 LivelinessKind.Automatic rfl (by decide)).2⟩

theorem liveliness_of_kind_name (k : LivelinessKind) :
    liveliness_of_name (kind_name k) = some k := by
  cases k <;> decide

theorem liveliness_of_name_eq_some (name : String) (k : LivelinessKind)
    (h : liveliness_of_name name = some k) : name = kind_name k := by
  unfold liveliness_of_name at h
  split at h
  · cases h; assumption
  · split at h
    · cases h; assumption
    · split at h
      · cases h; assumption
      · cases h

/-- C12: in `main` of the example, with `argv[1]` one of `publisher`, `subscriber` and
`argv[2]` one of `AUTOMATIC`, `MANUAL_BY_PARTICIPANT`, `MANUAL_BY_TOPIC`, `init` of the
endpoint of that role, and of no other, is called with the liveliness kind of that name
(and the subscriber attributes built from it carry that kind), whatever arguments follow;
with `argv[2]` absent the kind is Automatic; with any other `argv[2]` `main` prints
"Unknown liveliness kind" and returns at once, and with no argument at all it prints the
usage line and returns: in both cases no endpoint is initialised. -/
theorem main_initialises_the_named_kind (env : ExampleEnvironment) (prog : String)
    (k : LivelinessKind) (name : String) (rest : List String) :
    (∃ count sleep, main env (prog :: "publisher" :: kind_name k :: rest)
      = ⟨0, [MainEvent.publisher_init k] ++
          (if env.publisher_init k then [MainEvent.publisher_run count sleep] else []) ++
          [MainEvent.stop_all, MainEvent.log_reset]⟩) ∧
    (main env (prog :: "subscriber" :: kind_name k :: rest)
      = ⟨0, [MainEvent.subscriber_init k env.liveliness_ms] ++
          (LivelinessSubscriber.init env k env.liveliness_ms).2.2 ++
          (if (LivelinessSubscriber.init env k env.liveliness_ms).1
            then [MainEvent.subscriber_run] else []) ++
          [MainEvent.remove_participant
            (LivelinessSubscriber.init env k env.liveliness_ms).2.1.participant_] ++
          [MainEvent.stop_all, MainEvent.log_reset]⟩ ∧
      (LivelinessSubscriber.Rparam env k env.liveliness_ms).qos.m_liveliness.kind = k) ∧
    (main env [prog, "publisher"]
      = ⟨0, [MainEvent.publisher_init LivelinessKind.Automatic] ++
          (if env.publisher_init LivelinessKind.Automatic
            then [MainEvent.publisher_run 10 1000] else []) ++
          [MainEvent.stop_all, MainEvent.log_reset]⟩ ∧
      main env [prog, "subscriber"]
        = main env (prog :: "subscriber" :: kind_name LivelinessKind.Automatic :: rest)) ∧
    ((∀ k', name ≠ kind_name k') →
      main env (prog :: "publisher" :: name :: rest)
        = ⟨0, [MainEvent.print "Unknown liveliness kind"]⟩ ∧
      main env (prog :: "subscriber" :: name :: rest)
        = ⟨0, [MainEvent.print "Unknown liveliness kind"]⟩) ∧
    (main env [prog]
      = ⟨0, [MainEvent.print "publisher OR subscriber argument needed", MainEvent.log_reset]⟩ ∧
      main env []
        = ⟨0, [MainEvent.print "publisher OR subscriber argument needed",
            MainEvent.log_reset]⟩) := by
  have hsub : ∀ rest', main env (prog :: "subscriber" :: kind_name k :: rest')
      = ⟨0, main_switch env ⟨2, 10, 1000, k⟩ ++ [MainEvent.stop_all, MainEvent.log_reset]⟩ := by
    intro rest'
    unfold main main_arguments
    simp [liveliness_of_kind_name]
  refine ⟨?_, ⟨?_, rfl⟩, ⟨?_, ?_⟩, ?_, ?_, ?_⟩
  · refine ⟨if (prog :: "publisher" :: kind_name k :: rest).length > 3
        then atoi (kind_name k) else 10,
      if (prog :: "publisher" :: kind_name k :: rest).length > 3 then
        (if (prog :: "publisher" :: kind_name k :: rest).length > 4
          then atoi ((prog :: "publisher" :: kind_name k :: rest).getD 3 "") else 1000)
      else 1000, ?_⟩
    unfold main main_arguments
    simp [liveliness_of_kind_name, switch_publisher]
  · rw [hsub, switch_subscriber]
  · unfold main main_arguments
    simp [switch_publisher]
  · have h1 : main env [prog, "subscriber"]
        = ⟨0, main_switch env ⟨2, 10, 1000, LivelinessKind.Automatic⟩
            ++ [MainEvent.stop_all, MainEvent.log_reset]⟩ := by
      unfold main main_arguments
      simp
    rw [h1]
    unfold main main_arguments
    simp [liveliness_of_kind_name]
  · intro hname
    have hnone : liveliness_of_name name = none := by
      cases h : liveliness_of_name name with
      | none => rfl
      | some k' => exact absurd (liveliness_of_name_eq_some name k' h) (hname k')
    constructor
    · unfold main main_arguments
      simp [hnone]
    · unfold main main_arguments
      simp [hnone]
  · rfl
  · rfl

/-- Witness of C12: `Liveliness subscriber manual`, whose second argument is not a kind
name. -/
theorem main_initialises_the_named_kind_witness :
    main failing_environment ["Liveliness", "publisher", "manual", "5"]
      = ⟨0, [MainEvent.print "Unknown liveliness kind"]⟩ ∧
    main failing_environment ["Liveliness", "subscriber", "manual", "5"]
      = ⟨0, [MainEvent.print "Unknown liveliness kind"]⟩ :=
  (main_initialises_the_named_kind failing_environment "Liveliness" LivelinessKind.Automatic
    "manual" ["5"]).2.2.2.1 (by intro k'; cases k' <;> decide)

/-! ## Participants of the black-box tests: setters and `init_publisher` -/

/-- C13: each QoS setter of `PublishingParticipant` (`reliability`, `liveliness_kind`,
`liveliness_lease_duration`, `liveliness_announcement_period`) and of `SubscribingParticipant`
(`reliability`, `liveliness_kind`, `liveliness_lease_duration`; it has no announcement-period
setter) returns the participant with its own field set to the argument and nothing else
changed: setting the field back to its former value restores the participant exactly.  Setters
of different fields commute, and of two calls to one setter the last one wins. -/
theorem setters_change_only_their_field (p : PublishingParticipant) (s : SubscribingParticipant)
    (k k' : LivelinessKind) (d d' a a' : Duration_t) (r r' : ReliabilityKind) :
    -- the field is set
    ((p.reliability r).publisher_attr_.qos.m_reliability.kind = r ∧
      (p.liveliness_kind k).publisher_attr_.qos.m_liveliness.kind = k ∧
      (p.liveliness_lease_duration d).publisher_attr_.qos.m_liveliness.lease_duration = d ∧
      (p.liveliness_announcement_period a).publisher_attr_.qos.m_liveliness.announcement_period
        = a ∧
      (s.reliability r).subscriber_attr_.qos.m_reliability.kind = r ∧
      (s.liveliness_kind k).subscriber_attr_.qos.m_liveliness.kind = k ∧
      (s.liveliness_lease_duration d).subscriber_attr_.qos.m_liveliness.lease_duration = d) ∧
    -- nothing else is changed
    ((p.reliability r).reliability p.publisher_attr_.qos.m_reliability.kind = p ∧
      (p.liveliness_kind k).liveliness_kind p.publisher_attr_.qos.m_liveliness.kind = p ∧
      (p.liveliness_lease_duration d).liveliness_lease_duration
        p.publisher_attr_.qos.m_liveliness.lease_duration = p ∧
      (p.liveliness_announcement_period a).liveliness_announcement_period
        p.publisher_attr_.qos.m_liveliness.announcement_period = p ∧
      (s.reliability r).reliability s.subscriber_attr_.qos.m_reliability.kind = s ∧
      (s.liveliness_kind k).liveliness_kind s.subscriber_attr_.qos.m_liveliness.kind = s ∧
      (s.liveliness_lease_duration d).liveliness_lease_duration
        s.subscriber_attr_.qos.m_liveliness.lease_duration = s) ∧
    -- setters of different fields commute
    (((p.reliability r).liveliness_kind k = (p.liveliness_kind k).reliability r ∧
      (p.reliability r).liveliness_lease_duration d = (p.liveliness_lease_duration d).reliability r ∧
      (p.reliability r).liveliness_announcement_period a
        = (p.liveliness_announcement_period a).reliability r ∧
      (p.liveliness_kind k).liveliness_lease_duration d
        = (p.liveliness_lease_duration d).liveliness_kind k ∧
      (p.liveliness_kind k).liveliness_announcement_period a
        = (p.liveliness_announcement_period a).liveliness_kind k ∧
      (p.liveliness_lease_duration d).liveliness_announcement_period a
        = (p.liveliness_announcement_period a).liveliness_lease_duration d) ∧
     ((s.reliability r).liveliness_kind k = (s.liveliness_kind k).reliability r ∧
      (s.reliability r).liveliness_lease_duration d = (s.liveliness_lease_duration d).reliability r ∧
      (s.liveliness_kind k).liveliness_lease_duration d
        = (s.liveliness_lease_duration d).liveliness_kind k)) ∧
    -- a repeated call keeps the last value
    ((p.reliability r).reliability r' = p.reliability r' ∧
      (p.liveliness_kind k).liveliness_kind k' = p.liveliness_kind k' ∧
      (p.liveliness_lease_duration d).liveliness_lease_duration d'
        = p.liveliness_lease_duration d' ∧
      (p.liveliness_announcement_period a).liveliness_announcement_period a'
        = p.liveliness_announcement_period a' ∧
      (s.reliability r).reliability r' = s.reliability r' ∧
      (s.liveliness_kind k).liveliness_kind k' = s.liveliness_kind k' ∧
      (s.liveliness_lease_duration d).liveliness_lease_duration d'
        = s.liveliness_lease_duration d') :=
  ⟨⟨rfl, rfl, rfl, rfl, rfl, rfl, rfl⟩, ⟨rfl, rfl, rfl, rfl, rfl, rfl, rfl⟩,
    ⟨⟨rfl, rfl, rfl, rfl, rfl, rfl⟩, ⟨rfl, rfl, rfl⟩⟩, ⟨rfl, rfl, rfl, rfl, rfl, rfl, rfl⟩⟩

theorem init_publisher_length (p : PublishingParticipant) (index : Nat) (created : Option Nat) :
    (p.init_publisher index created).2.publishers_.length = p.publishers_.length := by
  unfold PublishingParticipant.init_publisher
  split
  · rfl
  · split
    · rfl
    · cases created with
      | none => rfl
      | some pub => simp

/-- C14: `init_publisher(index)` returns false and leaves the participant, its publishers
table included, unchanged whenever the participant has not been created or
`index >= num_publishers_`.  It returns true only if `Domain::createPublisher` returned a
publisher, and then the table is the old one with entry `index` replaced by that publisher:
the length is kept (it is `num_publishers_` since construction), entry `index` holds the new
publisher and every other entry is as before; nothing else in the participant changes. -/
theorem init_publisher_guards_and_replaces_one_entry (p : PublishingParticipant) (index : Nat)
    (created : Option Nat) (hsize : p.publishers_.length = p.num_publishers_) :
    ((p.participant_ = none ∨ index ≥ p.num_publishers_) →
      p.init_publisher index created = (false, p)) ∧
    ((p.init_publisher index created).1 = true →
      ∃ pub, created = some pub ∧ p.participant_ ≠ none ∧ index < p.num_publishers_ ∧
        (p.init_publisher index created).2
          = { p with publishers_ := p.publishers_.set index (some pub) } ∧
        (p.init_publisher index created).2.publishers_.length = p.num_publishers_ ∧
        (p.init_publisher index created).2.publishers_[index]? = some (some pub) ∧
        ∀ j, j ≠ index →
          (p.init_publisher index created).2.publishers_[j]? = p.publishers_[j]?) ∧
    ((p.init_publisher index created).1 = false → (p.init_publisher index created).2 = p) ∧
    (∀ n m attr dom pol name, (PublishingParticipant.new n m attr dom pol name).publishers_.length
      = (PublishingParticipant.new n m attr dom pol name).num_publishers_) ∧
    (p.init_publisher index created).2.publishers_.length
      = (p.init_publisher index created).2.num_publishers_ := by
  refine ⟨?_, ?_, ?_, ?_, ?_⟩
  · rintro (h | h)
    · unfold PublishingParticipant.init_publisher
      rw [if_pos h]
    · unfold PublishingParticipant.init_publisher
      by_cases h0 : p.participant_ = none
      · rw [if_pos h0]
      · rw [if_neg h0, if_pos h]
  · intro h
    unfold PublishingParticipant.init_publisher at h ⊢
    by_cases h0 : p.participant_ = none
    · rw [if_pos h0] at h; cases h
    · by_cases h1 : index ≥ p.num_publishers_
      · rw [if_neg h0, if_pos h1] at h; cases h
      · cases created with
        | none => rw [if_neg h0, if_neg h1] at h; cases h
        | some pub =>
          rw [if_neg h0, if_neg h1]
          have hlt : index < p.publishers_.length := by omega
          refine ⟨pub, rfl, h0, by omega, rfl, ?_, ?_, ?_⟩
          · simp [hsize]
          · simp [List.getElem?_set, hlt]
          · intro j hj
            simp [List.getElem?_set, Ne.symm hj]
  · intro h
    unfold PublishingParticipant.init_publisher at h ⊢
    by_cases h0 : p.participant_ = none
    · rw [if_pos h0]
    · by_cases h1 : index ≥ p.num_publishers_
      · rw [if_neg h0, if_pos h1]
      · cases created with
        | none => rw [if_neg h0, if_neg h1]
        | some pub => rw [if_neg h0, if_neg h1] at h; cases h
  · intro n m attr dom pol name
    simp [PublishingParticipant.new]
  · rw [init_publisher_length, hsize]
    unfold PublishingParticipant.init_publisher
    split
    · rfl
    · split
      · rfl
      · cases created <;> rfl

/-- Witness of C14: the two publishers of the two-writer tests after `init_participant`:
`init_publisher(2)` is refused, `init_publisher(1)` fills entry 1 and leaves entry 0 null. -/
theorem init_publisher_guards_and_replaces_one_entry_witness :
    test_publishers.init_publisher 2 (some 9) = (false, test_publishers) ∧
    (∃ pub, some 9 = some pub ∧ test_publishers.participant_ ≠ none ∧
        1 < test_publishers.num_publishers_ ∧
        (test_publishers.init_publisher 1 (some 9)).2
          = { test_publishers with publishers_ := test_publishers.publishers_.set 1 (some pub) } ∧
        (test_publishers.init_publisher 1 (some 9)).2.publishers_.length
          = test_publishers.num_publishers_ ∧
        (test_publishers.init_publisher 1 (some 9)).2.publishers_[1]? = some (some pub) ∧
        ∀ j, j ≠ 1 →
          (test_publishers.init_publisher 1 (some 9)).2.publishers_[j]?
            = test_publishers.publishers_[j]?) ∧
    (test_publishers.init_publisher 1 (some 9)).2.publishers_ = [none, some 9] :=
  ⟨(init_publisher_guards_and_replaces_one_entry test_publishers 2 (some 9) rfl).1
      (Or.inr (by decide)),
    (init_publisher_guards_and_replaces_one_entry test_publishers 1 (some 9) rfl).2.1
      (by decide),
    by decide⟩

/-! ## Discovery client -/

theorem is_server_fold (guidPrefix : Nat) (servers : List RemoteServerAttributes) (b : Bool) :
    servers.foldl (fun is_server svr => if svr.guidPrefix = guidPrefix then true else is_server) b
      = (b || servers.any (fun svr => svr.guidPrefix == guidPrefix)) := by
  induction servers generalizing b with
  | nil => simp
  | cons svr rest ih =>
    rw [List.foldl_cons, ih, List.any_cons]
    by_cases h : svr.guidPrefix = guidPrefix
    · simp [h]
    · have hb : (svr.guidPrefix == guidPrefix) = false := beq_false_of_ne h
      rw [if_neg h, hb, Bool.false_or]

theorem is_server_iff (c : PDPClient) (guidPrefix : Nat) :
    c.is_server guidPrefix = true ↔ ∃ svr ∈ c.m_DiscoveryServers, svr.guidPrefix = guidPrefix := by
  unfold PDPClient.is_server
  rw [is_server_fold]
  simp

/-- C15: `createParticipantProxyData` returns, for every participant data, a proxy that is a
copy of it with `isAlive = true`, and that proxy is appended at the end of
`m_participantProxies`: the list grows by one and its earlier entries are unchanged, and
nothing else in the client changes.  The proxy has a lease-duration timer, built from its
lease duration and restarted, exactly when its `guidPrefix` is the `guidPrefix` of some
configured discovery server; otherwise its timer is null. -/
theorem create_proxy_appends_alive_copy (c : PDPClient) (participant_data : ParticipantProxyData) :
    (c.createParticipantProxyData participant_data).1
      = { participant_data with
          isAlive := true
          mp_leaseDurationTimer :=
            (c.createParticipantProxyData participant_data).1.mp_leaseDurationTimer } ∧
    (c.createParticipantProxyData participant_data).1.isAlive = true ∧
    (c.createParticipantProxyData participant_data).2
      = { c with m_participantProxies :=
            c.m_participantProxies ++ [(c.createParticipantProxyData participant_data).1] } ∧
    (c.createParticipantProxyData participant_data).2.m_participantProxies.length
      = c.m_participantProxies.length + 1 ∧
    (∀ i, i < c.m_participantProxies.length →
      (c.createParticipantProxyData participant_data).2.m_participantProxies[i]?
        = c.m_participantProxies[i]?) ∧
    (c.createParticipantProxyData participant_data).2.m_participantProxies.getLast?
      = some (c.createParticipantProxyData participant_data).1 ∧
    (((c.createParticipantProxyData participant_data).1.mp_leaseDurationTimer).isSome = true ↔
      ∃ svr ∈ c.m_DiscoveryServers, svr.guidPrefix = participant_data.m_guid.guidPrefix) ∧
    ((∃ svr ∈ c.m_DiscoveryServers, svr.guidPrefix = participant_data.m_guid.guidPrefix) →
      (c.createParticipantProxyData participant_data).1.mp_leaseDurationTimer
        = some ⟨participant_data.m_leaseDuration, true⟩) ∧
    ((¬ ∃ svr ∈ c.m_DiscoveryServers, svr.guidPrefix = participant_data.m_guid.guidPrefix) →
      (c.createParticipantProxyData participant_data).1.mp_leaseDurationTimer = none) := by
  have hs := is_server_iff c participant_data.m_guid.guidPrefix
  unfold PDPClient.createParticipantProxyData
  by_cases h : c.is_server participant_data.m_guid.guidPrefix = true
  · rw [if_pos h]
    refine ⟨rfl, rfl, rfl, by simp, ?_, by simp, ?_, fun _ => rfl, ?_⟩
    · intro i hi
      simp [List.getElem?_append_left hi]
    · simpa using hs.1 h
    · intro hn
      exact absurd (hs.1 h) hn
  · rw [if_neg h]
    refine ⟨rfl, rfl, rfl, by simp, ?_, by simp, ?_, ?_, fun _ => rfl⟩
    · intro i hi
      simp [List.getElem?_append_left hi]
    · constructor
      · intro hx; simp at hx
      · intro hx; exact absurd (hs.2 hx) h
    · intro hx
      exact absurd (hs.2 hx) h

/-- Witness of C15: the data of the second server (prefix 20) and the data of another client
(prefix 99) discovered by the client. -/
theorem create_proxy_appends_alive_copy_witness :
    (test_client.createParticipantProxyData
      ⟨⟨20, EntityId_t.c_EntityId_RTPSParticipant⟩, 0, ⟨2, 0⟩, 0, [3], [4], false,
        none⟩).1.mp_leaseDurationTimer = some ⟨⟨2, 0⟩, true⟩ ∧
    (test_client.createParticipantProxyData
      ⟨⟨99, EntityId_t.c_EntityId_RTPSParticipant⟩, 0, ⟨2, 0⟩, 0, [3], [4], false,
        none⟩).1.mp_leaseDurationTimer = none :=
  ⟨(create_proxy_appends_alive_copy test_client
      ⟨⟨20, EntityId_t.c_EntityId_RTPSParticipant⟩, 0, ⟨2, 0⟩, 0, [3], [4], false,
        none⟩).2.2.2.2.2.2.2.1 ⟨⟨20, [3], [4], none⟩, by decide, rfl⟩,
    (create_proxy_appends_alive_copy test_client
      ⟨⟨99, EntityId_t.c_EntityId_RTPSParticipant⟩, 0, ⟨2, 0⟩, 0, [3], [4], false,
        none⟩).2.2.2.2.2.2.2.2 (by decide)⟩


theorem match_server_eq {σ : Type} (edp : EDP σ) (b : Bool) (st : σ)
    (calls : List ParticipantProxyData) (svr : RemoteServerAttributes) :
    match_server edp (b, st, calls) svr
      = (b && svr.proxy.isSome, (call_for edp st svr).foldl edp.assignRemoteEndpoints st,
          calls ++ call_for edp st svr) := by
  unfold match_server call_for
  cases hp : svr.proxy with
  | none => simp
  | some proxy =>
    by_cases hm : edp.areRemoteEndpointsMatched st proxy = true
    · simp [hm]
    · simp [hm]

theorem match_server_fold {σ : Type} (edp : EDP σ) (servers : List RemoteServerAttributes) :
    ∀ (b : Bool) (st : σ) (calls : List ParticipantProxyData),
      servers.foldl (match_server edp) (b, st, calls)
        = (b && servers.all (fun svr => svr.proxy.isSome),
            (servers.foldl (match_server edp) (true, st, [])).2.1,
            calls ++ (servers.foldl (match_server edp) (true, st, [])).2.2) := by
  induction servers with
  | nil => intro b st calls; simp
  | cons svr rest ih =>
    intro b st calls
    rw [List.foldl_cons, List.foldl_cons, match_server_eq, match_server_eq, ih,
      ih (true && svr.proxy.isSome)]
    simp [Bool.and_assoc]

theorem match_servers_cons {σ : Type} (edp : EDP σ) (svr : RemoteServerAttributes)
    (rest : List RemoteServerAttributes) (st : σ) :
    (match_servers edp (svr :: rest) st).2.2
      = call_for edp st svr ++
        (match_servers edp rest ((call_for edp st svr).foldl edp.assignRemoteEndpoints st)).2.2 ∧
    (match_servers edp (svr :: rest) st).2.1
      = (match_servers edp rest ((call_for edp st svr).foldl edp.assignRemoteEndpoints st)).2.1 ∧
    (match_servers edp (svr :: rest) st).1
      = (svr.proxy.isSome &&
        (match_servers edp rest ((call_for edp st svr).foldl edp.assignRemoteEndpoints st)).1) := by
  unfold match_servers
  rw [List.foldl_cons, match_server_eq, match_server_fold,
    match_server_fold edp rest true]
  simp

theorem match_servers_append {σ : Type} (edp : EDP σ) (l1 l2 : List RemoteServerAttributes) :
    ∀ st : σ,
      (match_servers edp (l1 ++ l2) st).2.2
        = (match_servers edp l1 st).2.2
          ++ (match_servers edp l2 (match_servers edp l1 st).2.1).2.2 ∧
      (match_servers edp (l1 ++ l2) st).2.1
        = (match_servers edp l2 (match_servers edp l1 st).2.1).2.1 := by
  induction l1 with
  | nil => intro st; simp [match_servers]
  | cons svr rest ih =>
    intro st
    rw [List.cons_append, (match_servers_cons edp svr (rest ++ l2) st).1,
      (match_servers_cons edp svr (rest ++ l2) st).2.1, (match_servers_cons edp svr rest st).1,
      (match_servers_cons edp svr rest st).2.1, (ih _).1, (ih _).2, List.append_assoc]
    exact ⟨rfl, rfl⟩


theorem match_servers_all {σ : Type} (edp : EDP σ) (servers : List RemoteServerAttributes)
    (st : σ) :
    (match_servers edp servers st).1 = servers.all (fun svr => svr.proxy.isSome) := by
  unfold match_servers
  rw [match_server_fold]
  simp

theorem match_servers_state {σ : Type} (edp : EDP σ) (servers : List RemoteServerAttributes) :
    ∀ st : σ, (match_servers edp servers st).2.1
      = (match_servers edp servers st).2.2.foldl edp.assignRemoteEndpoints st := by
  induction servers with
  | nil => intro st; rfl
  | cons svr rest ih =>
    intro st
    rw [(match_servers_cons edp svr rest st).1, (match_servers_cons edp svr rest st).2.1,
      List.foldl_append, ih]

theorem mem_call_for {σ : Type} (edp : EDP σ) (st : σ) (svr : RemoteServerAttributes)
    (p : ParticipantProxyData) :
    p ∈ call_for edp st svr ↔ svr.proxy = some p ∧ edp.areRemoteEndpointsMatched st p = false := by
  unfold call_for
  cases hp : svr.proxy with
  | none => simp
  | some proxy =>
    by_cases hm : edp.areRemoteEndpointsMatched st proxy = true
    · simp only [hm, if_true, List.not_mem_nil, Option.some.injEq, false_iff, not_and]
      intro h; rw [← h, hm]; simp
    · simp only [hm, Bool.false_eq_true, if_false, List.mem_singleton, Option.some.injEq]
      constructor
      · intro h; rw [h]; exact ⟨rfl, by simpa using hm⟩
      · intro h; exact h.1.symm

theorem match_servers_independent {σ : Type} (edp : EDP σ)
    (hframe : ∀ (s : σ) (p q : ParticipantProxyData), p ≠ q →
      edp.areRemoteEndpointsMatched (edp.assignRemoteEndpoints s p) q
        = edp.areRemoteEndpointsMatched s q)
    (servers : List RemoteServerAttributes) :
    ∀ st : σ, (servers.filterMap (fun svr => svr.proxy)).Nodup →
      (match_servers edp servers st).2.2
        = (servers.filterMap (fun svr => svr.proxy)).filter
            (fun p => !edp.areRemoteEndpointsMatched st p) := by
  induction servers with
  | nil => intro st _; rfl
  | cons svr rest ih =>
    intro st hnd
    rw [(match_servers_cons edp svr rest st).1]
    cases hp : svr.proxy with
    | none =>
      have hfm : (svr :: rest).filterMap (fun svr => svr.proxy)
          = rest.filterMap (fun svr => svr.proxy) := by
        simp [List.filterMap_cons, hp]
      rw [hfm] at hnd ⊢
      simp only [call_for, hp, List.foldl_nil, List.nil_append]
      exact ih st hnd
    | some proxy =>
      have hfm : (svr :: rest).filterMap (fun svr => svr.proxy)
          = proxy :: rest.filterMap (fun svr => svr.proxy) := by
        simp [List.filterMap_cons, hp]
      rw [hfm] at hnd ⊢
      obtain ⟨hnot, hnd'⟩ := List.nodup_cons.1 hnd
      by_cases hm : edp.areRemoteEndpointsMatched st proxy = true
      · simp only [call_for, hp, hm, if_true, List.foldl_nil, List.nil_append]
        rw [ih st hnd', List.filter_cons]
        simp [hm]
      · simp only [call_for, hp, hm, Bool.false_eq_true, if_false, List.foldl_cons,
          List.foldl_nil]
        rw [ih _ hnd', List.filter_cons]
        have hm' : edp.areRemoteEndpointsMatched st proxy = false := by simpa using hm
        simp only [hm', Bool.not_false, if_true, List.singleton_append, List.cons.injEq,
          true_and]
        apply List.filter_congr
        intro q hq
        have hne : proxy ≠ q := fun h => hnot (h ▸ hq)
        rw [hframe st proxy q hne]

/-- C16: `match_servers_EDP_endpoints` returns true exactly when every configured discovery
server has a non-null proxy, so it returns true for an empty server list.  It goes through
the servers in order and calls `assignRemoteEndpoints` for a server exactly when its proxy is
not null and the remote endpoints of the proxy are not matched when the server is examined
(that is, after the calls made for the servers before it); the endpoint discovery is changed
by these calls only.  When a call for one proxy does not change whether another proxy is
matched and no two servers share a proxy, the calls are those for the servers whose proxy is
not null and not matched when the function is entered. -/
theorem match_servers_true_iff_all_discovered {σ : Type} (edp : EDP σ) (c : PDPClient)
    (st : σ) :
    ((c.match_servers_EDP_endpoints edp st).1 = true ↔
      ∀ svr ∈ c.m_DiscoveryServers, svr.proxy ≠ none) ∧
    (c.m_DiscoveryServers = [] → (c.match_servers_EDP_endpoints edp st).1 = true) ∧
    (∀ (before after : List RemoteServerAttributes) (svr : RemoteServerAttributes),
      c.m_DiscoveryServers = before ++ svr :: after →
      (c.match_servers_EDP_endpoints edp st).2.2
        = (match_servers edp before st).2.2
          ++ call_for edp (match_servers edp before st).2.1 svr
          ++ (match_servers edp after
              ((call_for edp (match_servers edp before st).2.1 svr).foldl
                edp.assignRemoteEndpoints (match_servers edp before st).2.1)).2.2) ∧
    (∀ (s : σ) (svr : RemoteServerAttributes) (p : ParticipantProxyData),
      p ∈ call_for edp s svr ↔
        svr.proxy = some p ∧ edp.areRemoteEndpointsMatched s p = false) ∧
    (c.match_servers_EDP_endpoints edp st).2.1
      = (c.match_servers_EDP_endpoints edp st).2.2.foldl edp.assignRemoteEndpoints st ∧
    ((∀ (s : σ) (p q : ParticipantProxyData), p ≠ q →
        edp.areRemoteEndpointsMatched (edp.assignRemoteEndpoints s p) q
          = edp.areRemoteEndpointsMatched s q) →
      (c.m_DiscoveryServers.filterMap (fun svr => svr.proxy)).Nodup →
      (c.match_servers_EDP_endpoints edp st).2.2
        = (c.m_DiscoveryServers.filterMap (fun svr => svr.proxy)).filter
            (fun p => !edp.areRemoteEndpointsMatched st p)) := by
  unfold PDPClient.match_servers_EDP_endpoints
  refine ⟨?_, ?_, ?_, mem_call_for edp, match_servers_state edp _ st, ?_⟩
  · rw [match_servers_all]
    simp [Option.isSome_iff_ne_none]
  · intro h
    rw [h]
    rfl
  · intro before after svr h
    rw [h, (match_servers_append edp before (svr :: after) st).1,
      (match_servers_cons edp svr after _).1, List.append_assoc]
  · intro hframe hnd
    exact match_servers_independent edp hframe _ st hnd

/-- Witness of C16: the client with servers 10 (discovered) and 20 (not discovered), while
nothing is matched yet: one call, for the proxy of server 10, and the result is false. -/
theorem match_servers_true_iff_all_discovered_witness :
    (test_client.match_servers_EDP_endpoints test_edp []).2.2
        = (test_client.m_DiscoveryServers.filterMap (fun svr => svr.proxy)).filter
            (fun p => !test_edp.areRemoteEndpointsMatched [] p) ∧
    (test_client.match_servers_EDP_endpoints test_edp []).1 = false ∧
    (test_client.match_servers_EDP_endpoints test_edp []).2.2.length = 1 :=
  ⟨(match_servers_true_iff_all_discovered test_edp test_client []).2.2.2.2.2
      (by
        intro s p q hpq
        show decide (q ∈ s ++ [p]) = decide (q ∈ s)
        simp [Ne.symm hpq])
      (by decide),
    by decide, by decide⟩


theorem addressed_servers_eq (c : PDPClient) :
    c.addressed_servers
      = if c._serverPing then c.m_DiscoveryServers.filter (fun svr => svr.proxy.isNone)
        else c.m_DiscoveryServers := by
  unfold PDPClient.addressed_servers
  cases c._serverPing <;> simp

/-- C17: in `announceParticipantState` with `dispose = false` and `new_change = false`, when
the history of the PDP writer holds the participant data (`get_min_change` succeeds after the
call of the base class), that data is sent once, to the PDP readers of every configured
discovery server if `_serverPing` is false and of the servers whose proxy is null only if
`_serverPing` is true, at the multicast and unicast metatraffic locators of those servers;
after the call `_serverPing` is false and nothing else but the history is changed.  With
`dispose = true` the client, `_serverPing` included, is left as it was. -/
theorem announcement_addresses_servers (c : PDPClient) (base : WriterHistory → WriterHistory)
    (created : Option CacheChange_t) (sent new_change : Bool) (pPD : CacheChange_t)
    (h : (base c.mp_PDPWriterHistory).get_min_change = some pPD) :
    (c.announceParticipantState false false base created sent).2
      = [PDPEffect.add_data pPD
          ((if c._serverPing then c.m_DiscoveryServers.filter (fun svr => svr.proxy.isNone)
            else c.m_DiscoveryServers).map RemoteServerAttributes.GetPDPReader)
          ((if c._serverPing then c.m_DiscoveryServers.filter (fun svr => svr.proxy.isNone)
            else c.m_DiscoveryServers).map (fun svr =>
              svr.metatrafficMulticastLocatorList ++ svr.metatrafficUnicastLocatorList)).flatten]
        ++ (if sent then []
          else [PDPEffect.logError "Error sending announcement from client to servers"]) ∧
    (c.announceParticipantState false false base created sent).1._serverPing = false ∧
    (c.announceParticipantState false false base created sent).1
      = { c with mp_PDPWriterHistory := base c.mp_PDPWriterHistory, _serverPing := false } ∧
    (c.announceParticipantState new_change true base created sent).1 = c ∧
    (c.announceParticipantState new_change true base created sent).1._serverPing
      = c._serverPing := by
  refine ⟨?_, ?_, ?_, ?_, ?_⟩
  · unfold PDPClient.announceParticipantState
    simp only [Bool.false_eq_true, if_false, h]
    rw [addressed_servers_eq]
  · unfold PDPClient.announceParticipantState
    simp only [Bool.false_eq_true, if_false, h]
  · unfold PDPClient.announceParticipantState
    simp only [Bool.false_eq_true, if_false, h]
  · unfold PDPClient.announceParticipantState
    cases created <;> simp
  · unfold PDPClient.announceParticipantState
    cases created <;> simp

/-- Witness of C17: the client that has pinged, with server 10 discovered and server 20 not:
the announcement goes to the PDP reader of server 20 only, and the ping flag is cleared. -/
theorem announcement_addresses_servers_witness :
    (test_client.announceParticipantState false false id none true).2
      = [PDPEffect.add_data ⟨ChangeKind_t.ALIVE, 5, 1, none⟩
          [⟨20, EntityId_t.c_EntityId_SPDPReader⟩] [4, 3]] ∧
    (test_client.announceParticipantState false false id none true).1._serverPing = false ∧
    ({ test_client with _serverPing := false }.announceParticipantState false false id none
        true).2
      = [PDPEffect.add_data ⟨ChangeKind_t.ALIVE, 5, 1, none⟩
          [⟨10, EntityId_t.c_EntityId_SPDPReader⟩, ⟨20, EntityId_t.c_EntityId_SPDPReader⟩]
          [2, 1, 4, 3]] :=
  ⟨by decide,
    (announcement_addresses_servers test_client id none true false
      ⟨ChangeKind_t.ALIVE, 5, 1, none⟩ rfl).2.1,
    by decide⟩

/-! ## The listener of the subscribing participant -/

theorem listener_lost_branch (l : SubscribingParticipant.Listener)
    (status : LivelinessChangedStatus) (h : status.alive_count_change ≠ 1) :
    l.on_liveliness_changed status
      = { l with times_liveliness_lost_ := (l.times_liveliness_lost_ + 1) % 2 ^ 32 } := by
  unfold SubscribingParticipant.Listener.on_liveliness_changed
  have : (status.alive_count_change == 1) = false := by simpa using h
  rw [this]
  rfl

theorem listener_recovered_branch (l : SubscribingParticipant.Listener)
    (status : LivelinessChangedStatus) (h : status.alive_count_change = 1) :
    l.on_liveliness_changed status
      = { l with
          times_liveliness_recovered_ := (l.times_liveliness_recovered_ + 1) % 2 ^ 32 } := by
  unfold SubscribingParticipant.Listener.on_liveliness_changed
  have : (status.alive_count_change == 1) = true := by simpa using h
  rw [this]
  rfl

theorem wrap_succ (n : Nat) (h : n < 2 ^ 32 - 1) : (n + 1) % 2 ^ 32 = n + 1 := by
  apply Nat.mod_eq_of_lt
  omega

/-- C19: the listener of `SubscribingParticipant` counts a status with
`alive_count_change = +1` and `not_alive_count_change = -1` as one recovery and no loss, and a
status with `alive_count_change = -1` and `not_alive_count_change = +1` as one loss and no
recovery.  The counters are `unsigned int`: the counter concerned goes from `n` to
`(n + 1) mod 2^32`, which is `n + 1` unless `n` is the largest value, and the other counter
keeps its value.  These are the statuses the lease monitor delivers, with no change pending,
for an assertion reaching an entry that is not alive and for the expiry of the deadline of one
entry. -/
theorem listener_counts_recovery_and_loss (l : SubscribingParticipant.Listener)
    (status : LivelinessChangedStatus) :
    (status.alive_count_change = 1 → status.not_alive_count_change = -1 →
      (l.on_liveliness_changed status).times_liveliness_recovered_
        = (l.times_liveliness_recovered_ + 1) % 2 ^ 32 ∧
      (l.times_liveliness_recovered_ < 2 ^ 32 - 1 →
        (l.on_liveliness_changed status).times_liveliness_recovered_
          = l.times_liveliness_recovered_ + 1) ∧
      (l.on_liveliness_changed status).times_liveliness_lost_ = l.times_liveliness_lost_) ∧
    (status.alive_count_change = -1 → status.not_alive_count_change = 1 →
      (l.on_liveliness_changed status).times_liveliness_lost_
        = (l.times_liveliness_lost_ + 1) % 2 ^ 32 ∧
      (l.times_liveliness_lost_ < 2 ^ 32 - 1 →
        (l.on_liveliness_changed status).times_liveliness_lost_
          = l.times_liveliness_lost_ + 1) ∧
      (l.on_liveliness_changed status).times_liveliness_recovered_
        = l.times_liveliness_recovered_) ∧
    (∀ (m : ReaderMonitor) (e : LeaseEntry) (now : Nat), m.entries = [e] →
      m.status.alive_count_change = 0 → m.status.not_alive_count_change = 0 →
      (e.alive = false → ∃ st, (m.on_assertion e.writer now).delivered = m.delivered ++ [st] ∧
        st.alive_count_change = 1 ∧ st.not_alive_count_change = -1) ∧
      (e.expired now = true → ∃ st, (m.on_deadline_expired now).delivered = m.delivered ++ [st] ∧
        st.alive_count_change = -1 ∧ st.not_alive_count_change = 1)) := by
  refine ⟨?_, ?_, ?_⟩
  · intro h _
    rw [listener_recovered_branch l status h]
    exact ⟨rfl, fun hn => wrap_succ _ hn, rfl⟩
  · intro h _
    rw [listener_lost_branch l status (by rw [h]; decide)]
    exact ⟨rfl, fun hn => wrap_succ _ hn, rfl⟩
  · intro m e now he h1 h2
    constructor
    · intro ha
      rw [assert_single_not_alive m e now he ha]
      exact ⟨_, rfl, by simp [h1], by simp [h2]⟩
    · intro hx
      rw [expire_single m e now he hx]
      exact ⟨_, rfl, by simp [h1], by simp [h2]⟩

/-- Witness of C19: a listener that counted two recoveries and one loss receives the status
of a recovery and the status of a loss; a listener whose recovery counter holds the largest
`unsigned int` receives the status of a recovery and the counter is 0. -/
theorem listener_counts_recovery_and_loss_witness :
    ((SubscribingParticipant.Listener.on_liveliness_changed ⟨1, 2⟩
          ⟨1, 0, 1, -1, some ⟨1, 1⟩⟩).times_liveliness_recovered_ = 2 + 1 ∧
      (SubscribingParticipant.Listener.on_liveliness_changed ⟨1, 2⟩
          ⟨1, 0, 1, -1, some ⟨1, 1⟩⟩).times_liveliness_lost_ = 1) ∧
    ((SubscribingParticipant.Listener.on_liveliness_changed ⟨1, 2⟩
          ⟨0, 1, -1, 1, some ⟨1, 1⟩⟩).times_liveliness_lost_ = 1 + 1 ∧
      (SubscribingParticipant.Listener.on_liveliness_changed ⟨1, 2⟩
          ⟨0, 1, -1, 1, some ⟨1, 1⟩⟩).times_liveliness_recovered_ = 2) ∧
    (SubscribingParticipant.Listener.on_liveliness_changed ⟨1, 4294967295⟩
          ⟨1, 0, 1, -1, some ⟨1, 1⟩⟩).times_liveliness_recovered_
      = (4294967295 + 1) % 2 ^ 32 ∧
    (4294967295 + 1) % 2 ^ 32 = 0 :=
  ⟨⟨((listener_counts_recovery_and_loss ⟨1, 2⟩ ⟨1, 0, 1, -1, some ⟨1, 1⟩⟩).1 rfl rfl).2.1
        (by decide),
      ((listener_counts_recovery_and_loss ⟨1, 2⟩ ⟨1, 0, 1, -1, some ⟨1, 1⟩⟩).1 rfl rfl).2.2⟩,
    ⟨((listener_counts_recovery_and_loss ⟨1, 2⟩ ⟨0, 1, -1, 1, some ⟨1, 1⟩⟩).2.1 rfl rfl).2.1
        (by decide),
      ((listener_counts_recovery_and_loss ⟨1, 2⟩ ⟨0, 1, -1, 1, some ⟨1, 1⟩⟩).2.1 rfl rfl).2.2⟩,
    ((listener_counts_recovery_and_loss ⟨1, 4294967295⟩ ⟨1, 0, 1, -1, some ⟨1, 1⟩⟩).1
      rfl rfl).1,
    by decide⟩

theorem callback_counts_once (l : SubscribingParticipant.Listener)
    (status : LivelinessChangedStatus) :
    ((l.on_liveliness_changed status).times_liveliness_recovered_
        = (l.times_liveliness_recovered_ + 1) % 2 ^ 32 ∧
      (l.on_liveliness_changed status).times_liveliness_lost_ = l.times_liveliness_lost_) ∨
    ((l.on_liveliness_changed status).times_liveliness_recovered_
        = l.times_liveliness_recovered_ ∧
      (l.on_liveliness_changed status).times_liveliness_lost_
        = (l.times_liveliness_lost_ + 1) % 2 ^ 32) := by
  by_cases h : status.alive_count_change = 1
  · left; rw [listener_recovered_branch l status h]; exact ⟨rfl, rfl⟩
  · right; rw [listener_lost_branch l status h]; exact ⟨rfl, rfl⟩

theorem after_counts_mod (callbacks : List (Nat × LivelinessChangedStatus)) :
    ∀ s : SubscribingParticipant,
      ((s.after callbacks).times_liveliness_recovered
          + (s.after callbacks).times_liveliness_lost) % 2 ^ 32
        = (s.times_liveliness_recovered + s.times_liveliness_lost + callbacks.length)
            % 2 ^ 32 := by
  induction callbacks with
  | nil => intro s; rfl
  | cons c rest ih =>
    intro s
    show (((s.on_liveliness_changed c.1 c.2).after rest).times_liveliness_recovered
      + ((s.on_liveliness_changed c.1 c.2).after rest).times_liveliness_lost) % 2 ^ 32 = _
    rw [ih]
    have h := callback_counts_once s.listener_ c.2
    simp only [SubscribingParticipant.times_liveliness_recovered,
      SubscribingParticipant.times_liveliness_lost,
      SubscribingParticipant.on_liveliness_changed, List.length_cons]
    have hM : (2 : Nat) ^ 32 = 4294967296 := by norm_num
    rw [hM] at h ⊢
    omega

theorem after_counts_exact (callbacks : List (Nat × LivelinessChangedStatus)) :
    ∀ s : SubscribingParticipant,
      s.listener_.times_liveliness_recovered_ < 2 ^ 32 →
      s.listener_.times_liveliness_lost_ < 2 ^ 32 →
      (s.after callbacks).times_liveliness_recovered
          = (s.times_liveliness_recovered
              + callbacks.countP (fun c => c.2.alive_count_change == 1)) % 2 ^ 32 ∧
      (s.after callbacks).times_liveliness_lost
          = (s.times_liveliness_lost
              + callbacks.countP (fun c => !(c.2.alive_count_change == 1))) % 2 ^ 32 := by
  have hM : (2 : Nat) ^ 32 = 4294967296 := by norm_num
  induction callbacks with
  | nil =>
    intro s h1 h2
    simp only [SubscribingParticipant.times_liveliness_recovered,
      SubscribingParticipant.times_liveliness_lost, SubscribingParticipant.after,
      List.foldl_nil, List.countP_nil, Nat.add_zero]
    exact ⟨(Nat.mod_eq_of_lt h1).symm, (Nat.mod_eq_of_lt h2).symm⟩
  | cons c rest ih =>
    intro s h1 h2
    show ((s.on_liveliness_changed c.1 c.2).after rest).times_liveliness_recovered = _ ∧
      ((s.on_liveliness_changed c.1 c.2).after rest).times_liveliness_lost = _
    by_cases h : c.2.alive_count_change = 1
    · have hb : (c.2.alive_count_change == 1) = true := by simpa using h
      have e : s.on_liveliness_changed c.1 c.2
          = { s with listener_ := { s.listener_ with
                times_liveliness_recovered_ :=
                  (s.listener_.times_liveliness_recovered_ + 1) % 2 ^ 32 } } := by
        unfold SubscribingParticipant.on_liveliness_changed
        rw [listener_recovered_branch _ _ h]
      rw [e]
      obtain ⟨i1, i2⟩ := ih
        { s with listener_ := { s.listener_ with
            times_liveliness_recovered_ :=
              (s.listener_.times_liveliness_recovered_ + 1) % 2 ^ 32 } }
        (Nat.mod_lt _ (show 0 < 2 ^ 32 by norm_num)) h2
      simp only [SubscribingParticipant.times_liveliness_recovered,
        SubscribingParticipant.times_liveliness_lost] at i1 i2 ⊢
      rw [i1, i2]
      simp only [List.countP_cons, hb, if_true,
        Bool.not_true, Bool.false_eq_true, if_false, Nat.add_zero]
      refine ⟨?_, ?_⟩ <;>
        first
        | trivial
        | rfl
        | (rw [Nat.mod_add_mod, Nat.add_right_comm, Nat.add_assoc])
    · have hb : (c.2.alive_count_change == 1) = false := by simpa using h
      have e : s.on_liveliness_changed c.1 c.2
          = { s with listener_ := { s.listener_ with
                times_liveliness_lost_ :=
                  (s.listener_.times_liveliness_lost_ + 1) % 2 ^ 32 } } := by
        unfold SubscribingParticipant.on_liveliness_changed
        rw [listener_lost_branch _ _ h]
      rw [e]
      obtain ⟨i1, i2⟩ := ih
        { s with listener_ := { s.listener_ with
            times_liveliness_lost_ := (s.listener_.times_liveliness_lost_ + 1) % 2 ^ 32 } }
        h1 (Nat.mod_lt _ (show 0 < 2 ^ 32 by norm_num))
      simp only [SubscribingParticipant.times_liveliness_recovered,
        SubscribingParticipant.times_liveliness_lost] at i1 i2 ⊢
      rw [i1, i2]
      simp only [List.countP_cons, hb,
        Bool.false_eq_true, if_false, Bool.not_false, if_true, Nat.add_zero]
      refine ⟨?_, ?_⟩ <;>
        first
        | trivial
        | rfl
        | (rw [Nat.mod_add_mod, Nat.add_right_comm, Nat.add_assoc])

theorem countP_add_countP_not {α : Type} (p : α → Bool) (l : List α) :
    l.countP p + l.countP (fun a => !(p a)) = l.length := by
  induction l with
  | nil => rfl
  | cons a t ih =>
    simp only [List.countP_cons, List.length_cons]
    cases p a <;> simp <;> omega

/-- The counters of the listener of a `SubscribingParticipant` as constructed, after a
sequence of callbacks, are the counts of the notifications modulo 2^32. -/
theorem listener_counters_of_counts (callbacks : List (Nat × LivelinessChangedStatus))
    (n m : Nat) (attr : SubscriberAttributes) (dom : Nat) (pol : MemoryManagementPolicy)
    (tenth : Duration_t) (name : String) :
    ((SubscribingParticipant.new n m attr dom pol tenth name).after
        callbacks).times_liveliness_recovered
      = (ReaderCounts.after (callbacks.map (fun c => c.2))).recovered % 2 ^ 32 ∧
    ((SubscribingParticipant.new n m attr dom pol tenth name).after
        callbacks).times_liveliness_lost
      = (ReaderCounts.after (callbacks.map (fun c => c.2))).lost % 2 ^ 32 := by
  have h := after_counts_exact callbacks (SubscribingParticipant.new n m attr dom pol tenth name)
    (by show 0 < 2 ^ 32; norm_num) (by show 0 < 2 ^ 32; norm_num)
  have z1 : (SubscribingParticipant.new n m attr dom pol tenth name).times_liveliness_recovered
      = 0 := rfl
  have z2 : (SubscribingParticipant.new n m attr dom pol tenth name).times_liveliness_lost
      = 0 := rfl
  rw [z1, z2, Nat.zero_add, Nat.zero_add] at h
  have key : ReaderCounts.after (callbacks.map (fun c => c.2))
      = ⟨(callbacks.map (fun c => c.2)).countP (fun st => !(st.alive_count_change == 1)),
         (callbacks.map (fun c => c.2)).countP (fun st => st.alive_count_change == 1)⟩ := by
    unfold ReaderCounts.after
    rw [listener_counts]
    simp
  rw [key, List.countP_map, List.countP_map]
  exact h

/-- C20: every `on_liveliness_changed` callback delivered to the listener of a
`SubscribingParticipant`, for whichever of its subscribers, increments exactly one of
`times_liveliness_recovered` and `times_liveliness_lost` (an `unsigned int`: from `n` to
`(n + 1) mod 2^32`) and changes nothing else in the participant.  So after any sequence of
callbacks the sum of the two counters has grown by the number of callbacks, modulo 2^32; for a
participant as constructed each counter is the number of callbacks of its sort modulo 2^32,
and when fewer than 2^32 callbacks were delivered the sum of the two counters is the number of
callbacks delivered. -/
theorem recovered_plus_lost_eq_callbacks (s : SubscribingParticipant)
    (callbacks : List (Nat × LivelinessChangedStatus)) :
    (∀ (sub : Nat) (status : LivelinessChangedStatus),
      (((s.on_liveliness_changed sub status).times_liveliness_recovered
            = (s.times_liveliness_recovered + 1) % 2 ^ 32 ∧
          (s.on_liveliness_changed sub status).times_liveliness_lost
            = s.times_liveliness_lost) ∨
        ((s.on_liveliness_changed sub status).times_liveliness_recovered
            = s.times_liveliness_recovered ∧
          (s.on_liveliness_changed sub status).times_liveliness_lost
            = (s.times_liveliness_lost + 1) % 2 ^ 32)) ∧
      { s.on_liveliness_changed sub status with listener_ := s.listener_ } = s) ∧
    ((s.after callbacks).times_liveliness_recovered
        + (s.after callbacks).times_liveliness_lost) % 2 ^ 32
      = (s.times_liveliness_recovered + s.times_liveliness_lost + callbacks.length) % 2 ^ 32 ∧
    (∀ n m attr dom pol tenth name,
      ((SubscribingParticipant.new n m attr dom pol tenth name).after
          callbacks).times_liveliness_recovered
        = callbacks.countP (fun c => c.2.alive_count_change == 1) % 2 ^ 32 ∧
      ((SubscribingParticipant.new n m attr dom pol tenth name).after
          callbacks).times_liveliness_lost
        = callbacks.countP (fun c => !(c.2.alive_count_change == 1)) % 2 ^ 32) ∧
    callbacks.countP (fun c => c.2.alive_count_change == 1)
        + callbacks.countP (fun c => !(c.2.alive_count_change == 1)) = callbacks.length ∧
    (callbacks.length < 2 ^ 32 → ∀ n m attr dom pol tenth name,
      ((SubscribingParticipant.new n m attr dom pol tenth name).after
          callbacks).times_liveliness_recovered
        + ((SubscribingParticipant.new n m attr dom pol tenth name).after
          callbacks).times_liveliness_lost = callbacks.length) := by
  have hsum := countP_add_countP_not (fun c : Nat × LivelinessChangedStatus =>
    c.2.alive_count_change == 1) callbacks
  have hnew : ∀ n m attr dom pol tenth name,
      ((SubscribingParticipant.new n m attr dom pol tenth name).after
          callbacks).times_liveliness_recovered
        = callbacks.countP (fun c => c.2.alive_count_change == 1) % 2 ^ 32 ∧
      ((SubscribingParticipant.new n m attr dom pol tenth name).after
          callbacks).times_liveliness_lost
        = callbacks.countP (fun c => !(c.2.alive_count_change == 1)) % 2 ^ 32 := by
    intro n m attr dom pol tenth name
    have h := after_counts_exact callbacks (SubscribingParticipant.new n m attr dom pol tenth name)
      (by show 0 < 2 ^ 32; norm_num) (by show 0 < 2 ^ 32; norm_num)
    have z1 : (SubscribingParticipant.new n m attr dom pol tenth name).times_liveliness_recovered
        = 0 := rfl
    have z2 : (SubscribingParticipant.new n m attr dom pol tenth name).times_liveliness_lost
        = 0 := rfl
    rw [z1, z2, Nat.zero_add, Nat.zero_add] at h
    exact h
  refine ⟨fun sub status => ⟨callback_counts_once s.listener_ status, rfl⟩,
    after_counts_mod callbacks s, hnew, hsum, ?_⟩
  intro hlen n m attr dom pol tenth name
  obtain ⟨h1, h2⟩ := hnew n m attr dom pol tenth name
  rw [h1, h2]
  have hM : (2 : Nat) ^ 32 = 4294967296 := by norm_num
  rw [hM] at hlen ⊢
  omega

/-- Witness of C20: three callbacks, for two subscribers, delivered to a participant as
constructed: two recoveries and one loss. -/
theorem recovered_plus_lost_eq_callbacks_witness :
    ((SubscribingParticipant.new 2 2
          ⟨⟨TopicKind_t.NO_KEY, "", "", ⟨HistoryQosPolicyKind.KEEP_LAST_HISTORY_QOS, 1⟩⟩,
            ⟨⟨DurabilityQosPolicyKind.VOLATILE_DURABILITY_QOS⟩, ⟨ReliabilityKind.Reliable⟩,
              ⟨LivelinessKind.Automatic, ⟨0, 0⟩, ⟨0, 0⟩⟩⟩,
            ⟨⟨0, 0⟩⟩, MemoryManagementPolicy.PREALLOCATED_MEMORY_MODE⟩
          0 MemoryManagementPolicy.PREALLOCATED_MEMORY_MODE ⟨0, 100000000⟩ "HelloWorldType").after
        [(0, ⟨1, 0, 1, -1, some ⟨1, 0⟩⟩), (1, ⟨1, 0, 1, -1, some ⟨1, 1⟩⟩),
         (0, ⟨0, 1, -1, 1, some ⟨1, 0⟩⟩)]).times_liveliness_recovered
      + ((SubscribingParticipant.new 2 2
          ⟨⟨TopicKind_t.NO_KEY, "", "", ⟨HistoryQosPolicyKind.KEEP_LAST_HISTORY_QOS, 1⟩⟩,
            ⟨⟨DurabilityQosPolicyKind.VOLATILE_DURABILITY_QOS⟩, ⟨ReliabilityKind.Reliable⟩,
              ⟨LivelinessKind.Automatic, ⟨0, 0⟩, ⟨0, 0⟩⟩⟩,
            ⟨⟨0, 0⟩⟩, MemoryManagementPolicy.PREALLOCATED_MEMORY_MODE⟩
          0 MemoryManagementPolicy.PREALLOCATED_MEMORY_MODE ⟨0, 100000000⟩ "HelloWorldType").after
        [(0, ⟨1, 0, 1, -1, some ⟨1, 0⟩⟩), (1, ⟨1, 0, 1, -1, some ⟨1, 1⟩⟩),
         (0, ⟨0, 1, -1, 1, some ⟨1, 0⟩⟩)]).times_liveliness_lost
      = [((0 : Nat), (⟨1, 0, 1, -1, some ⟨1, 0⟩⟩ : LivelinessChangedStatus)),
          (1, ⟨1, 0, 1, -1, some ⟨1, 1⟩⟩), (0, ⟨0, 1, -1, 1, some ⟨1, 0⟩⟩)].length :=
  (recovered_plus_lost_eq_callbacks
    (SubscribingParticipant.new 0 0
      ⟨⟨TopicKind_t.NO_KEY, "", "", ⟨HistoryQosPolicyKind.KEEP_LAST_HISTORY_QOS, 1⟩⟩,
        ⟨⟨DurabilityQosPolicyKind.VOLATILE_DURABILITY_QOS⟩, ⟨ReliabilityKind.Reliable⟩,
          ⟨LivelinessKind.Automatic, ⟨0, 0⟩, ⟨0, 0⟩⟩⟩,
        ⟨⟨0, 0⟩⟩, MemoryManagementPolicy.PREALLOCATED_MEMORY_MODE⟩
      0 MemoryManagementPolicy.PREALLOCATED_MEMORY_MODE ⟨0, 0⟩ "")
    [(0, ⟨1, 0, 1, -1, some ⟨1, 0⟩⟩), (1, ⟨1, 0, 1, -1, some ⟨1, 1⟩⟩),
     (0, ⟨0, 1, -1, 1, some ⟨1, 0⟩⟩)]).2.2.2.2 (by decide) 2 2
    ⟨⟨TopicKind_t.NO_KEY, "", "", ⟨HistoryQosPolicyKind.KEEP_LAST_HISTORY_QOS, 1⟩⟩,
      ⟨⟨DurabilityQosPolicyKind.VOLATILE_DURABILITY_QOS⟩, ⟨ReliabilityKind.Reliable⟩,
        ⟨LivelinessKind.Automatic, ⟨0, 0⟩, ⟨0, 0⟩⟩⟩,
      ⟨⟨0, 0⟩⟩, MemoryManagementPolicy.PREALLOCATED_MEMORY_MODE⟩
    0 MemoryManagementPolicy.PREALLOCATED_MEMORY_MODE ⟨0, 100000000⟩ "HelloWorldType"

/-! ## The test participants and the example program -/

/-- C21: the listener of `SubscribingParticipant` counts every status whose
`alive_count_change` is different from 1 as a loss and not as a recovery; in particular the
status of an aggregated notification with `alive_count_change = 2` and
`not_alive_count_change = -2`, a net gain of two alive writers, increments
`times_liveliness_lost` (an `unsigned int`: from `n` to `(n + 1) mod 2^32`, which is `n + 1`
unless `n` is the largest value) and leaves `times_liveliness_recovered` as it was. -/
theorem listener_counts_gain_of_two_as_loss (l : SubscribingParticipant.Listener)
    (status : LivelinessChangedStatus) (h : status.alive_count_change ≠ 1) :
    (l.on_liveliness_changed status).times_liveliness_lost_
      = (l.times_liveliness_lost_ + 1) % 2 ^ 32 ∧
    (l.times_liveliness_lost_ < 2 ^ 32 - 1 →
      (l.on_liveliness_changed status).times_liveliness_lost_ = l.times_liveliness_lost_ + 1) ∧
    (l.on_liveliness_changed status).times_liveliness_recovered_
      = l.times_liveliness_recovered_ ∧
    (∀ (alive_count not_alive_count : Int) (handle : Option WriterId),
      (l.on_liveliness_changed
          ⟨alive_count, not_alive_count, 2, -2, handle⟩).times_liveliness_lost_
        = (l.times_liveliness_lost_ + 1) % 2 ^ 32 ∧
      (l.on_liveliness_changed
          ⟨alive_count, not_alive_count, 2, -2, handle⟩).times_liveliness_recovered_
        = l.times_liveliness_recovered_) := by
  refine ⟨?_, ?_, ?_, ?_⟩
  · rw [listener_lost_branch l status h]
  · intro hn
    rw [listener_lost_branch l status h]
    exact wrap_succ _ hn
  · rw [listener_lost_branch l status h]
  · intro a b handle
    rw [listener_lost_branch l ⟨a, b, 2, -2, handle⟩ (show (2 : Int) ≠ 1 by decide)]
    exact ⟨rfl, rfl⟩

/-- Witness of C21: two writers that were not alive are reported alive by one notification to
a listener that counted no loss so far. -/
theorem listener_counts_gain_of_two_as_loss_witness :
    (SubscribingParticipant.Listener.on_liveliness_changed ⟨0, 0⟩
        ⟨2, 0, 2, -2, some ⟨1, 1⟩⟩).times_liveliness_lost_ = 0 + 1 ∧
    (SubscribingParticipant.Listener.on_liveliness_changed ⟨0, 0⟩
        ⟨2, 0, 2, -2, some ⟨1, 1⟩⟩).times_liveliness_recovered_ = 0 :=
  ⟨(listener_counts_gain_of_two_as_loss ⟨0, 0⟩ ⟨2, 0, 2, -2, some ⟨1, 1⟩⟩ (by decide)).2.1
      (by decide),
    (listener_counts_gain_of_two_as_loss ⟨0, 0⟩ ⟨2, 0, 2, -2, some ⟨1, 1⟩⟩ (by decide)).2.2.1⟩

theorem effect_times_liveliness_lost (p : PublishingParticipant)
    (c : PublishingParticipant.Call) :
    (p.effect c).times_liveliness_lost
      = if c.is_on_liveliness_lost then (p.times_liveliness_lost + 1) % 2 ^ 32
        else p.times_liveliness_lost := by
  cases c with
  | on_liveliness_lost pub status =>
    simp only [PublishingParticipant.Call.is_on_liveliness_lost, if_true]
    rfl
  | init_publisher index created =>
    simp only [PublishingParticipant.Call.is_on_liveliness_lost, Bool.false_eq_true, if_false]
    show (p.init_publisher index created).2.listener_.times_liveliness_lost = _
    unfold PublishingParticipant.init_publisher
    split
    · rfl
    · split
      · rfl
      · cases created <;> rfl
  | onPublicationMatched pub is_matched =>
    simp only [PublishingParticipant.Call.is_on_liveliness_lost, Bool.false_eq_true, if_false,
      PublishingParticipant.effect]
    cases is_matched
    · simp only [Bool.false_eq_true, if_false, PublishingParticipant.unmatched,
        PublishingParticipant.times_liveliness_lost]
    · simp only [if_true, PublishingParticipant.matched,
        PublishingParticipant.times_liveliness_lost]
  | _ =>
    first
    | (simp only [PublishingParticipant.Call.is_on_liveliness_lost, Bool.false_eq_true,
        if_false, PublishingParticipant.effect]; done)
    | (simp only [PublishingParticipant.Call.is_on_liveliness_lost, Bool.false_eq_true,
        if_false]; rfl)

theorem call_eq_some (p p' : PublishingParticipant) (c : PublishingParticipant.Call)
    (h : p.call c = some p') : p' = p.effect c := by
  unfold PublishingParticipant.call at h
  by_cases hr : p.returns c = true
  · rw [if_pos hr] at h
    exact (Option.some.inj h).symm
  · rw [if_neg hr] at h
    cases h

theorem call_times_liveliness_lost (p p' : PublishingParticipant)
    (c : PublishingParticipant.Call) (h : p.call c = some p') :
    p'.times_liveliness_lost
      = if c.is_on_liveliness_lost then (p.times_liveliness_lost + 1) % 2 ^ 32
        else p.times_liveliness_lost := by
  rw [call_eq_some p p' c h]
  exact effect_times_liveliness_lost p c

theorem calls_times_liveliness_lost (cs : List PublishingParticipant.Call) :
    ∀ p p' : PublishingParticipant, p.calls cs = some p' →
      p'.times_liveliness_lost % 2 ^ 32
        = (p.times_liveliness_lost
            + (cs.filter PublishingParticipant.Call.is_on_liveliness_lost).length) % 2 ^ 32 := by
  induction cs with
  | nil =>
    intro p p' h
    rw [← Option.some.inj h]; rfl
  | cons c rest ih =>
    intro p p' h
    unfold PublishingParticipant.calls at h
    cases hc : p.call c with
    | none => rw [hc] at h; cases h
    | some q =>
      rw [hc] at h
      rw [ih q p' h, call_times_liveliness_lost p q c hc, List.filter_cons]
      cases c.is_on_liveliness_lost
      · rfl
      · simp only [if_true, List.length_cons]
        rw [Nat.mod_add_mod, Nat.add_right_comm, Nat.add_assoc]

theorem calls_times_lt (cs : List PublishingParticipant.Call) :
    ∀ p p' : PublishingParticipant, p.calls cs = some p' →
      p.times_liveliness_lost < 2 ^ 32 → p'.times_liveliness_lost < 2 ^ 32 := by
  induction cs with
  | nil =>
    intro p p' h hp
    rw [← Option.some.inj h]; exact hp
  | cons c rest ih =>
    intro p p' h hp
    unfold PublishingParticipant.calls at h
    cases hc : p.call c with
    | none => rw [hc] at h; cases h
    | some q =>
      rw [hc] at h
      apply ih q p' h
      rw [call_times_liveliness_lost p q c hc]
      cases c.is_on_liveliness_lost
      · exact hp
      · exact Nat.mod_lt _ (show 0 < 2 ^ 32 by norm_num)

theorem returns_of_always_returns (p : PublishingParticipant)
    (c : PublishingParticipant.Call) (h : c.always_returns = true) : p.returns c = true := by
  cases c with
  | send_sample index => cases h
  | assert_liveliness index => cases h
  | wait_discovery timeout =>
    show (timeout != 0 || p.matched_ == p.num_publishers_) = true
    have h' : (timeout != 0) = true := h
    rw [h']
    rfl
  | _ => rfl

theorem calls_defined (cs : List PublishingParticipant.Call) :
    ∀ p : PublishingParticipant, (∀ c ∈ cs, c.always_returns = true) →
      (p.calls cs).isSome = true := by
  induction cs with
  | nil => intro p _; rfl
  | cons c rest ih =>
    intro p h
    have hc := returns_of_always_returns p c (h c (List.mem_cons_self _ _))
    have hr : ∀ c' ∈ rest, c'.always_returns = true :=
      fun c' hc' => h c' (List.mem_cons_of_mem _ hc')
    unfold PublishingParticipant.calls PublishingParticipant.call
    rw [if_pos hc]
    exact ih _ hr

/-- C22: `PublishingParticipant::times_liveliness_lost()` is 0 for a participant as constructed;
every `on_liveliness_lost` callback increments it (an `unsigned int`: from `n` to
`(n + 1) mod 2^32`, which is `n + 1` unless `n` is the largest value), whichever the publisher
and whatever `total_count` and `total_count_change` of the status; no other call on the
participant or its listener changes it.  So after any sequence of calls it is the number of
`on_liveliness_lost` callbacks delivered since construction, modulo 2^32, and that number
itself when fewer than 2^32 were delivered.  The callback always returns; a sequence of calls
has a result when each of its calls returns, which all do except `send_sample` and
`assert_liveliness` for an index without a publisher and `wait_discovery` without timeout
before the matches. -/
theorem times_liveliness_lost_counts_callbacks (p : PublishingParticipant)
    (cs : List PublishingParticipant.Call) :
    (∀ n m attr dom pol name,
      (PublishingParticipant.new n m attr dom pol name).times_liveliness_lost = 0) ∧
    (∀ (pub : Nat) (status : LivelinessLostStatus),
      p.call (PublishingParticipant.Call.on_liveliness_lost pub status)
        = some (p.on_liveliness_lost pub status) ∧
      (p.on_liveliness_lost pub status).times_liveliness_lost
        = (p.times_liveliness_lost + 1) % 2 ^ 32 ∧
      (p.times_liveliness_lost < 2 ^ 32 - 1 →
        (p.on_liveliness_lost pub status).times_liveliness_lost
          = p.times_liveliness_lost + 1)) ∧
    (∀ (c : PublishingParticipant.Call) (p' : PublishingParticipant),
      c.is_on_liveliness_lost = false → p.call c = some p' →
      p'.times_liveliness_lost = p.times_liveliness_lost) ∧
    (∀ p' : PublishingParticipant, p.calls cs = some p' →
      p'.times_liveliness_lost % 2 ^ 32
        = (p.times_liveliness_lost
            + (cs.filter PublishingParticipant.Call.is_on_liveliness_lost).length) % 2 ^ 32) ∧
    (∀ n m attr dom pol name (p' : PublishingParticipant),
      (PublishingParticipant.new n m attr dom pol name).calls cs = some p' →
      p'.times_liveliness_lost
          = (cs.filter PublishingParticipant.Call.is_on_liveliness_lost).length % 2 ^ 32 ∧
        ((cs.filter PublishingParticipant.Call.is_on_liveliness_lost).length < 2 ^ 32 →
          p'.times_liveliness_lost
            = (cs.filter PublishingParticipant.Call.is_on_liveliness_lost).length)) ∧
    ((∀ c ∈ cs, c.always_returns = true) → (p.calls cs).isSome = true) := by
  refine ⟨fun _ _ _ _ _ _ => rfl, fun _ _ => ⟨rfl, rfl, fun hn => wrap_succ _ hn⟩, ?_,
    calls_times_liveliness_lost cs p, ?_, calls_defined cs p⟩
  · intro c p' hc h
    rw [call_times_liveliness_lost p p' c h, hc]
    rfl
  · intro n m attr dom pol name p' h
    have hmod := calls_times_liveliness_lost cs _ p' h
    have z : (PublishingParticipant.new n m attr dom pol name).times_liveliness_lost = 0 := rfl
    rw [z, Nat.zero_add] at hmod
    have hlt : p'.times_liveliness_lost < 2 ^ 32 :=
      calls_times_lt cs _ p' h (by show 0 < 2 ^ 32; norm_num)
    rw [Nat.mod_eq_of_lt hlt] at hmod
    exact ⟨hmod, fun hn => by rw [hmod, Nat.mod_eq_of_lt hn]⟩

/-- Witness of C22: after `init_participant`, a setter, `init_publisher(0)`, an
`assert_liveliness(0)`, a match and two callbacks with different statuses for different
publishers, the counter is 2; `assert_liveliness(0)` before `init_publisher(0)` has no defined
result. -/
theorem times_liveliness_lost_counts_callbacks_witness :
    (∀ p' : PublishingParticipant,
      test_publishers.call (PublishingParticipant.Call.onPublicationMatched 7 true) = some p' →
      p'.times_liveliness_lost = test_publishers.times_liveliness_lost) ∧
    ((test_publishers.calls
        [PublishingParticipant.Call.liveliness_kind LivelinessKind.ManualByTopic,
         PublishingParticipant.Call.init_publisher 0 (some 11),
         PublishingParticipant.Call.assert_liveliness 0,
         PublishingParticipant.Call.onPublicationMatched 7 true,
         PublishingParticipant.Call.on_liveliness_lost 7 ⟨1, 1⟩,
         PublishingParticipant.Call.on_liveliness_lost 8 ⟨5, 0⟩]).map
        PublishingParticipant.times_liveliness_lost = some 2) ∧
    test_publishers.call (PublishingParticipant.Call.assert_liveliness 0) = none :=
  ⟨fun p' h => (times_liveliness_lost_counts_callbacks test_publishers []).2.2.1
      (PublishingParticipant.Call.onPublicationMatched 7 true) p' rfl h,
    by decide, by decide⟩

theorem atoi_range (s : String) : -(2 ^ 31) ≤ atoi s ∧ atoi s < 2 ^ 31 := by
  unfold atoi
  have h1 := Int.emod_nonneg (max (-(2 ^ 63)) (min (atoi_number s) (2 ^ 63 - 1)) + 2 ^ 31)
    (show (2 : Int) ^ 32 ≠ 0 by norm_num)
  have h2 := Int.emod_lt_of_pos (max (-(2 ^ 63)) (min (atoi_number s) (2 ^ 63 - 1)) + 2 ^ 31)
    (show (0 : Int) < 2 ^ 32 by norm_num)
  constructor
  · linarith
  · have e : (2 : Int) ^ 32 = 2 ^ 31 + 2 ^ 31 := by norm_num
    linarith

theorem atoi_of_int (s : String) (h1 : -(2 ^ 31) ≤ atoi_number s)
    (h2 : atoi_number s < 2 ^ 31) : atoi s = atoi_number s := by
  unfold atoi
  have e1 : min (atoi_number s) (2 ^ 63 - 1) = atoi_number s := by
    apply min_eq_left
    have : (2 : Int) ^ 31 ≤ 2 ^ 63 - 1 := by norm_num
    linarith
  have e2 : max (-(2 ^ 63)) (atoi_number s) = atoi_number s := by
    apply max_eq_right
    have : -((2 : Int) ^ 63) ≤ -(2 ^ 31) := by norm_num
    linarith
  rw [e1, e2, Int.emod_eq_of_lt]
  · ring
  · linarith
  · have e : (2 : Int) ^ 32 = 2 ^ 31 + 2 ^ 31 := by norm_num
    linarith

/-- C26: in `main`, for every publisher invocation with a valid kind name and more than three
arguments (`argc > 3`), `count` is `atoi(argv[2])`, the `atoi` of the kind name, which is 0
whatever `argv[3]` is; `sleep` is 1000 with exactly four arguments and `atoi(argv[3])` with
more than four, whatever `argv[4]` and the later arguments are.  So `run` of the publisher,
when `init` succeeds, is called with count 0.  The value of `atoi(argv[3])` is an `int`: the
number written in `argv[3]` when that number is within the range of `int`. -/
theorem count_is_atoi_of_kind_name (env : ExampleEnvironment) (prog : String)
    (k : LivelinessKind) (a3 a4 : String) (rest : List String) :
    atoi (kind_name k) = 0 ∧
    main_arguments [prog, "publisher", kind_name k, a3] = Except.ok ⟨1, 0, 1000, k⟩ ∧
    main_arguments (prog :: "publisher" :: kind_name k :: a3 :: a4 :: rest)
      = Except.ok ⟨1, 0, atoi a3, k⟩ ∧
    main env (prog :: "publisher" :: kind_name k :: a3 :: a4 :: rest)
      = ⟨0, [MainEvent.publisher_init k] ++
          (if env.publisher_init k then [MainEvent.publisher_run 0 (atoi a3)] else []) ++
          [MainEvent.stop_all, MainEvent.log_reset]⟩ ∧
    (-(2 ^ 31) ≤ atoi a3 ∧ atoi a3 < 2 ^ 31) ∧
    (-(2 ^ 31) ≤ atoi_number a3 → atoi_number a3 < 2 ^ 31 → atoi a3 = atoi_number a3) := by
  have h0 : atoi (kind_name k) = 0 := by cases k <;> decide
  have h1 : main_arguments [prog, "publisher", kind_name k, a3] = Except.ok ⟨1, 0, 1000, k⟩ := by
    unfold main_arguments
    simp [liveliness_of_kind_name, h0]
  have h2 : main_arguments (prog :: "publisher" :: kind_name k :: a3 :: a4 :: rest)
      = Except.ok ⟨1, 0, atoi a3, k⟩ := by
    unfold main_arguments
    simp [liveliness_of_kind_name, h0]
  refine ⟨h0, h1, h2, ?_, atoi_range a3, atoi_of_int a3⟩
  unfold main
  rw [h2]
  simp only [switch_publisher]

/-- Witness of C26: `Liveliness publisher MANUAL_BY_TOPIC 250 7` runs the publisher with count
0 and sleep 250; with `99999999999` for `argv[3]`, a number outside the range of `int`, the
sleep is 1215752191. -/
theorem count_is_atoi_of_kind_name_witness :
    atoi "250" = atoi_number "250" ∧ atoi_number "250" = 250 ∧
    main_arguments ["Liveliness", "publisher", "MANUAL_BY_TOPIC", "99999999999", "7"]
      = Except.ok ⟨1, 0, atoi "99999999999", LivelinessKind.ManualByTopic⟩ ∧
    atoi "99999999999" = 1215752191 :=
  ⟨(count_is_atoi_of_kind_name failing_environment "Liveliness" LivelinessKind.ManualByTopic
      "250" "7" []).2.2.2.2.2 (by decide) (by decide),
    by decide,
    (count_is_atoi_of_kind_name failing_environment "Liveliness" LivelinessKind.ManualByTopic
      "99999999999" "7" []).2.2.1,
    by decide⟩

/-! ## The example program: an unknown role -/

/-- C27: in `main`, when `argv[1]` is present and is neither `publisher` nor `subscriber`, the
argument is not rejected: whatever follows it, the variables keep their initial values (type
1, count 10, sleep 1000, Automatic), so the program initialises a publisher with Automatic
liveliness and, when `init` succeeds, runs it with count 10 and sleep 1000. -/
theorem unknown_role_runs_default_publisher (env : ExampleEnvironment) (prog a1 : String)
    (rest : List String) (hp : a1 ≠ "publisher") (hs : a1 ≠ "subscriber") :
    main_arguments (prog :: a1 :: rest) = Except.ok ⟨1, 10, 1000, LivelinessKind.Automatic⟩ ∧
    main env (prog :: a1 :: rest)
      = ⟨0, [MainEvent.publisher_init LivelinessKind.Automatic] ++
          (if env.publisher_init LivelinessKind.Automatic
            then [MainEvent.publisher_run 10 1000] else []) ++
          [MainEvent.stop_all, MainEvent.log_reset]⟩ := by
  have h : main_arguments (prog :: a1 :: rest)
      = Except.ok ⟨1, 10, 1000, LivelinessKind.Automatic⟩ := by
    unfold main_arguments
    simp [hp, hs]
  refine ⟨h, ?_⟩
  unfold main
  rw [h]
  simp only [switch_publisher]

/-- Witness of C27: `Liveliness reader MANUAL_BY_TOPIC`. -/
theorem unknown_role_runs_default_publisher_witness :
    main failing_environment ["Liveliness", "reader", "MANUAL_BY_TOPIC"]
      = ⟨0, [MainEvent.publisher_init LivelinessKind.Automatic] ++
          (if failing_environment.publisher_init LivelinessKind.Automatic
            then [MainEvent.publisher_run 10 1000] else []) ++
          [MainEvent.stop_all, MainEvent.log_reset]⟩ :=
  (unknown_role_runs_default_publisher failing_environment "Liveliness" "reader"
    ["MANUAL_BY_TOPIC"] (by decide) (by decide)).2

/-! ## Discovery client: servers found and lost -/

theorem map_clear_getElem_opt (pfx : Nat) (servers : List RemoteServerAttributes) (i : Nat) :
    (servers.map (fun svr =>
        if svr.guidPrefix = pfx then { svr with proxy := none } else svr))[i]?
      = (servers[i]?).map (fun svr =>
        if svr.guidPrefix = pfx then { svr with proxy := none } else svr) := by
  simp

theorem map_clear_of_no_server (pfx : Nat) (servers : List RemoteServerAttributes)
    (h : ∀ svr ∈ servers, svr.guidPrefix ≠ pfx) :
    servers.map (fun svr =>
        if svr.guidPrefix = pfx then { svr with proxy := none } else svr) = servers := by
  induction servers with
  | nil => rfl
  | cons svr rest ih =>
    rw [List.map_cons, ih (fun s hs => h s (List.mem_cons_of_mem _ hs)),
      if_neg (h svr (List.mem_cons_self _ _))]

theorem filter_of_no_server (pfx : Nat) (servers : List RemoteServerAttributes)
    (h : ∀ svr ∈ servers, svr.guidPrefix ≠ pfx) :
    servers.filter (fun svr => svr.guidPrefix = pfx) = [] := by
  rw [List.filter_eq_nil_iff]
  intro svr hs
  simpa using h svr hs

theorem not_server_iff (c : PDPClient) (pfx : Nat) :
    c.is_server pfx = false ↔ ∀ svr ∈ c.m_DiscoveryServers, svr.guidPrefix ≠ pfx := by
  rw [← Bool.not_eq_true, is_server_iff]
  constructor
  · intro h svr hs he
    exact h ⟨svr, hs, he⟩
  · rintro h ⟨svr, hs, he⟩
    exact h svr hs he

/-- C23: `removeRemoteEndpoints(pdata)` keeps the table of discovery servers entry by entry,
except that the proxy of every server whose `guidPrefix` is the one of `pdata` becomes null;
no other member of the client changes.  `mp_sync` is restarted once per such server.  Apart
from the timer, the calls made are: `matched_writer_remove(watt)` then
`matched_writer_add(watt, false)` on the PDP reader exactly when `pdata` is a server and has
the `DISC_BUILTIN_ENDPOINT_PARTICIPANT_ANNOUNCER` bit, followed by `matched_reader_remove(ratt)`
then `matched_reader_add(ratt)` on the PDP writer exactly when `pdata` is a server and has the
`DISC_BUILTIN_ENDPOINT_PARTICIPANT_DETECTOR` bit, with `watt` and `ratt` made from the prefix
and the metatraffic locators of `pdata`.  When `pdata` is not a server the client is
unchanged and no call is made. -/
theorem removeRemoteEndpoints_clears_only_matching_servers (bits : BuiltinEndpointBits)
    (c : PDPClient) (pdata : ParticipantProxyData) :
    ((c.removeRemoteEndpoints bits pdata).1.m_DiscoveryServers.length
        = c.m_DiscoveryServers.length)
    ∧ (∀ (i : Nat) (svr : RemoteServerAttributes), c.m_DiscoveryServers[i]? = some svr →
        (c.removeRemoteEndpoints bits pdata).1.m_DiscoveryServers[i]?
          = some { svr with
              proxy := if svr.guidPrefix = pdata.m_guid.guidPrefix then none else svr.proxy })
    ∧ (c.removeRemoteEndpoints bits pdata).1.m_participantProxies = c.m_participantProxies
    ∧ (c.removeRemoteEndpoints bits pdata).1._serverPing = c._serverPing
    ∧ (c.removeRemoteEndpoints bits pdata).1.mp_PDPWriterHistory = c.mp_PDPWriterHistory
    ∧ (c.removeRemoteEndpoints bits pdata).1.mp_PDPWriter_guid = c.mp_PDPWriter_guid
    ∧ (c.removeRemoteEndpoints bits pdata).1.matched_readers = c.matched_readers
    ∧ ((c.removeRemoteEndpoints bits pdata).2.count EndpointCall.sync_restart_timer
        = (c.m_DiscoveryServers.filter
            (fun svr => svr.guidPrefix = pdata.m_guid.guidPrefix)).length)
    ∧ ((c.removeRemoteEndpoints bits pdata).2.filter
          (fun call => call ≠ EndpointCall.sync_restart_timer)
        = (if c.is_server pdata.m_guid.guidPrefix = true
              ∧ pdata.m_availableBuiltinEndpoints
                &&& bits.DISC_BUILTIN_ENDPOINT_PARTICIPANT_ANNOUNCER ≠ 0 then
            [EndpointCall.matched_writer_remove (PDPClient.removed_writer pdata),
             EndpointCall.matched_writer_add (PDPClient.removed_writer pdata) false]
          else [])
          ++ (if c.is_server pdata.m_guid.guidPrefix = true
              ∧ pdata.m_availableBuiltinEndpoints
                &&& bits.DISC_BUILTIN_ENDPOINT_PARTICIPANT_DETECTOR ≠ 0 then
            [EndpointCall.matched_reader_remove (PDPClient.removed_reader pdata),
             EndpointCall.matched_reader_add (PDPClient.removed_reader pdata)]
          else []))
    ∧ ((PDPClient.removed_writer pdata).guid.guidPrefix = pdata.m_guid.guidPrefix
        ∧ (PDPClient.removed_reader pdata).guid.guidPrefix = pdata.m_guid.guidPrefix)
    ∧ (c.is_server pdata.m_guid.guidPrefix = true
        ↔ ∃ svr ∈ c.m_DiscoveryServers, svr.guidPrefix = pdata.m_guid.guidPrefix)
    ∧ (c.is_server pdata.m_guid.guidPrefix = false →
        c.removeRemoteEndpoints bits pdata = (c, [])) := by
  refine ⟨?_, ?_, rfl, rfl, rfl, rfl, rfl, ?_, ?_, ⟨rfl, rfl⟩, is_server_iff c _, ?_⟩
  · simp [PDPClient.removeRemoteEndpoints]
  · intro i svr h
    show (c.m_DiscoveryServers.map _)[i]? = _
    rw [map_clear_getElem_opt, h, Option.map_some']
    by_cases hp : svr.guidPrefix = pdata.m_guid.guidPrefix
    · rw [if_pos hp, if_pos hp]
    · rw [if_neg hp, if_neg hp]
  · unfold PDPClient.removeRemoteEndpoints
    simp only [List.count_append]
    have h1 : ∀ (l : List RemoteServerAttributes),
        (l.map (fun _ => EndpointCall.sync_restart_timer)).count
          EndpointCall.sync_restart_timer = l.length := by
      intro l
      induction l with
      | nil => rfl
      | cons x xs ih => simp [ih]
    rw [h1]
    split
    · split <;> split <;> simp
    · simp
  · unfold PDPClient.removeRemoteEndpoints
    simp only [List.filter_append]
    have h1 : ∀ (l : List RemoteServerAttributes),
        (l.map (fun _ => EndpointCall.sync_restart_timer)).filter
          (fun call => call ≠ EndpointCall.sync_restart_timer) = [] := by
      intro l
      induction l with
      | nil => rfl
      | cons x xs ih => simp
    rw [h1]
    cases hs : c.is_server pdata.m_guid.guidPrefix
    · simp
    · by_cases ha : pdata.m_availableBuiltinEndpoints
          &&& bits.DISC_BUILTIN_ENDPOINT_PARTICIPANT_ANNOUNCER = 0 <;>
        by_cases hd : pdata.m_availableBuiltinEndpoints
          &&& bits.DISC_BUILTIN_ENDPOINT_PARTICIPANT_DETECTOR = 0 <;>
        simp [ha, hd]
  · intro h
    have hn := (not_server_iff c _).1 h
    unfold PDPClient.removeRemoteEndpoints
    rw [map_clear_of_no_server _ _ hn, filter_of_no_server _ _ hn, h]
    rfl

/-! ## Discovery client: the invariant of the server table -/

theorem assign_consistent (c : PDPClient) (p : ParticipantProxyData) (mp_WLP : Bool)
    (h : c.proxies_consistent) : (c.assignRemoteEndpoints p mp_WLP).1.proxies_consistent := by
  intro svr hs q hq
  simp only [PDPClient.assignRemoteEndpoints, List.mem_map] at hs
  obtain ⟨s, hs, rfl⟩ := hs
  by_cases hp : s.guidPrefix = p.m_guid.guidPrefix
  · rw [if_pos hp] at hq ⊢
    simp only [Option.some.injEq] at hq
    rw [← hq, hp]
  · rw [if_neg hp] at hq ⊢
    exact h s hs q hq

theorem remove_consistent (bits : BuiltinEndpointBits) (c : PDPClient)
    (p : ParticipantProxyData) (h : c.proxies_consistent) :
    (c.removeRemoteEndpoints bits p).1.proxies_consistent := by
  intro svr hs q hq
  simp only [PDPClient.removeRemoteEndpoints, List.mem_map] at hs
  obtain ⟨s, hs, rfl⟩ := hs
  by_cases hp : s.guidPrefix = p.m_guid.guidPrefix
  · rw [if_pos hp] at hq
    exact absurd hq (by simp)
  · rw [if_neg hp] at hq ⊢
    exact h s hs q hq

theorem remove_clears (bits : BuiltinEndpointBits) (c : PDPClient) (p : ParticipantProxyData) :
    ∀ svr ∈ (c.removeRemoteEndpoints bits p).1.m_DiscoveryServers,
      svr.guidPrefix = p.m_guid.guidPrefix → svr.proxy = none := by
  intro svr hs hp
  simp only [PDPClient.removeRemoteEndpoints, List.mem_map] at hs
  obtain ⟨s, _, rfl⟩ := hs
  by_cases hq : s.guidPrefix = p.m_guid.guidPrefix
  · rw [if_pos hq]
  · rw [if_neg hq] at hp
    exact absurd hp hq

theorem remove_keeps_server (bits : BuiltinEndpointBits) (c : PDPClient)
    (p : ParticipantProxyData) (pfx : Nat) :
    (c.removeRemoteEndpoints bits p).1.is_server pfx = c.is_server pfx := by
  rw [Bool.eq_iff_iff, is_server_iff, is_server_iff]
  simp only [PDPClient.removeRemoteEndpoints, List.mem_map]
  constructor
  · rintro ⟨svr, ⟨s, hs, rfl⟩, hp⟩
    refine ⟨s, hs, ?_⟩
    by_cases hq : s.guidPrefix = p.m_guid.guidPrefix
    · rw [if_pos hq] at hp
      exact hp
    · rw [if_neg hq] at hp
      exact hp
  · rintro ⟨s, hs, hp⟩
    refine ⟨_, ⟨s, hs, rfl⟩, ?_⟩
    by_cases hq : s.guidPrefix = p.m_guid.guidPrefix
    · rw [if_pos hq]
      exact hp
    · rw [if_neg hq]
      exact hp

theorem assign_keeps_server (c : PDPClient) (p : ParticipantProxyData) (mp_WLP : Bool)
    (pfx : Nat) :
    (c.assignRemoteEndpoints p mp_WLP).1.is_server pfx = c.is_server pfx := by
  rw [Bool.eq_iff_iff, is_server_iff, is_server_iff]
  simp only [PDPClient.assignRemoteEndpoints, List.mem_map]
  constructor
  · rintro ⟨svr, ⟨s, hs, rfl⟩, hp⟩
    refine ⟨s, hs, ?_⟩
    by_cases hq : s.guidPrefix = p.m_guid.guidPrefix
    · rw [if_pos hq] at hp
      exact hp
    · rw [if_neg hq] at hp
      exact hp
  · rintro ⟨s, hs, hp⟩
    refine ⟨_, ⟨s, hs, rfl⟩, ?_⟩
    by_cases hq : s.guidPrefix = p.m_guid.guidPrefix
    · rw [if_pos hq]
      exact hp
    · rw [if_neg hq]
      exact hp

/-- C24: if every discovery server of a client has a null proxy or a proxy with the
`guidPrefix` of the server, the same holds after `assignRemoteEndpoints(p)` and after
`removeRemoteEndpoints(p)`, for any participant proxy `p`.  After `assignRemoteEndpoints(p)`
followed by `removeRemoteEndpoints(p)` every server with the prefix of `p` has a null
proxy, and when the client has such a server `match_servers_EDP_endpoints` then returns
false, whatever the endpoint discovery and its state. -/
theorem server_proxies_keep_server_guid (bits : BuiltinEndpointBits) (c : PDPClient)
    (p : ParticipantProxyData) (mp_WLP : Bool) (h : c.proxies_consistent) :
    (c.assignRemoteEndpoints p mp_WLP).1.proxies_consistent
    ∧ (c.removeRemoteEndpoints bits p).1.proxies_consistent
    ∧ (((c.assignRemoteEndpoints p mp_WLP).1.removeRemoteEndpoints bits p).1).proxies_consistent
    ∧ (∀ svr ∈ (((c.assignRemoteEndpoints p mp_WLP).1.removeRemoteEndpoints bits
          p).1).m_DiscoveryServers,
        svr.guidPrefix = p.m_guid.guidPrefix → svr.proxy = none)
    ∧ ((∃ svr ∈ c.m_DiscoveryServers, svr.guidPrefix = p.m_guid.guidPrefix) →
        ∀ (σ : Type) (edp : EDP σ) (st : σ),
          (PDPClient.match_servers_EDP_endpoints edp
            ((c.assignRemoteEndpoints p mp_WLP).1.removeRemoteEndpoints bits p).1 st).1
            = false) := by
  refine ⟨assign_consistent c p mp_WLP h, remove_consistent bits c p h,
    remove_consistent bits _ p (assign_consistent c p mp_WLP h), remove_clears bits _ p, ?_⟩
  intro hex σ edp st
  have hsrv : (((c.assignRemoteEndpoints p mp_WLP).1.removeRemoteEndpoints bits p).1).is_server
      p.m_guid.guidPrefix = true := by
    rw [remove_keeps_server, assign_keeps_server]
    exact (is_server_iff c _).2 hex
  obtain ⟨svr, hs, hp⟩ := (is_server_iff _ _).1 hsrv
  unfold PDPClient.match_servers_EDP_endpoints
  rw [match_servers_all, List.all_eq_false]
  exact ⟨svr, hs, by rw [remove_clears bits _ p svr hs hp]; simp⟩

theorem server_proxies_keep_server_guid_witness :
    test_client.proxies_consistent
    ∧ (∃ svr ∈ test_client.m_DiscoveryServers, svr.guidPrefix = 10)
    ∧ (PDPClient.match_servers_EDP_endpoints test_edp test_client []).1 = false
    ∧ (PDPClient.match_servers_EDP_endpoints test_edp
        (test_client.assignRemoteEndpoints
          ⟨⟨20, EntityId_t.c_EntityId_RTPSParticipant⟩, 0, ⟨1, 0⟩, 3, [3], [4], true, none⟩
          true).1 []).1 = true
    ∧ (PDPClient.match_servers_EDP_endpoints test_edp
        ((test_client.assignRemoteEndpoints
          ⟨⟨20, EntityId_t.c_EntityId_RTPSParticipant⟩, 0, ⟨1, 0⟩, 3, [3], [4], true, none⟩
          true).1.removeRemoteEndpoints rtps_bits
          ⟨⟨20, EntityId_t.c_EntityId_RTPSParticipant⟩, 0, ⟨1, 0⟩, 3, [3], [4], true, none⟩).1
        []).1 = false :=
  ⟨by decide, by decide, by decide, by decide,
    (server_proxies_keep_server_guid rtps_bits test_client
      ⟨⟨20, EntityId_t.c_EntityId_RTPSParticipant⟩, 0, ⟨1, 0⟩, 3, [3], [4], true, none⟩ true
      (by decide)).2.2.2.2 (by decide) _ test_edp []⟩

/-! ## Discovery client: the endpoint mask -/

theorem or_and_right (a b : Nat) : (a ||| b) &&& b = b := by
  apply Nat.eq_of_testBit_eq
  intro i
  rw [Nat.testBit_and, Nat.testBit_or]
  cases a.testBit i <;> cases b.testBit i <;> rfl

theorem and_or_left (a b : Nat) : a &&& (a ||| b) = a := by
  apply Nat.eq_of_testBit_eq
  intro i
  rw [Nat.testBit_and, Nat.testBit_or]
  cases a.testBit i <;> cases b.testBit i <;> rfl

theorem endpoint_mask_testBit (bits : BuiltinEndpointBits) (edp : SimpleEDPAttributes)
    (m i : Nat) :
    (PDPClient.endpoint_mask bits edp m).testBit i
      = (m.testBit i
        || (edp.use_PublicationWriterANDSubscriptionReader
            && (bits.DISC_BUILTIN_ENDPOINT_PUBLICATION_ANNOUNCER.testBit i
              || bits.DISC_BUILTIN_ENDPOINT_SUBSCRIPTION_DETECTOR.testBit i))
        || (edp.use_PublicationReaderANDSubscriptionWriter
            && (bits.DISC_BUILTIN_ENDPOINT_PUBLICATION_DETECTOR.testBit i
              || bits.DISC_BUILTIN_ENDPOINT_SUBSCRIPTION_ANNOUNCER.testBit i))) := by
  unfold PDPClient.endpoint_mask
  cases edp.use_PublicationWriterANDSubscriptionReader <;>
    cases edp.use_PublicationReaderANDSubscriptionWriter <;>
    simp [Nat.testBit_or, Bool.or_assoc]

/-- C25: the endpoint-mask step of `initializeParticipantProxyData`, for any values of the
four `DISC_BUILTIN_ENDPOINT_*` masks.  A bit of the result is set exactly when it was set
before, or belongs to `PUBLICATION_ANNOUNCER` or `SUBSCRIPTION_DETECTOR` and
`use_PublicationWriterANDSubscriptionReader` is true, or belongs to `PUBLICATION_DETECTOR` or
`SUBSCRIPTION_ANNOUNCER` and `use_PublicationReaderANDSubscriptionWriter` is true.  So every
bit set before stays set, the two masks of a true flag are contained in the result, with both
flags false the mask is unchanged, the step applied twice gives what it gives applied once,
and a mask below `2 ^ 32` stays below `2 ^ 32` when the four masks are.  The whole function
returns what `PDP::initializeParticipantProxyData` left with only this change of
`m_availableBuiltinEndpoints`. -/
theorem endpoint_mask_only_adds_bits (bits : BuiltinEndpointBits) (edp : SimpleEDPAttributes)
    (m : Nat) :
    (∀ i : Nat, (PDPClient.endpoint_mask bits edp m).testBit i
      = (m.testBit i
        || (edp.use_PublicationWriterANDSubscriptionReader
            && (bits.DISC_BUILTIN_ENDPOINT_PUBLICATION_ANNOUNCER.testBit i
              || bits.DISC_BUILTIN_ENDPOINT_SUBSCRIPTION_DETECTOR.testBit i))
        || (edp.use_PublicationReaderANDSubscriptionWriter
            && (bits.DISC_BUILTIN_ENDPOINT_PUBLICATION_DETECTOR.testBit i
              || bits.DISC_BUILTIN_ENDPOINT_SUBSCRIPTION_ANNOUNCER.testBit i))))
    ∧ m &&& PDPClient.endpoint_mask bits edp m = m
    ∧ (edp.use_PublicationWriterANDSubscriptionReader = true →
        PDPClient.endpoint_mask bits edp m &&& bits.DISC_BUILTIN_ENDPOINT_PUBLICATION_ANNOUNCER
            = bits.DISC_BUILTIN_ENDPOINT_PUBLICATION_ANNOUNCER
          ∧ PDPClient.endpoint_mask bits edp m
              &&& bits.DISC_BUILTIN_ENDPOINT_SUBSCRIPTION_DETECTOR
            = bits.DISC_BUILTIN_ENDPOINT_SUBSCRIPTION_DETECTOR)
    ∧ (edp.use_PublicationReaderANDSubscriptionWriter = true →
        PDPClient.endpoint_mask bits edp m &&& bits.DISC_BUILTIN_ENDPOINT_PUBLICATION_DETECTOR
            = bits.DISC_BUILTIN_ENDPOINT_PUBLICATION_DETECTOR
          ∧ PDPClient.endpoint_mask bits edp m
              &&& bits.DISC_BUILTIN_ENDPOINT_SUBSCRIPTION_ANNOUNCER
            = bits.DISC_BUILTIN_ENDPOINT_SUBSCRIPTION_ANNOUNCER)
    ∧ (edp.use_PublicationWriterANDSubscriptionReader = false →
        edp.use_PublicationReaderANDSubscriptionWriter = false →
        PDPClient.endpoint_mask bits edp m = m)
    ∧ PDPClient.endpoint_mask bits edp (PDPClient.endpoint_mask bits edp m)
        = PDPClient.endpoint_mask bits edp m
    ∧ (m < 2 ^ 32 →
        bits.DISC_BUILTIN_ENDPOINT_PUBLICATION_ANNOUNCER < 2 ^ 32 →
        bits.DISC_BUILTIN_ENDPOINT_SUBSCRIPTION_DETECTOR < 2 ^ 32 →
        bits.DISC_BUILTIN_ENDPOINT_PUBLICATION_DETECTOR < 2 ^ 32 →
        bits.DISC_BUILTIN_ENDPOINT_SUBSCRIPTION_ANNOUNCER < 2 ^ 32 →
        PDPClient.endpoint_mask bits edp m < 2 ^ 32)
    ∧ (∀ (base : ParticipantProxyData → ParticipantProxyData) (discoveryProtocol : PDPType_t)
        (participant_data : ParticipantProxyData),
        (PDPClient.initializeParticipantProxyData bits base discoveryProtocol edp
            participant_data).1
          = { base participant_data with
              m_availableBuiltinEndpoints :=
                PDPClient.endpoint_mask bits edp
                  (base participant_data).m_availableBuiltinEndpoints }) := by
  refine ⟨endpoint_mask_testBit bits edp m, ?_, ?_, ?_, ?_, ?_, ?_, fun _ _ _ => rfl⟩
  · apply Nat.eq_of_testBit_eq
    intro i
    rw [Nat.testBit_and, endpoint_mask_testBit]
    cases m.testBit i <;> simp
  · intro h
    constructor <;>
    · apply Nat.eq_of_testBit_eq
      intro i
      rw [Nat.testBit_and, endpoint_mask_testBit, h]
      cases bits.DISC_BUILTIN_ENDPOINT_PUBLICATION_ANNOUNCER.testBit i <;>
        cases bits.DISC_BUILTIN_ENDPOINT_SUBSCRIPTION_DETECTOR.testBit i <;> simp
  · intro h
    constructor <;>
    · apply Nat.eq_of_testBit_eq
      intro i
      rw [Nat.testBit_and, endpoint_mask_testBit, h]
      cases bits.DISC_BUILTIN_ENDPOINT_PUBLICATION_DETECTOR.testBit i <;>
        cases bits.DISC_BUILTIN_ENDPOINT_SUBSCRIPTION_ANNOUNCER.testBit i <;> simp
  · intro h1 h2
    unfold PDPClient.endpoint_mask
    rw [h1, h2]
    rfl
  · apply Nat.eq_of_testBit_eq
    intro i
    rw [endpoint_mask_testBit, endpoint_mask_testBit]
    cases m.testBit i <;> cases edp.use_PublicationWriterANDSubscriptionReader <;>
      cases edp.use_PublicationReaderANDSubscriptionWriter <;>
      cases bits.DISC_BUILTIN_ENDPOINT_PUBLICATION_ANNOUNCER.testBit i <;>
      cases bits.DISC_BUILTIN_ENDPOINT_SUBSCRIPTION_DETECTOR.testBit i <;>
      cases bits.DISC_BUILTIN_ENDPOINT_PUBLICATION_DETECTOR.testBit i <;>
      cases bits.DISC_BUILTIN_ENDPOINT_SUBSCRIPTION_ANNOUNCER.testBit i <;> rfl
  · intro hm h1 h2 h3 h4
    unfold PDPClient.endpoint_mask
    split <;> split <;>
      first
        | exact hm
        | exact Nat.or_lt_two_pow (Nat.or_lt_two_pow hm h1) h2
        | exact Nat.or_lt_two_pow (Nat.or_lt_two_pow hm h3) h4
        | exact Nat.or_lt_two_pow (Nat.or_lt_two_pow
            (Nat.or_lt_two_pow (Nat.or_lt_two_pow hm h1) h2) h3) h4

theorem endpoint_mask_only_adds_bits_witness :
    PDPClient.endpoint_mask rtps_bits ⟨true, false⟩ 3 = 3 + 4 + 32
    ∧ PDPClient.endpoint_mask rtps_bits ⟨false, true⟩ 3 = 3 + 8 + 16
    ∧ PDPClient.endpoint_mask rtps_bits ⟨true, true⟩ 7 = 63
    ∧ PDPClient.endpoint_mask rtps_bits ⟨true, false⟩
        (PDPClient.endpoint_mask rtps_bits ⟨true, false⟩ 3) = 39
    ∧ 3 &&& PDPClient.endpoint_mask rtps_bits ⟨true, false⟩ 3 = 3 :=
  ⟨by decide, by decide, by decide, by decide,
    (endpoint_mask_only_adds_bits rtps_bits ⟨true, false⟩ 3).2.1⟩

/-! ## The announcement period of `TwoWriters_TwoReaders_ManualByParticipant` -/

theorem configure_attr (to_Duration_t : Nat → Duration_t) (topicName : String)
    (p : PublishingParticipant) :
    (manual_by_participant_configure to_Duration_t topicName p).publisher_attr_.qos.m_liveliness
      = ⟨LivelinessKind.ManualByParticipant,
          to_Duration_t manual_by_participant_lease_duration_s,
          to_Duration_t manual_by_participant_announcement_period_s⟩ := rfl

/-- C30: in the test `TwoWriters_TwoReaders_ManualByParticipant`, `announcement_period_s` is
0 (the `double` 0.5 loses its fractional part when stored in the `unsigned int`) and
`lease_duration_s` is 1; the attributes handed to `createPublisher` at both `init_publisher`
calls hold the `Duration_t` made from 0 as announcement period and the one made from 1 as
lease duration, with kind `MANUAL_BY_PARTICIPANT`.  When the conversion gives `{0, 0}` for 0
and `{1, 0}` for 1 second, the announcement period is less than the lease duration in both,
and it is not the half second `{0, 500000000}`. -/
theorem announcement_period_truncates_to_zero (to_Duration_t : Nat → Duration_t)
    (TEST_TOPIC_NAME : String) (created0 created1 : Option Nat)
    (publishers : PublishingParticipant)
    (h0 : to_Duration_t 0 = ⟨0, 0⟩) (h1 : to_Duration_t 1 = ⟨1, 0⟩) :
    manual_by_participant_announcement_period_s = 0
    ∧ manual_by_participant_lease_duration_s = 1
    ∧ ((two_writers_manual_by_participant_publishers to_Duration_t TEST_TOPIC_NAME created0
          created1 publishers).1.map (fun r => r.2.qos.m_liveliness)
        = [⟨LivelinessKind.ManualByParticipant, to_Duration_t 1, to_Duration_t 0⟩,
           ⟨LivelinessKind.ManualByParticipant, to_Duration_t 1, to_Duration_t 0⟩])
    ∧ (∀ r ∈ (two_writers_manual_by_participant_publishers to_Duration_t TEST_TOPIC_NAME
          created0 created1 publishers).1,
        r.2.qos.m_liveliness.announcement_period = ⟨0, 0⟩
        ∧ r.2.qos.m_liveliness.announcement_period ≠ ⟨0, 500000000⟩
        ∧ r.2.qos.m_liveliness.lease_duration = ⟨1, 0⟩
        ∧ Duration_t.lt r.2.qos.m_liveliness.announcement_period
            r.2.qos.m_liveliness.lease_duration = true) := by
  have ha : manual_by_participant_announcement_period_s = 0 := by decide
  have hl : manual_by_participant_lease_duration_s = 1 := rfl
  refine ⟨ha, hl, ?_, ?_⟩
  · simp only [two_writers_manual_by_participant_publishers, List.map_cons, List.map_nil,
      configure_attr, ha, hl]
  · intro r hr
    simp only [two_writers_manual_by_participant_publishers, List.mem_cons,
      List.mem_singleton, List.not_mem_nil, or_false] at hr
    rcases hr with rfl | rfl <;>
    · simp only [configure_attr, ha, hl, h0, h1]
      decide

theorem announcement_period_truncates_to_zero_witness :
    (two_writers_manual_by_participant_publishers (fun n => ⟨n, 0⟩) "topic" (some 1) (some 2)
        test_publishers).1.map (fun r => (r.1, r.2.topic.topicName, r.2.qos.m_liveliness))
      = [(true, "topic1", ⟨LivelinessKind.ManualByParticipant, ⟨1, 0⟩, ⟨0, 0⟩⟩),
         (true, "topic2", ⟨LivelinessKind.ManualByParticipant, ⟨1, 0⟩, ⟨0, 0⟩⟩)]
    ∧ ∀ r ∈ (two_writers_manual_by_participant_publishers (fun n => ⟨n, 0⟩) "topic" (some 1)
          (some 2) test_publishers).1,
        r.2.qos.m_liveliness.announcement_period = ⟨0, 0⟩ :=
  ⟨by decide,
    fun r hr => ((announcement_period_truncates_to_zero (fun n => ⟨n, 0⟩) "topic" (some 1)
      (some 2) test_publishers rfl rfl).2.2.2 r hr).1⟩

/-! ## Several ManualByParticipant writers matched to one reader -/

theorem refresh_refresh (e : LeaseEntry) (now : Nat) :
    (e.refresh now).refresh now = e.refresh now := rfl

end Liveliness
